import Mathlib

/-!
# Inference state machine of the PSoC6 Bluetooth AI ball firmware

A shallow embedding of `src/ei_run_audio_impulse.cpp` (the inference state
machine and the result reporter) together with the parts of
`src/ei_device_psoc62.cpp` (`set_state`) and `src/ei_bluetooth_psoc63.cpp`
(`bt_app_send_notification`) that the state machine calls.

Conventions of the embedding:

* the file-scope statics of the C++ sources are the fields of `State`;
* every C function becomes a function `State → State` taking, as an extra
  argument, the values that the outside world returns during the call (timer
  reading, sampling flag, classifier status and result);
* commands sent to collaborators that are not part of the sources (microphone
  driver, classifier SDK, BLE stack) are appended to `State.trace`; pure
  queries (`ei_read_timer_ms`, `ei_microphone_inference_is_recording`) are
  inputs and leave no trace entry;
* console output (`ei_printf`) is not modelled;
* `uint64_t` values are natural numbers and arithmetic on them is reduced
  modulo `2 ^ 64` explicitly; a timer reading is meaningful below `2 ^ 64`;
* the `int` counter `print_results` is an unbounded integer.
-/

namespace PSoC6

/-! ## Data model -/

/-- The enumeration `inference_state_t` of `ei_run_audio_impulse.cpp`. -/
inductive inference_state_t
  | INFERENCE_STOPPED
  | INFERENCE_WAITING
  | INFERENCE_SAMPLING
  | INFERENCE_DATA_READY
  deriving DecidableEq, Repr

/-- Modelled from the spec: the enumeration `EiState` is declared in a header
that is not among the sources; the spec lists the device modes as Idle,
ErasingFlash, Sampling, Uploading and Finished, and `set_state` switches over
exactly these five names. -/
inductive EiState
  | eiStateIdle
  | eiStateErasingFlash
  | eiStateSampling
  | eiStateUploading
  | eiStateFinished
  deriving DecidableEq, Repr

/-- The enumeration `ble_char_index` of `ei_bluetooth_psoc63.h`. -/
inductive ble_char_index
  | CLASS_RESULT
  | INFERENCE
  | SETTINGS
  deriving DecidableEq, Repr

/-- Numeric value of a `ble_char_index` enumerator. -/
def ble_char_index.toNat : ble_char_index → Nat
  | .CLASS_RESULT => 0
  | .INFERENCE => 1
  | .SETTINGS => 2

/-- Modulus of `uint64_t` arithmetic. -/
def UINT64_MOD : Nat := 2 ^ 64

/-- Modulus of `uint16_t` arithmetic. -/
def UINT16_MOD : Nat := 2 ^ 16

/-- The status `EI_IMPULSE_OK` of the classifier SDK (value 0 of
`EI_IMPULSE_ERROR`); every other value is an error code. -/
def EI_IMPULSE_OK : Int := 0

/-- The client-configuration value `GATT_CLIENT_CONFIG_NOTIFICATION` of the BLE
stack headers. -/
def GATT_CLIENT_CONFIG_NOTIFICATION : Nat := 1

/-- The constants that `ei_run_audio_impulse.cpp` takes from generated headers
(`model_metadata.h`, `cycfg_gatt_db.h`), which are not among the sources. -/
structure Config where
  EI_CLASSIFIER_SLICES_PER_MODEL_WINDOW : Nat
  EI_CLASSIFIER_SLICE_SIZE : Nat
  EI_CLASSIFIER_RAW_SAMPLE_COUNT : Nat
  EI_CLASSIFIER_RAW_SAMPLES_PER_FRAME : Nat
  app_edge_impulse_class_result_len : Nat
  deriving DecidableEq, Repr

/-- One entry `result->classification[ix]`: a C string (its bytes, the
terminating NUL left implicit) and a confidence, taken as an exact rational. -/
structure ei_impulse_result_classification_t where
  label : List Nat
  value : ℚ
  deriving DecidableEq

/-- The part of `ei_impulse_result_t` that the firmware stores or acts on: the
array `classification[EI_CLASSIFIER_LABEL_COUNT]`.  The anomaly score and the
timing block are only printed. -/
structure ei_impulse_result_t where
  classification : List ei_impulse_result_classification_t
  deriving DecidableEq

/-- Commands issued to collaborators outside the sources, in call order. -/
inductive Event
  | set_sample_length_ms
  | set_sample_interval_ms
  | run_classifier_init
  | run_classifier_deinit
  | ei_microphone_inference_start (n_samples : Nat)
  | ei_microphone_inference_end
  | ei_microphone_inference_reset_buffers
  | run_classifier (total_length : Nat) (debug : Bool)
  | run_classifier_continuous (total_length : Nat) (debug : Bool)
  | display_results
  | wiced_bt_gatt_server_send_notification (conn_id : Nat)
  deriving DecidableEq, Repr

/-- True for the two classifier entry points. -/
def Event.isClassifier : Event → Bool
  | .run_classifier _ _ => true
  | .run_classifier_continuous _ _ => true
  | _ => false

/-- True for a call into the sampling subsystem (the microphone driver). -/
def Event.isSampling : Event → Bool
  | .ei_microphone_inference_start _ => true
  | .ei_microphone_inference_end => true
  | .ei_microphone_inference_reset_buffers => true
  | _ => false

/-- The members of `EiDevicePSoC62` that `set_state` and `led_handler` touch:
the stored mode, the LED timer and the two LED outputs. -/
structure EiDevicePSoC62 where
  state : EiState
  led_timer_running : Bool
  CYBSP_USER_LED1 : Bool
  CYBSP_USER_LED2 : Bool
  deriving DecidableEq, Repr

/-- The mutable globals of the firmware that the inference core reads or
writes, and the trace of commands issued so far. -/
structure State where
  print_results : Int
  samples_per_inference : Nat
  inference_state : inference_state_t
  last_inference_ts : Nat
  continuous_mode : Bool
  debug_mode : Bool
  ble_inference_settings_ready : Int
  dev : EiDevicePSoC62
  app_edge_impulse_settings : List Nat
  app_edge_impulse_class_result : List Nat
  app_edge_impulse_class_result_client_char_config : List Nat
  bt_connection_id : Nat
  trace : List Event
  deriving DecidableEq

/-- What the outside world returns during one call of `ei_run_impulse`: the
timer reading (the call reads the timer at most once), the sampling flag, and
the status and result of the classifier. -/
structure RunInputs where
  ei_read_timer_ms : Nat
  ei_microphone_inference_is_recording : Bool
  ei_error : Int
  result : ei_impulse_result_t
  deriving DecidableEq

/-- What the outside world returns during one call of `ei_start_impulse`. -/
structure StartInputs where
  ei_read_timer_ms : Nat
  ei_microphone_inference_start : Bool
  deriving DecidableEq, Repr

open inference_state_t EiState

/-! ## Byte buffers -/

/-- The C function `strlen` on the bytes found at a pointer. -/
def c_strlen (p : List Nat) : Nat := (p.takeWhile (fun b => b != 0)).length

/-- Store the bytes of the first argument at consecutive indices starting at
the index given second, returning the memory and the list of stores made.  A store beyond the modelled window is
recorded but does not change the window. -/
def store_bytes : List Nat → Nat → List Nat → List (Nat × Nat) → List Nat × List (Nat × Nat)
  | [], _, mem, log => (mem, log)
  | b :: rest, i, mem, log => store_bytes rest (i + 1) (mem.set i b) (log ++ [(i, b)])

/-- The C function `memset(mem, val, n)`. -/
def c_memset (mem : List Nat) (val n : Nat) : List Nat × List (Nat × Nat) :=
  store_bytes (List.replicate n val) 0 mem []

/-- The C function `memcpy(mem, src, n)`, for `n ≤ strlen src`. -/
def c_memcpy (mem : List Nat) (src : List Nat) (n : Nat) : List Nat × List (Nat × Nat) :=
  store_bytes (src.take n) 0 mem []

/-! ## Device registry (`ei_device_psoc62.cpp`) -/

/-- The method `EiDevicePSoC62::set_state`. -/
def EiDevicePSoC62.set_state (dev : EiDevicePSoC62) (state : EiState) : EiDevicePSoC62 :=
  let dev1 := { dev with state := state }
  let dev2 := { dev1 with CYBSP_USER_LED1 := true }
  let dev3 := { dev2 with CYBSP_USER_LED2 := true }
  match state with
  | eiStateErasingFlash => { dev3 with led_timer_running := true }
  | eiStateSampling => { dev3 with led_timer_running := true }
  | eiStateUploading => { dev3 with led_timer_running := true }
  | eiStateFinished => { dev3 with led_timer_running := true }
  | eiStateIdle => { dev3 with led_timer_running := false }

/-- The method `EiDevicePSoC62::get_state`. -/
def EiDevicePSoC62.get_state (dev : EiDevicePSoC62) : EiState := dev.state

/-- The call `dev->set_state(state)` on the device singleton. -/
def set_state (state : EiState) (s : State) : State :=
  { s with dev := s.dev.set_state state }

/-- Append one command to the trace. -/
def emit (e : Event) (s : State) : State :=
  { s with trace := s.trace ++ [e] }

/-! ## Notification channel (`ei_bluetooth_psoc63.cpp`) -/

/-- The function `bt_app_send_notification`; `index` is the `uint8_t`
argument. -/
def bt_app_send_notification (index : Nat) (s : State) : State :=
  if index = ble_char_index.CLASS_RESULT.toNat then
    if GATT_CLIENT_CONFIG_NOTIFICATION = s.app_edge_impulse_class_result_client_char_config.getD 0 0
        ∧ 0 ≠ s.bt_connection_id then
      emit (.wiced_bt_gatt_server_send_notification s.bt_connection_id) s
    else s
  else s

/-! ## Result reporter (`display_results`, lines 47-105) -/

/-- The body of the catalog loop of `display_results` (lines 59-71), started
at label `ix` with `total_len` bytes already accounted for.  `len` is
`app_edge_impulse_class_result_len`, the bound the loop checks against.  The
call `strncat(&settings[total_len], label, copylen)` appends at the first NUL
found from `total_len` on and writes a terminating NUL; byte 47 is the
delimiter `/`. -/
def catalog_loop (len : Nat) :
    List ei_impulse_result_classification_t → Nat → List Nat → List (Nat × Nat) →
      List Nat × List (Nat × Nat)
  | [], _, mem, log => (mem, log)
  | c :: rest, total_len, mem, log =>
    let copylen := c_strlen c.label
    if total_len + copylen > len then (mem, log)
    else
      let dst := total_len + c_strlen (mem.drop total_len)
      let r := store_bytes (c.label.take copylen ++ [0]) dst mem log
      let total_len1 := total_len + copylen
      catalog_loop len rest (total_len1 + 1) (r.1.set total_len1 47) (r.2 ++ [(total_len1, 47)])

/-- The catalog builder of `display_results` (lines 56-71): the `memset` of the
settings buffer followed by the loop over all labels.  Returns the settings
memory and every store made, in order. -/
def catalog_build (len : Nat) (result : ei_impulse_result_t) (settings : List Nat) :
    List Nat × List (Nat × Nat) :=
  let m := c_memset settings 0 len
  catalog_loop len result.classification 0 m.1 m.2

/-- The arg-max loop of `display_results` (lines 89-94), started at index `ix`
with running maximum `max` found at `max_ix`; returns the final `max_ix`. -/
def find_max_ix : List ei_impulse_result_classification_t → Nat → ℚ → Nat → Nat
  | [], _, _, max_ix => max_ix
  | c :: rest, ix, max, max_ix =>
    if c.value > max then find_max_ix rest (ix + 1) c.value ix
    else find_max_ix rest (ix + 1) max max_ix

/-- The label `result->classification[max_ix].label`; reading past the array
yields the empty string in the model. -/
def label_at (result : ei_impulse_result_t) (max_ix : Nat) : List Nat :=
  match result.classification[max_ix]? with
  | some c => c.label
  | none => []

/-- The staging of the winning label (lines 95-103): `memset` of the
notification buffer followed by `memcpy` of the clipped label.  Returns the
buffer and every store made, in order. -/
def stage_label (len : Nat) (label : List Nat) (class_result : List Nat) :
    List Nat × List (Nat × Nat) :=
  let label_len := c_strlen label
  let label_len := if label_len > len then len else label_len
  let m := c_memset class_result 0 len
  let c := c_memcpy m.1 label label_len
  (c.1, m.2 ++ c.2)

/-- The function `display_results`.  The static local
`ble_inference_settings_ready` is the field of the same name. -/
def display_results (cfg : Config) (result : ei_impulse_result_t) (s : State) : State :=
  let s := emit .display_results s
  let s :=
    if s.ble_inference_settings_ready = 0 then
      { s with
        app_edge_impulse_settings :=
          (catalog_build cfg.app_edge_impulse_class_result_len result
            s.app_edge_impulse_settings).1
        ble_inference_settings_ready := s.ble_inference_settings_ready + 1 }
    else s
  let max_ix := find_max_ix result.classification 0 0 0
  let s :=
    { s with
      app_edge_impulse_class_result :=
        (stage_label cfg.app_edge_impulse_class_result_len (label_at result max_ix)
          s.app_edge_impulse_class_result).1 }
  bt_app_send_notification ble_char_index.CLASS_RESULT.toNat s

/-! ## Inference state machine (`ei_run_audio_impulse.cpp`) -/

/-- The second half of `ei_run_impulse` (lines 136-173), reached from
`INFERENCE_SAMPLING` once collection has ended and from
`INFERENCE_DATA_READY`: run the classifier, report, and choose the next
state. -/
def ei_run_impulse_classify (cfg : Config) (inp : RunInputs) (s : State) : State :=
  let total_length :=
    if s.continuous_mode then cfg.EI_CLASSIFIER_SLICE_SIZE
    else cfg.EI_CLASSIFIER_RAW_SAMPLE_COUNT
  let s :=
    if s.continuous_mode = true then
      emit (.run_classifier_continuous total_length s.debug_mode) s
    else
      emit (.run_classifier total_length s.debug_mode) s
  if inp.ei_error ≠ EI_IMPULSE_OK then s
  else
    let s :=
      if s.continuous_mode = true then
        let s := { s with print_results := s.print_results + 1 }
        if s.print_results ≥ ((cfg.EI_CLASSIFIER_SLICES_PER_MODEL_WINDOW >>> 1 : Nat) : Int) then
          let s := display_results cfg inp.result s
          { s with print_results := 0 }
        else s
      else
        display_results cfg inp.result s
    if s.continuous_mode = true then
      { s with inference_state := INFERENCE_SAMPLING }
    else
      let s := { s with last_inference_ts := inp.ei_read_timer_ms }
      { s with inference_state := INFERENCE_WAITING }

/-- The function `ei_run_impulse`: one step of the state machine. -/
def ei_run_impulse (cfg : Config) (inp : RunInputs) (s : State) : State :=
  match s.inference_state with
  | INFERENCE_STOPPED => s
  | INFERENCE_WAITING =>
    if inp.ei_read_timer_ms < (s.last_inference_ts + 2000) % UINT64_MOD then s
    else
      let s := { s with inference_state := INFERENCE_SAMPLING }
      let s := set_state eiStateSampling s
      emit .ei_microphone_inference_reset_buffers s
  | INFERENCE_SAMPLING =>
    if inp.ei_microphone_inference_is_recording then s
    else
      let s := { s with inference_state := INFERENCE_DATA_READY }
      ei_run_impulse_classify cfg inp s
  | INFERENCE_DATA_READY => ei_run_impulse_classify cfg inp s

/-- The function `ei_start_impulse`.  The argument `use_max_uart_speed` is
not used by the body. -/
def ei_start_impulse (cfg : Config) (inp : StartInputs) (continuous debug : Bool)
    (use_max_uart_speed : Bool) (s : State) : State :=
  let _ := use_max_uart_speed
  let s := { s with continuous_mode := continuous }
  let s := { s with debug_mode := debug }
  let s := emit .set_sample_length_ms s
  let s := emit .set_sample_interval_ms s
  let s :=
    if continuous = true then
      let s := { s with samples_per_inference :=
        (cfg.EI_CLASSIFIER_SLICE_SIZE * cfg.EI_CLASSIFIER_RAW_SAMPLES_PER_FRAME) % UINT16_MOD }
      let s := { s with print_results := -(cfg.EI_CLASSIFIER_SLICES_PER_MODEL_WINDOW : Int) }
      let s := emit .run_classifier_init s
      { s with inference_state := INFERENCE_SAMPLING }
    else
      let s := { s with samples_per_inference :=
        (cfg.EI_CLASSIFIER_RAW_SAMPLE_COUNT * cfg.EI_CLASSIFIER_RAW_SAMPLES_PER_FRAME)
          % UINT16_MOD }
      let s := { s with last_inference_ts := inp.ei_read_timer_ms }
      { s with inference_state := INFERENCE_WAITING }
  let s := emit (.ei_microphone_inference_start
    (if s.continuous_mode then cfg.EI_CLASSIFIER_SLICE_SIZE
     else cfg.EI_CLASSIFIER_RAW_SAMPLE_COUNT)) s
  if inp.ei_microphone_inference_start = false then s
  else s

/-- The function `ei_stop_impulse`. -/
def ei_stop_impulse (s : State) : State :=
  if s.inference_state ≠ INFERENCE_STOPPED then
    let s := emit .ei_microphone_inference_end s
    let s := { s with inference_state := INFERENCE_STOPPED }
    let s := set_state eiStateFinished s
    emit .run_classifier_deinit s
  else s

/-- The function `is_inference_running`. -/
def is_inference_running (s : State) : Bool :=
  s.inference_state != INFERENCE_STOPPED

/-- The commands issued between state `s` and a later state `s2`. -/
def emitted (s s2 : State) : List Event := s2.trace.drop s.trace.length

/-- A run of `ei_run_impulse` steps, one per element of `ins`, with no other
call in between. -/
def run_steps (cfg : Config) (s : State) (ins : List RunInputs) : State :=
  ins.foldl (fun st inp => ei_run_impulse cfg inp st) s

/-- The notification commands that `bt_app_send_notification(CLASS_RESULT)`
issues in state `s`. -/
def notify_events (s : State) : List Event :=
  if GATT_CLIENT_CONFIG_NOTIFICATION = s.app_edge_impulse_class_result_client_char_config.getD 0 0
      ∧ 0 ≠ s.bt_connection_id then
    [.wiced_bt_gatt_server_send_notification s.bt_connection_id]
  else []

/-- The call of the classifier entry point that a step makes in state `s`. -/
def classifier_call (cfg : Config) (s : State) : Event :=
  if s.continuous_mode = true then
    Event.run_classifier_continuous cfg.EI_CLASSIFIER_SLICE_SIZE s.debug_mode
  else Event.run_classifier cfg.EI_CLASSIFIER_RAW_SAMPLE_COUNT s.debug_mode

/-- The step `ei_run_impulse cfg inp s` calls the classifier. -/
def classifier_invoked (cfg : Config) (inp : RunInputs) (s : State) : Bool :=
  (emitted s (ei_run_impulse cfg inp s)).any Event.isClassifier

/-- The step `ei_run_impulse cfg inp s` calls the classifier and the
classifier returns `EI_IMPULSE_OK`. -/
def classified_ok (cfg : Config) (inp : RunInputs) (s : State) : Bool :=
  classifier_invoked cfg inp s && decide (inp.ei_error = EI_IMPULSE_OK)

/-- Number of steps of the run `run_steps cfg s ins` in which a classification
succeeds. -/
def count_ok (cfg : Config) : State → List RunInputs → Nat
  | _, [] => 0
  | s, inp :: rest =>
    (if classified_ok cfg inp s then 1 else 0) + count_ok cfg (ei_run_impulse cfg inp s) rest

/-! ## Concrete values used in the examples -/

/-- A model configuration: 4 slices per window, 8-byte notification buffer. -/
def cfg_ex : Config :=
  { EI_CLASSIFIER_SLICES_PER_MODEL_WINDOW := 4
    EI_CLASSIFIER_SLICE_SIZE := 100
    EI_CLASSIFIER_RAW_SAMPLE_COUNT := 400
    EI_CLASSIFIER_RAW_SAMPLES_PER_FRAME := 1
    app_edge_impulse_class_result_len := 8 }

/-- The firmware state after boot: inference stopped, device idle, a BLE
client connected with notifications enabled. -/
def state_ex : State :=
  { print_results := 0
    samples_per_inference := 0
    inference_state := INFERENCE_STOPPED
    last_inference_ts := 0
    continuous_mode := false
    debug_mode := false
    ble_inference_settings_ready := 0
    dev :=
      { state := eiStateIdle, led_timer_running := false,
        CYBSP_USER_LED1 := true, CYBSP_USER_LED2 := true }
    app_edge_impulse_settings := List.replicate 12 0
    app_edge_impulse_class_result := List.replicate 8 0
    app_edge_impulse_class_result_client_char_config := [1, 0]
    bt_connection_id := 7
    trace := [] }

/-- A classification result over the labels "a", "bb" and "ccccc". -/
def result_ex : ei_impulse_result_t :=
  { classification :=
      [{ label := [97], value := 1 / 5 },
       { label := [98, 98], value := 9 / 10 },
       { label := [99, 99, 99, 99, 99], value := 9 / 10 }] }

/-- Inputs of a step at time `now` during which collection has ended and the
classifier returns status `err`. -/
def inputs_ex (now : Nat) (err : Int) : RunInputs :=
  { ei_read_timer_ms := now
    ei_microphone_inference_is_recording := false
    ei_error := err
    result := result_ex }

/-- The step `ei_run_impulse cfg inp s` hands a result to `display_results`. -/
def reported (cfg : Config) (inp : RunInputs) (s : State) : Bool :=
  decide (Event.display_results ∈ emitted s (ei_run_impulse cfg inp s))

/-- No transition is due in state `s` under the inputs `inp`: these are the
three early returns of `ei_run_impulse` (lines 111-127), namely stopped,
waiting with the timer below the deadline the code computes, and sampling
with collection still in progress. -/
def no_transition_due (inp : RunInputs) (s : State) : Prop :=
  s.inference_state = INFERENCE_STOPPED ∨
    (s.inference_state = INFERENCE_WAITING ∧
      inp.ei_read_timer_ms < (s.last_inference_ts + 2000) % UINT64_MOD) ∨
    (s.inference_state = INFERENCE_SAMPLING ∧
      inp.ei_microphone_inference_is_recording = true)

instance (inp : RunInputs) (s : State) : Decidable (no_transition_due inp s) := by
  unfold no_transition_due
  infer_instance

/-- The counter invariant of continuous mode after `c` successful
classifications since the start: the counter is `c - N` during the first `N`
successes and `(c - N) mod h` afterwards, where `N` is the number of slices
per model window and `h = N >> 1`. -/
def counter_inv (cfg : Config) (c : Nat) (s : State) : Prop :=
  s.continuous_mode = true ∧
    ((c < cfg.EI_CLASSIFIER_SLICES_PER_MODEL_WINDOW ∧
        s.print_results = (c : Int) - (cfg.EI_CLASSIFIER_SLICES_PER_MODEL_WINDOW : Int)) ∨
      (cfg.EI_CLASSIFIER_SLICES_PER_MODEL_WINDOW ≤ c ∧
        s.print_results =
          (((c - cfg.EI_CLASSIFIER_SLICES_PER_MODEL_WINDOW)
            % (cfg.EI_CLASSIFIER_SLICES_PER_MODEL_WINDOW >>> 1) : Nat) : Int)))

/-- Index `i` is the first index of `l` whose value equals the maximum of
`l`: it is an index of `l`, no value of `l` exceeds the one at `i`, and every
value before `i` is strictly smaller. -/
def is_first_argmax (l : List ℚ) (i : Nat) : Prop :=
  i < l.length ∧ (∀ x ∈ l, x ≤ l.getD i 0) ∧ (∀ x ∈ l.take i, x < l.getD i 0)

instance (l : List ℚ) (i : Nat) : Decidable (is_first_argmax l i) := by
  unfold is_first_argmax
  infer_instance

/-- The confidences of a classification result, in sequence order. -/
def confidences (result : ei_impulse_result_t) : List ℚ :=
  result.classification.map (fun c => c.value)

/-- Loop invariant of the arg-max loop after the values `pre`: either a
positive running maximum has been found, it is the value at `max_ix` and
`max_ix` is the first arg-max of `pre`; or the running maximum is still the
initial 0 at index 0 and no value of `pre` is positive. -/
def argmax_inv (pre : List ℚ) (max : ℚ) (max_ix : Nat) : Prop :=
  (0 < max ∧ pre.getD max_ix 0 = max ∧ is_first_argmax pre max_ix) ∨
    (max = 0 ∧ max_ix = 0 ∧ ∀ x ∈ pre, x ≤ 0)

/-- The bytes of the C string found at a pointer: everything before the first
NUL. -/
def c_str (p : List Nat) : List Nat := p.takeWhile (fun b => b != 0)

/-- The labels of a classification result, in sequence order. -/
def labels_of (result : ei_impulse_result_t) : List (List Nat) :=
  result.classification.map (fun c => c.label)

/-- Bytes written to the catalog by the first `i` labels: each label and its
delimiter. -/
def catalog_bytes_before (labels : List (List Nat)) (i : Nat) : Nat :=
  ((labels.take i).map (fun l => c_strlen l + 1)).sum

/-- The number `m` of labels in the catalog as the specification words it: the
first index at which the bytes written so far plus the length of the label
exceed `C`, or the label count if there is no such index. -/
def catalog_count (C : Nat) (labels : List (List Nat)) : Nat :=
  ((List.range labels.length).find?
    (fun i => decide (catalog_bytes_before labels i + c_strlen (labels.getD i []) > C))).getD
    labels.length

/-- The catalog as the specification words it: the labels `0 .. m - 1`, each
followed by the delimiter `/` (byte 47), concatenated in sequence order. -/
def catalog_spec (C : Nat) (labels : List (List Nat)) : List Nat :=
  ((labels.take (catalog_count C labels)).map (fun l => c_str l ++ [47])).flatten

/-- The catalog that the loop of `display_results` writes when it is entered
with `total_len` bytes already written: the labels that pass the check, each
followed by the delimiter. -/
def catalog_from (C : Nat) : List (List Nat) → Nat → List Nat
  | [], _ => []
  | l :: rest, total_len =>
    if total_len + c_strlen l > C then []
    else c_str l ++ [47] ++ catalog_from C rest (total_len + c_strlen l + 1)

/-! ## LED indicator (`led_handler`, `ei_device_psoc62.cpp` lines 60-134) -/

/-- Modulus of `uint8_t` arithmetic. -/
def UINT8_MOD : Nat := 2 ^ 8

/-- What `led_handler` reads and writes: the device record and its static
local `animation`, a `uint8_t`. -/
structure LedState where
  dev : EiDevicePSoC62
  animation : Nat
  deriving DecidableEq, Repr

/-- The first `switch` of `led_handler` (lines 66-85): toggle the LEDs that
belong to the current mode, or arm the animation when the mode is
`eiStateFinished` and no animation is running. -/
def led_handler_mode (l : LedState) : LedState :=
  match l.dev.get_state with
  | eiStateErasingFlash =>
    { l with dev := { l.dev with CYBSP_USER_LED1 := !l.dev.CYBSP_USER_LED1 } }
  | eiStateSampling =>
    { l with dev := { l.dev with CYBSP_USER_LED2 := !l.dev.CYBSP_USER_LED2 } }
  | eiStateUploading =>
    let l := { l with dev := { l.dev with CYBSP_USER_LED1 := !l.dev.CYBSP_USER_LED1 } }
    { l with dev := { l.dev with CYBSP_USER_LED2 := !l.dev.CYBSP_USER_LED2 } }
  | eiStateFinished =>
    if l.animation = 0 then { l with animation := 10 } else l
  | eiStateIdle => l

/-- The two `cyhal_gpio_write` calls of one animation frame. -/
def led_write (l : LedState) (led1 led2 : Bool) : LedState :=
  let l := { l with dev := { l.dev with CYBSP_USER_LED1 := led1 } }
  { l with dev := { l.dev with CYBSP_USER_LED2 := led2 } }

/-- The second `switch` of `led_handler` (lines 92-132): one frame of the
animation; `!0` is written as `true` and `!1` as `false`.  Frame 1 calls
`set_state(eiStateIdle)`; a counter above 10 has no case. -/
def led_handler_frame (l : LedState) : LedState :=
  if l.animation = 10 then led_write l true true
  else if l.animation = 9 then led_write l true false
  else if l.animation = 8 then led_write l false true
  else if l.animation = 7 then led_write l false false
  else if l.animation = 6 then led_write l false true
  else if l.animation = 5 then led_write l true true
  else if l.animation = 4 then led_write l false false
  else if l.animation = 3 then led_write l true true
  else if l.animation = 2 then led_write l false false
  else if l.animation = 1 then { l with dev := l.dev.set_state eiStateIdle }
  else l

/-- The function `led_handler`: one tick of the LED timer. -/
def led_handler (l : LedState) : LedState :=
  let l := led_handler_mode l
  if l.animation = 0 then l
  else
    let l := led_handler_frame l
    { l with animation := (l.animation + UINT8_MOD - 1) % UINT8_MOD }

/-- The state after `n` ticks of the LED timer with no other writer of the
device record in between. -/
def led_ticks : Nat → LedState → LedState
  | 0, l => l
  | n + 1, l => led_ticks n (led_handler l)

/-! ## GATT attribute table (`ei_bluetooth_psoc63.cpp`) -/

/-- The values of `wiced_bt_gatt_status_t`, declared in the headers of the BLE
stack, that the GATT handlers return; they are pairwise distinct. -/
inductive wiced_bt_gatt_status_t
  | WICED_BT_GATT_SUCCESS
  | WICED_BT_GATT_INVALID_HANDLE
  | WICED_BT_GATT_WRITE_NOT_PERMIT
  | WICED_BT_GATT_INVALID_OFFSET
  | WICED_BT_GATT_INVALID_ATTR_LEN
  | WICED_BT_GATT_ERROR
  deriving DecidableEq, Repr

/-- One entry of `app_gatt_db_ext_attr_tbl`.  The type `gatt_db_lookup_table_t`
and the table come from the generated file `cycfg_gatt_db`, which is not among
the sources; the handlers use the four members below.  `p_data` is the memory
the entry points to, and different entries point to different arrays. -/
structure gatt_db_lookup_table_t where
  handle : Nat
  max_len : Nat
  cur_len : Nat
  p_data : List Nat
  deriving DecidableEq, Repr

/-- The two attribute handles that `bt_app_gatt_req_write_value` switches on,
constants of the generated header. -/
structure Handles where
  HDLC_EDGE_IMPULSE_INFERENCE_VALUE : Nat
  HDLD_EDGE_IMPULSE_CLASS_RESULT_CLIENT_CHAR_CONFIG : Nat
  deriving DecidableEq, Repr

/-- Enumerator `NOTIFIY_OFF` of the anonymous enumeration at lines 42-46. -/
def NOTIFIY_OFF : Nat := 0

/-- Enumerator `NOTIFIY_ON` of the anonymous enumeration at lines 42-46. -/
def NOTIFIY_ON : Nat := 1

/-- The globals of `ei_bluetooth_psoc63.cpp` that the write handler touches,
next to those of the inference core: the attribute table and
`notify_enabled`.  The data arrays of the table are kept apart from the
buffers of the core state; the one store the handler makes through such a
buffer, `app_edge_impulse_class_result_client_char_config[0] = p_attr[0]`,
writes the byte that the copy into the entry has put first. -/
structure BleState where
  app_gatt_db_ext_attr_tbl : List gatt_db_lookup_table_t
  notify_enabled : Nat
  core : State
  deriving DecidableEq

open wiced_bt_gatt_status_t

/-- The body of the loop of `bt_app_gatt_req_write_value` for the entry whose
handle matches (lines 502-560): the length check, the copy into the entry, and
the `switch` on the handle.  Returns the status and the entry, `notify_enabled`
and the core state as the body leaves them; `ei_start_impulse(false, false)`
takes its third argument from the default `false`. -/
def write_entry (h : Handles) (cfg : Config) (si : StartInputs) (attr_handle : Nat)
    (p_val : List Nat) (len : Nat) (e : gatt_db_lookup_table_t) (notify_enabled : Nat)
    (s : State) : wiced_bt_gatt_status_t × gatt_db_lookup_table_t × Nat × State :=
  if e.max_len ≥ len then
    let e := { e with cur_len := len }
    let e := { e with p_data := (c_memcpy e.p_data p_val len).1 }
    if attr_handle = h.HDLC_EDGE_IMPULSE_INFERENCE_VALUE then
      if p_val.getD 0 0 ≠ 0 then
        (WICED_BT_GATT_SUCCESS, e, notify_enabled, ei_start_impulse cfg si false false false s)
      else
        (WICED_BT_GATT_SUCCESS, e, notify_enabled, ei_stop_impulse s)
    else if attr_handle = h.HDLD_EDGE_IMPULSE_CLASS_RESULT_CLIENT_CHAR_CONFIG then
      if len ≠ 2 then (WICED_BT_GATT_INVALID_ATTR_LEN, e, notify_enabled, s)
      else
        let s := { s with app_edge_impulse_class_result_client_char_config :=
          s.app_edge_impulse_class_result_client_char_config.set 0 (p_val.getD 0 0) }
        if GATT_CLIENT_CONFIG_NOTIFICATION
            = s.app_edge_impulse_class_result_client_char_config.getD 0 0 then
          (WICED_BT_GATT_SUCCESS, e, NOTIFIY_ON, s)
        else
          (WICED_BT_GATT_SUCCESS, e, NOTIFIY_OFF, s)
    else (WICED_BT_GATT_SUCCESS, e, notify_enabled, s)
  else (WICED_BT_GATT_INVALID_HANDLE, e, notify_enabled, s)

/-- The loop of `bt_app_gatt_req_write_value` over the table (lines 497-563),
which handles the first entry whose handle matches and then breaks.  The
result is `none` when no handle matches. -/
def write_loop (h : Handles) (cfg : Config) (si : StartInputs) (attr_handle : Nat)
    (p_val : List Nat) (len : Nat) (notify_enabled : Nat) (s : State) :
    List gatt_db_lookup_table_t →
      Option (wiced_bt_gatt_status_t × List gatt_db_lookup_table_t × Nat × State)
  | [] => none
  | e :: rest =>
    if e.handle = attr_handle then
      let r := write_entry h cfg si attr_handle p_val len e notify_enabled s
      some (r.1, r.2.1 :: rest, r.2.2.1, r.2.2.2)
    else
      match write_loop h cfg si attr_handle p_val len notify_enabled s rest with
      | some r => some (r.1, e :: r.2.1, r.2.2.1, r.2.2.2)
      | none => none

/-- The function `bt_app_gatt_req_write_value`; `p_val` is the memory at the
value pointer and `len` the length of the request. -/
def bt_app_gatt_req_write_value (h : Handles) (cfg : Config) (si : StartInputs)
    (attr_handle : Nat) (p_val : List Nat) (len : Nat) (b : BleState) :
    wiced_bt_gatt_status_t × BleState :=
  match write_loop h cfg si attr_handle p_val len b.notify_enabled b.core
      b.app_gatt_db_ext_attr_tbl with
  | some r =>
    (r.1, { app_gatt_db_ext_attr_tbl := r.2.1, notify_enabled := r.2.2.1, core := r.2.2.2 })
  | none => (WICED_BT_GATT_WRITE_NOT_PERMIT, b)

/-- The function `bt_app_find_by_handle`, started with its counter at `i`.
The counter is a `uint8_t`, so `i++` wraps at 256, while the table size it is
compared with is not so limited.  `fuel` bounds the number of iterations:
`none` means the loop has not returned within them, `some none` is the return
of `NULL`, and `some (some e)` the return of a pointer to entry `e`. -/
def bt_app_find_by_handle (tbl : List gatt_db_lookup_table_t) (handle : Nat) :
    Nat → Nat → Option (Option gatt_db_lookup_table_t)
  | 0, _ => none
  | fuel + 1, i =>
    match tbl[i]? with
    | some e =>
      if handle = e.handle then some (some e)
      else bt_app_find_by_handle tbl handle fuel ((i + 1) % UINT8_MOD)
    | none => some none

/-- Example handles: inference value 9, class-result client configuration 12. -/
def handles_ex : Handles :=
  { HDLC_EDGE_IMPULSE_INFERENCE_VALUE := 9
    HDLD_EDGE_IMPULSE_CLASS_RESULT_CLIENT_CHAR_CONFIG := 12 }

/-- An example attribute table: class-result value, its client
configuration, the inference value and the settings value. -/
def tbl_ex : List gatt_db_lookup_table_t :=
  [{ handle := 11, max_len := 8, cur_len := 8, p_data := List.replicate 8 0 },
   { handle := 12, max_len := 2, cur_len := 2, p_data := [0, 0] },
   { handle := 9, max_len := 1, cur_len := 1, p_data := [0] },
   { handle := 14, max_len := 12, cur_len := 12, p_data := List.replicate 12 0 }]

/-- An example BLE state over the example table and the boot state. -/
def ble_ex : BleState :=
  { app_gatt_db_ext_attr_tbl := tbl_ex, notify_enabled := 0, core := state_ex }

/-- A table of 256 entries, all with handle 1: one more entry than the
`uint8_t` counter of `bt_app_find_by_handle` can index. -/
def tbl_full : List gatt_db_lookup_table_t :=
  List.replicate 256 { handle := 1, max_len := 4, cur_len := 4, p_data := [0, 0, 0, 0] }

/-! ## Basic facts about the embedding -/

theorem emitted_append (s s2 : State) (evs : List Event) (h : s2.trace = s.trace ++ evs) :
    emitted s s2 = evs := by
  simp [emitted, h]

theorem emitted_self (s : State) : emitted s s = [] := by
  simp [emitted]

theorem display_results_eq (cfg : Config) (r : ei_impulse_result_t) (s : State) :
    display_results cfg r s =
      { s with
        trace := s.trace ++ (Event.display_results :: notify_events s)
        app_edge_impulse_settings :=
          if s.ble_inference_settings_ready = 0 then
            (catalog_build cfg.app_edge_impulse_class_result_len r s.app_edge_impulse_settings).1
          else s.app_edge_impulse_settings
        ble_inference_settings_ready :=
          if s.ble_inference_settings_ready = 0 then s.ble_inference_settings_ready + 1
          else s.ble_inference_settings_ready
        app_edge_impulse_class_result :=
          (stage_label cfg.app_edge_impulse_class_result_len
            (label_at r (find_max_ix r.classification 0 0 0))
            s.app_edge_impulse_class_result).1 } := by
  simp only [display_results, bt_app_send_notification, emit, notify_events]
  split_ifs <;> simp

theorem classify_error (cfg : Config) (inp : RunInputs) (s : State)
    (herr : inp.ei_error ≠ EI_IMPULSE_OK) :
    ei_run_impulse_classify cfg inp s = emit (classifier_call cfg s) s := by
  cases hc : s.continuous_mode <;>
    simp [ei_run_impulse_classify, classifier_call, hc, herr, emit]

theorem classify_ok_single (cfg : Config) (inp : RunInputs) (s : State)
    (hok : inp.ei_error = EI_IMPULSE_OK) (hc : s.continuous_mode = false) :
    ei_run_impulse_classify cfg inp s =
      { display_results cfg inp.result (emit (classifier_call cfg s) s) with
        last_inference_ts := inp.ei_read_timer_ms
        inference_state := INFERENCE_WAITING } := by
  simp [ei_run_impulse_classify, classifier_call, hc, hok, emit, display_results_eq]

theorem classify_ok_continuous_report (cfg : Config) (inp : RunInputs) (s : State)
    (hok : inp.ei_error = EI_IMPULSE_OK) (hc : s.continuous_mode = true)
    (hp : ((cfg.EI_CLASSIFIER_SLICES_PER_MODEL_WINDOW >>> 1 : Nat) : Int)
      ≤ s.print_results + (1 : Int)) :
    ei_run_impulse_classify cfg inp s =
      { display_results cfg inp.result (emit (classifier_call cfg s) s) with
        print_results := 0
        inference_state := INFERENCE_SAMPLING } := by
  simp [ei_run_impulse_classify, classifier_call, hc, hok, emit, display_results_eq, hp,
    notify_events]

theorem classify_ok_continuous_quiet (cfg : Config) (inp : RunInputs) (s : State)
    (hok : inp.ei_error = EI_IMPULSE_OK) (hc : s.continuous_mode = true)
    (hp : ¬ ((cfg.EI_CLASSIFIER_SLICES_PER_MODEL_WINDOW >>> 1 : Nat) : Int)
      ≤ s.print_results + (1 : Int)) :
    ei_run_impulse_classify cfg inp s =
      { emit (classifier_call cfg s) s with
        print_results := s.print_results + 1
        inference_state := INFERENCE_SAMPLING } := by
  simp [ei_run_impulse_classify, classifier_call, hc, hok, emit, display_results_eq, hp]

theorem classifier_call_isClassifier (cfg : Config) (s : State) :
    (classifier_call cfg s).isClassifier = true := by
  unfold classifier_call
  split_ifs <;> rfl

theorem notify_events_no_classifier (s : State) :
    (notify_events s).any Event.isClassifier = false := by
  unfold notify_events
  split_ifs <;> simp [Event.isClassifier]

theorem classify_trace (cfg : Config) (inp : RunInputs) (s : State) :
    ∃ tail : List Event,
      (ei_run_impulse_classify cfg inp s).trace = s.trace ++ classifier_call cfg s :: tail ∧
      tail.any Event.isClassifier = false ∧
      (inp.ei_error ≠ EI_IMPULSE_OK → tail = []) := by
  by_cases herr : inp.ei_error ≠ EI_IMPULSE_OK
  · exact ⟨[], by simp [classify_error cfg inp s herr, emit], by simp, fun _ => rfl⟩
  · have hok : inp.ei_error = EI_IMPULSE_OK := not_not.mp herr
    cases hc : s.continuous_mode
    · refine ⟨Event.display_results :: notify_events (emit (classifier_call cfg s) s), ?_, ?_, ?_⟩
      · simp [classify_ok_single cfg inp s hok hc, display_results_eq, emit]
      · simp [notify_events_no_classifier, Event.isClassifier]
      · intro h; exact absurd hok h
    · by_cases hp : ((cfg.EI_CLASSIFIER_SLICES_PER_MODEL_WINDOW >>> 1 : Nat) : Int)
          ≤ s.print_results + (1 : Int)
      · refine ⟨Event.display_results :: notify_events (emit (classifier_call cfg s) s), ?_, ?_, ?_⟩
        · simp [classify_ok_continuous_report cfg inp s hok hc hp, display_results_eq, emit]
        · simp [notify_events_no_classifier, Event.isClassifier]
        · intro h; exact absurd hok h
      · refine ⟨[], ?_, by simp, fun _ => rfl⟩
        simp [classify_ok_continuous_quiet cfg inp s hok hc hp, emit]

theorem classifier_invoked_iff (cfg : Config) (inp : RunInputs) (s : State) :
    classifier_invoked cfg inp s = true ↔
      (s.inference_state = INFERENCE_DATA_READY ∨
        (s.inference_state = INFERENCE_SAMPLING ∧
          inp.ei_microphone_inference_is_recording = false)) := by
  unfold classifier_invoked
  cases hst : s.inference_state
  · simp [ei_run_impulse, hst, emitted_self]
  · by_cases hd : inp.ei_read_timer_ms < (s.last_inference_ts + 2000) % UINT64_MOD
    · simp [ei_run_impulse, hst, hd, emitted_self]
    · rw [emitted_append s _ [Event.ei_microphone_inference_reset_buffers]
        (by simp [ei_run_impulse, hst, hd, emit, set_state])]
      simp [Event.isClassifier]
  · cases hr : inp.ei_microphone_inference_is_recording
    · obtain ⟨tail, ht, _, _⟩ :=
        classify_trace cfg inp { s with inference_state := INFERENCE_DATA_READY }
      rw [emitted_append s _ _ (by simpa [ei_run_impulse, hst, hr] using ht)]
      simp [classifier_call_isClassifier]
    · simp [ei_run_impulse, hst, hr, emitted_self]
  · obtain ⟨tail, ht, _, _⟩ := classify_trace cfg inp s
    rw [emitted_append s _ _ (by simpa [ei_run_impulse, hst] using ht)]
    simp [classifier_call_isClassifier]

/-! ## Start and stop -/

/-- C1: `ei_start_impulse` from any prior state at timer reading `now`: a
single-shot start ends in `INFERENCE_WAITING` with `last_inference_ts = now`,
and the waiting step that follows leaves `INFERENCE_WAITING` exactly when its
timer reading reaches the deadline `now + 2000` (computed in `uint64_t`, so it
is `now + 2000` itself whenever that is below `2 ^ 64`); a continuous start ends
in `INFERENCE_SAMPLING`, never in `INFERENCE_WAITING`.  This holds whatever the
microphone driver answers. -/
theorem ei_start_impulse_next_state (cfg : Config) (inp : StartInputs) (debug umax : Bool)
    (s : State) :
    ((ei_start_impulse cfg inp false debug umax s).inference_state = INFERENCE_WAITING ∧
      (ei_start_impulse cfg inp false debug umax s).last_inference_ts = inp.ei_read_timer_ms ∧
      (∀ r : RunInputs,
        (ei_run_impulse cfg r (ei_start_impulse cfg inp false debug umax s)).inference_state
            = INFERENCE_SAMPLING ↔
          (inp.ei_read_timer_ms + 2000) % UINT64_MOD ≤ r.ei_read_timer_ms) ∧
      (inp.ei_read_timer_ms + 2000 < UINT64_MOD →
        ∀ r : RunInputs,
          (ei_run_impulse cfg r (ei_start_impulse cfg inp false debug umax s)).inference_state
              = INFERENCE_SAMPLING ↔
            inp.ei_read_timer_ms + 2000 ≤ r.ei_read_timer_ms)) ∧
    ((ei_start_impulse cfg inp true debug umax s).inference_state = INFERENCE_SAMPLING ∧
      (ei_start_impulse cfg inp true debug umax s).inference_state ≠ INFERENCE_WAITING) := by
  have h1 : (ei_start_impulse cfg inp false debug umax s).inference_state = INFERENCE_WAITING := by
    cases hm : inp.ei_microphone_inference_start <;> simp [ei_start_impulse, emit, hm]
  have h2 : (ei_start_impulse cfg inp false debug umax s).last_inference_ts
      = inp.ei_read_timer_ms := by
    cases hm : inp.ei_microphone_inference_start <;> simp [ei_start_impulse, emit, hm]
  have h3 : (ei_start_impulse cfg inp true debug umax s).inference_state = INFERENCE_SAMPLING := by
    cases hm : inp.ei_microphone_inference_start <;> simp [ei_start_impulse, emit, hm]
  have h4 : ∀ r : RunInputs,
      (ei_run_impulse cfg r (ei_start_impulse cfg inp false debug umax s)).inference_state
          = INFERENCE_SAMPLING ↔
        (inp.ei_read_timer_ms + 2000) % UINT64_MOD ≤ r.ei_read_timer_ms := by
    intro r
    by_cases hd : r.ei_read_timer_ms < (inp.ei_read_timer_ms + 2000) % UINT64_MOD
    · have : ¬ (inp.ei_read_timer_ms + 2000) % UINT64_MOD ≤ r.ei_read_timer_ms := by omega
      simp [ei_run_impulse, h1, h2, hd, this]
    · have : (inp.ei_read_timer_ms + 2000) % UINT64_MOD ≤ r.ei_read_timer_ms := by omega
      simp [ei_run_impulse, h1, h2, hd, this, emit, set_state]
  refine ⟨⟨h1, h2, h4, ?_⟩, h3, ?_⟩
  · intro hlt r
    rw [h4 r, Nat.mod_eq_of_lt hlt]
  · rw [h3]; decide

/-- Witness for C1 at `now = 5`, started from the boot state. -/
theorem ei_start_impulse_next_state_witness :
    (ei_start_impulse cfg_ex ⟨5, true⟩ false false false state_ex).inference_state
        = INFERENCE_WAITING ∧
      (ei_run_impulse cfg_ex (inputs_ex 2005 0)
        (ei_start_impulse cfg_ex ⟨5, true⟩ false false false state_ex)).inference_state
        = INFERENCE_SAMPLING :=
  ⟨(ei_start_impulse_next_state cfg_ex ⟨5, true⟩ false false state_ex).1.1,
    (((ei_start_impulse_next_state cfg_ex ⟨5, true⟩ false false state_ex).1.2.2.2
      (by decide)) (inputs_ex 2005 0)).mpr (by decide)⟩

/-- C2: `ei_stop_impulse` called in any state other than `INFERENCE_STOPPED`
(waiting, sampling or data-ready) calls `ei_microphone_inference_end`, ends in
`INFERENCE_STOPPED` and sets the device mode to `eiStateFinished`.  The function
never asks the sampling trigger whether collection is still in progress, so
the outcome does not depend on it. -/
theorem ei_stop_impulse_running (s : State) (h : s.inference_state ≠ INFERENCE_STOPPED) :
    Event.ei_microphone_inference_end ∈ emitted s (ei_stop_impulse s) ∧
      emitted s (ei_stop_impulse s)
        = [Event.ei_microphone_inference_end, Event.run_classifier_deinit] ∧
      (ei_stop_impulse s).inference_state = INFERENCE_STOPPED ∧
      (ei_stop_impulse s).dev.get_state = eiStateFinished := by
  have ht : emitted s (ei_stop_impulse s)
      = [Event.ei_microphone_inference_end, Event.run_classifier_deinit] :=
    emitted_append s _ _ (by simp [ei_stop_impulse, h, emit, set_state])
  refine ⟨by simp [ht], ht, ?_, ?_⟩
  · simp [ei_stop_impulse, h, emit, set_state]
  · simp [ei_stop_impulse, h, emit, set_state, EiDevicePSoC62.set_state,
      EiDevicePSoC62.get_state]

/-- Witness for C2: stopping while the machine is sampling. -/
theorem ei_stop_impulse_running_witness :
    (ei_stop_impulse { state_ex with inference_state := INFERENCE_SAMPLING }).inference_state
        = INFERENCE_STOPPED ∧
      (ei_stop_impulse { state_ex with inference_state := INFERENCE_SAMPLING }).dev.get_state
        = eiStateFinished :=
  ⟨(ei_stop_impulse_running { state_ex with inference_state := INFERENCE_SAMPLING }
      (by decide)).2.2.1,
    (ei_stop_impulse_running { state_ex with inference_state := INFERENCE_SAMPLING }
      (by decide)).2.2.2⟩

/-- C3: stop is idempotent.  Called in `INFERENCE_STOPPED`, `ei_stop_impulse`
returns the state it was given (so the inference state, the device mode, both
buffers, the throttle counter and the timestamp are unchanged) and issues no
command, in particular none to the sampling subsystem; hence for every state,
stop followed by stop equals a single stop. -/
theorem ei_stop_impulse_idempotent (s : State) :
    (s.inference_state = INFERENCE_STOPPED →
      ei_stop_impulse s = s ∧ emitted s (ei_stop_impulse s) = []) ∧
    ei_stop_impulse (ei_stop_impulse s) = ei_stop_impulse s := by
  have h0 : ∀ t : State, t.inference_state = INFERENCE_STOPPED → ei_stop_impulse t = t := by
    intro t ht
    simp [ei_stop_impulse, ht]
  refine ⟨fun h => ⟨h0 s h, by rw [h0 s h]; exact emitted_self s⟩, ?_⟩
  apply h0
  by_cases h : s.inference_state = INFERENCE_STOPPED
  · rw [h0 s h]; exact h
  · simp [ei_stop_impulse, h, emit, set_state]

/-- Witness for C3: stopping the boot state, which is already stopped. -/
theorem ei_stop_impulse_idempotent_witness :
    ei_stop_impulse state_ex = state_ex ∧ emitted state_ex (ei_stop_impulse state_ex) = [] :=
  (ei_stop_impulse_idempotent state_ex).1 (by decide)

/-! ## Single steps of `ei_run_impulse` -/

/-- Counterexample for C4 as stated: with the timestamp 1000 ms below `2 ^ 64`
the sum `last_inference_ts + 2000` wraps to 1000, so a waiting step taken
500 ms after the timestamp already moves to `INFERENCE_SAMPLING` although the
current time is below `last_inference_ts + 2000`. -/
theorem waiting_wrap_counterexample :
    (18446744073709550616 : Nat) < UINT64_MOD ∧ (18446744073709551116 : Nat) < UINT64_MOD ∧
      (ei_run_impulse cfg_ex (inputs_ex 18446744073709551116 0)
        { state_ex with
          inference_state := INFERENCE_WAITING
          last_inference_ts := 18446744073709550616 }).inference_state = INFERENCE_SAMPLING ∧
      ¬ (18446744073709550616 + 2000 ≤ (18446744073709551116 : Nat)) := by
  decide

/-- C4 (amended): a step of `ei_run_impulse` taken in `INFERENCE_WAITING` ends
in `INFERENCE_SAMPLING` if and only if the timer reading is at least
`(last_inference_ts + 2000) mod 2 ^ 64`, which is `last_inference_ts + 2000`
whenever that sum is below `2 ^ 64`; otherwise the step returns the state
unchanged, still waiting.  The step never ends in `INFERENCE_DATA_READY` and
never calls the classifier.  When it moves to sampling it issues exactly
`ei_microphone_inference_reset_buffers` and sets the device mode to
`eiStateSampling`. -/
theorem ei_run_impulse_waiting (cfg : Config) (inp : RunInputs) (s : State)
    (h : s.inference_state = INFERENCE_WAITING) :
    ((ei_run_impulse cfg inp s).inference_state = INFERENCE_SAMPLING ↔
        (s.last_inference_ts + 2000) % UINT64_MOD ≤ inp.ei_read_timer_ms) ∧
      (s.last_inference_ts + 2000 < UINT64_MOD →
        ((ei_run_impulse cfg inp s).inference_state = INFERENCE_SAMPLING ↔
          s.last_inference_ts + 2000 ≤ inp.ei_read_timer_ms)) ∧
      (¬ (s.last_inference_ts + 2000) % UINT64_MOD ≤ inp.ei_read_timer_ms →
        ei_run_impulse cfg inp s = s ∧
          (ei_run_impulse cfg inp s).inference_state = INFERENCE_WAITING) ∧
      (ei_run_impulse cfg inp s).inference_state ≠ INFERENCE_DATA_READY ∧
      classifier_invoked cfg inp s = false ∧
      ((ei_run_impulse cfg inp s).inference_state = INFERENCE_SAMPLING →
        emitted s (ei_run_impulse cfg inp s) = [Event.ei_microphone_inference_reset_buffers] ∧
          (ei_run_impulse cfg inp s).dev.get_state = eiStateSampling) := by
  have hcl : classifier_invoked cfg inp s = false := by
    cases hb : classifier_invoked cfg inp s
    · rfl
    · rw [classifier_invoked_iff, h] at hb
      simp at hb
  by_cases hd : inp.ei_read_timer_ms < (s.last_inference_ts + 2000) % UINT64_MOD
  · have hn : ¬ (s.last_inference_ts + 2000) % UINT64_MOD ≤ inp.ei_read_timer_ms := by omega
    have hs : ei_run_impulse cfg inp s = s := by simp [ei_run_impulse, h, hd]
    refine ⟨?_, ?_, ?_, ?_, hcl, ?_⟩
    · simp [hs, h, hn]
    · intro hlt
      rw [Nat.mod_eq_of_lt hlt] at hn
      simp [hs, h, hn]
    · intro _; exact ⟨hs, by rw [hs]; exact h⟩
    · simp [hs, h]
    · simp [hs, h]
  · have hy : (s.last_inference_ts + 2000) % UINT64_MOD ≤ inp.ei_read_timer_ms := by omega
    have hst : (ei_run_impulse cfg inp s).inference_state = INFERENCE_SAMPLING := by
      simp [ei_run_impulse, h, hd, emit, set_state]
    refine ⟨?_, ?_, ?_, ?_, hcl, ?_⟩
    · simp [hst, hy]
    · intro hlt
      rw [Nat.mod_eq_of_lt hlt] at hy
      simp [hst, hy]
    · intro hn; exact absurd hy hn
    · simp [hst]
    · intro _
      refine ⟨emitted_append s _ _ (by simp [ei_run_impulse, h, hd, emit, set_state]), ?_⟩
      simp [ei_run_impulse, h, hd, emit, set_state, EiDevicePSoC62.set_state,
        EiDevicePSoC62.get_state]

/-- Witness for C4 (amended): a waiting step 2000 ms after a timestamp of 5. -/
theorem ei_run_impulse_waiting_witness :
    (ei_run_impulse cfg_ex (inputs_ex 2005 0)
      { state_ex with inference_state := INFERENCE_WAITING, last_inference_ts := 5 }
      ).inference_state = INFERENCE_SAMPLING :=
  ((ei_run_impulse_waiting cfg_ex (inputs_ex 2005 0)
      { state_ex with inference_state := INFERENCE_WAITING, last_inference_ts := 5 }
      (by decide)).2.1 (by decide)).mpr (by decide)

theorem ei_run_impulse_of_invoked (cfg : Config) (inp : RunInputs) (s : State)
    (hinv : classifier_invoked cfg inp s = true) :
    ei_run_impulse cfg inp s =
      ei_run_impulse_classify cfg inp { s with inference_state := INFERENCE_DATA_READY } := by
  rcases (classifier_invoked_iff cfg inp s).mp hinv with hst | ⟨hst, hr⟩
  · have hs : { s with inference_state := INFERENCE_DATA_READY } = s := by
      cases s; simp_all
    rw [hs]; simp [ei_run_impulse, hst]
  · simp [ei_run_impulse, hst, hr]

/-- C5: in every step of `ei_run_impulse` that calls the classifier and gets
`EI_IMPULSE_OK`, the resulting state is `INFERENCE_SAMPLING` in continuous mode,
and in single-shot mode it is `INFERENCE_WAITING` with `last_inference_ts` set
to the timer reading of the step, which the step takes after the
classification. -/
theorem ei_run_impulse_classified_ok (cfg : Config) (inp : RunInputs) (s : State)
    (hinv : classifier_invoked cfg inp s = true) (hok : inp.ei_error = EI_IMPULSE_OK) :
    (s.continuous_mode = true →
      (ei_run_impulse cfg inp s).inference_state = INFERENCE_SAMPLING) ∧
    (s.continuous_mode = false →
      (ei_run_impulse cfg inp s).inference_state = INFERENCE_WAITING ∧
        (ei_run_impulse cfg inp s).last_inference_ts = inp.ei_read_timer_ms) := by
  rw [ei_run_impulse_of_invoked cfg inp s hinv]
  have hcm : ({ s with inference_state := INFERENCE_DATA_READY } : State).continuous_mode
      = s.continuous_mode := rfl
  generalize ({ s with inference_state := INFERENCE_DATA_READY } : State) = t at hcm ⊢
  constructor
  · intro hc
    rw [← hcm] at hc
    by_cases hp : ((cfg.EI_CLASSIFIER_SLICES_PER_MODEL_WINDOW >>> 1 : Nat) : Int)
        ≤ t.print_results + (1 : Int)
    · rw [classify_ok_continuous_report cfg inp t hok hc hp]
    · rw [classify_ok_continuous_quiet cfg inp t hok hc hp]
  · intro hc
    rw [← hcm] at hc
    rw [classify_ok_single cfg inp t hok hc]
    exact ⟨rfl, rfl⟩

/-- Witness for C5: a successful single-shot classification at time 9000. -/
theorem ei_run_impulse_classified_ok_witness :
    (ei_run_impulse cfg_ex (inputs_ex 9000 0)
        { state_ex with inference_state := INFERENCE_DATA_READY }).inference_state
        = INFERENCE_WAITING ∧
      (ei_run_impulse cfg_ex (inputs_ex 9000 0)
        { state_ex with inference_state := INFERENCE_DATA_READY }).last_inference_ts = 9000 :=
  (ei_run_impulse_classified_ok cfg_ex (inputs_ex 9000 0)
    { state_ex with inference_state := INFERENCE_DATA_READY } (by decide) (by decide)).2
    (by decide)

/-- C7: a step of `ei_run_impulse` calls the classifier (`run_classifier` or
`run_classifier_continuous`) exactly when it is entered in
`INFERENCE_DATA_READY`, or in `INFERENCE_SAMPLING` with the sampling trigger
reporting that collection is no longer in progress.  It never calls it from
`INFERENCE_STOPPED`, from `INFERENCE_WAITING`, or from `INFERENCE_SAMPLING`
while collection is in progress. -/
theorem classifier_only_after_sampling (cfg : Config) (inp : RunInputs) (s : State) :
    (classifier_invoked cfg inp s = true ↔
      (s.inference_state = INFERENCE_DATA_READY ∨
        (s.inference_state = INFERENCE_SAMPLING ∧
          inp.ei_microphone_inference_is_recording = false))) ∧
    (s.inference_state = INFERENCE_STOPPED → classifier_invoked cfg inp s = false) ∧
    (s.inference_state = INFERENCE_WAITING → classifier_invoked cfg inp s = false) ∧
    (s.inference_state = INFERENCE_SAMPLING →
      inp.ei_microphone_inference_is_recording = true →
        classifier_invoked cfg inp s = false) := by
  have hiff := classifier_invoked_iff cfg inp s
  refine ⟨hiff, ?_, ?_, ?_⟩
  · intro h
    cases hb : classifier_invoked cfg inp s
    · rfl
    · rw [hiff, h] at hb; simp at hb
  · intro h
    cases hb : classifier_invoked cfg inp s
    · rfl
    · rw [hiff, h] at hb; simp at hb
  · intro h hr
    cases hb : classifier_invoked cfg inp s
    · rfl
    · rw [hiff, h, hr] at hb; simp at hb

/-- Witness for C7: a sampling step during collection does not classify, the
same step after collection does. -/
theorem classifier_only_after_sampling_witness :
    classifier_invoked cfg_ex
        { inputs_ex 10 0 with ei_microphone_inference_is_recording := true }
        { state_ex with inference_state := INFERENCE_SAMPLING } = false ∧
      classifier_invoked cfg_ex (inputs_ex 10 0)
        { state_ex with inference_state := INFERENCE_SAMPLING } = true :=
  ⟨(classifier_only_after_sampling cfg_ex
      { inputs_ex 10 0 with ei_microphone_inference_is_recording := true }
      { state_ex with inference_state := INFERENCE_SAMPLING }).2.2.2 (by decide) (by decide),
    (classifier_only_after_sampling cfg_ex (inputs_ex 10 0)
      { state_ex with inference_state := INFERENCE_SAMPLING }).1.mpr
      (Or.inr ⟨by decide, by decide⟩)⟩

/-- Counterexample for C8 as stated: a step entered in `INFERENCE_SAMPLING`
after collection has ended, whose classifier call fails with code -1, ends in
`INFERENCE_DATA_READY`, not in the state it was entered in. -/
theorem sampling_failure_counterexample :
    classifier_invoked cfg_ex (inputs_ex 9000 (-1))
        { state_ex with inference_state := INFERENCE_SAMPLING } = true ∧
      (inputs_ex 9000 (-1)).ei_error ≠ EI_IMPULSE_OK ∧
      (ei_run_impulse cfg_ex (inputs_ex 9000 (-1))
        { state_ex with inference_state := INFERENCE_SAMPLING }).inference_state
        = INFERENCE_DATA_READY ∧
      (ei_run_impulse cfg_ex (inputs_ex 9000 (-1))
        { state_ex with inference_state := INFERENCE_SAMPLING }).inference_state
        ≠ ({ state_ex with inference_state := INFERENCE_SAMPLING } : State).inference_state := by
  decide

/-- C8 (amended): in every step of `ei_run_impulse` in which the classifier
returns an error code, the step ends in `INFERENCE_DATA_READY`: this is the
state before the step when the step was entered in `INFERENCE_DATA_READY`, and
when it was entered in `INFERENCE_SAMPLING` the transition to
`INFERENCE_DATA_READY` made before the classifier call is kept.  The failure
itself changes nothing: apart from that transition and the recorded classifier
call, the state after the step is the state before it. -/
theorem ei_run_impulse_failure (cfg : Config) (inp : RunInputs) (s : State)
    (hinv : classifier_invoked cfg inp s = true) (herr : inp.ei_error ≠ EI_IMPULSE_OK) :
    (ei_run_impulse cfg inp s).inference_state = INFERENCE_DATA_READY ∧
      (s.inference_state = INFERENCE_DATA_READY →
        (ei_run_impulse cfg inp s).inference_state = s.inference_state) ∧
      ei_run_impulse cfg inp s =
        { s with
          inference_state := INFERENCE_DATA_READY
          trace := s.trace ++ [classifier_call cfg s] } := by
  have hs : ei_run_impulse cfg inp s =
      { s with
        inference_state := INFERENCE_DATA_READY
        trace := s.trace ++ [classifier_call cfg s] } := by
    rw [ei_run_impulse_of_invoked cfg inp s hinv, classify_error cfg inp _ herr]
    simp [emit, classifier_call]
  refine ⟨by rw [hs], fun h => by rw [hs, h], hs⟩

/-- Witness for C8 (amended): a failing classification in
`INFERENCE_DATA_READY`. -/
theorem ei_run_impulse_failure_witness :
    (ei_run_impulse cfg_ex (inputs_ex 9000 (-1))
      { state_ex with inference_state := INFERENCE_DATA_READY }).inference_state
      = INFERENCE_DATA_READY :=
  (ei_run_impulse_failure cfg_ex (inputs_ex 9000 (-1))
    { state_ex with inference_state := INFERENCE_DATA_READY } (by decide) (by decide)).1

/-- C9 (evaluation of the code): when `ei_microphone_inference_start` returns
false, `ei_start_impulse` has already advanced the machine.  Whatever the state
before the call, a single-shot start leaves `INFERENCE_WAITING` and a
continuous start leaves `INFERENCE_SAMPLING`; started from the stopped boot
state, the machine is running afterwards, so the state before the call is not
kept. -/
theorem ei_start_impulse_setup_failure (cfg : Config) (now : Nat) (debug umax : Bool)
    (s : State) :
    (ei_start_impulse cfg ⟨now, false⟩ false debug umax s).inference_state
        = INFERENCE_WAITING ∧
      (ei_start_impulse cfg ⟨now, false⟩ true debug umax s).inference_state
        = INFERENCE_SAMPLING ∧
      state_ex.inference_state = INFERENCE_STOPPED ∧
      (ei_start_impulse cfg_ex ⟨5, false⟩ false false false state_ex).inference_state
        ≠ state_ex.inference_state ∧
      is_inference_running (ei_start_impulse cfg_ex ⟨5, false⟩ true false false state_ex)
        = true := by
  refine ⟨?_, ?_, by decide, by decide, by decide⟩
  · simp [ei_start_impulse, emit]
  · simp [ei_start_impulse, emit]

/-! ## Runs of steps -/

theorem run_steps_cons (cfg : Config) (s : State) (inp : RunInputs) (ins : List RunInputs) :
    run_steps cfg s (inp :: ins) = run_steps cfg (ei_run_impulse cfg inp s) ins := rfl

theorem run_steps_nil (cfg : Config) (s : State) : run_steps cfg s [] = s := rfl

theorem classified_ok_iff (cfg : Config) (inp : RunInputs) (s : State) :
    classified_ok cfg inp s = true ↔
      classifier_invoked cfg inp s = true ∧ inp.ei_error = EI_IMPULSE_OK := by
  simp [classified_ok]

/-- A step in which no classification succeeds keeps the recorded timestamp. -/
theorem last_inference_ts_of_not_ok (cfg : Config) (inp : RunInputs) (s : State)
    (h : classified_ok cfg inp s = false) :
    (ei_run_impulse cfg inp s).last_inference_ts = s.last_inference_ts := by
  cases hinv : classifier_invoked cfg inp s
  · have hn := hinv
    rw [← Bool.not_eq_true, classifier_invoked_iff] at hn
    cases hst : s.inference_state
    · simp [ei_run_impulse, hst]
    · by_cases hd : inp.ei_read_timer_ms < (s.last_inference_ts + 2000) % UINT64_MOD
      · simp [ei_run_impulse, hst, hd]
      · simp [ei_run_impulse, hst, hd, emit, set_state]
    · cases hr : inp.ei_microphone_inference_is_recording
      · exact absurd (Or.inr ⟨hst, hr⟩) hn
      · simp [ei_run_impulse, hst, hr]
    · exact absurd (Or.inl hst) hn
  · have herr : inp.ei_error ≠ EI_IMPULSE_OK := by
      intro hok
      have := (classified_ok_iff cfg inp s).mpr ⟨hinv, hok⟩
      rw [h] at this
      exact Bool.false_ne_true this
    rw [ei_run_impulse_of_invoked cfg inp s hinv, classify_error cfg inp _ herr]
    rfl

/-- A run in which no classification succeeds keeps the recorded timestamp. -/
theorem last_inference_ts_run_steps (cfg : Config) (ins : List RunInputs) :
    ∀ s : State, count_ok cfg s ins = 0 →
      (run_steps cfg s ins).last_inference_ts = s.last_inference_ts := by
  induction ins with
  | nil => intro s _; rfl
  | cons inp rest ih =>
    intro s hc
    simp only [count_ok] at hc
    have h1 : classified_ok cfg inp s = false := by
      cases hb : classified_ok cfg inp s
      · rfl
      · simp [hb] at hc
    have h2 : count_ok cfg (ei_run_impulse cfg inp s) rest = 0 := by omega
    rw [run_steps_cons, ih _ h2, last_inference_ts_of_not_ok cfg inp s h1]

/-- A step that leaves `INFERENCE_WAITING` for `INFERENCE_SAMPLING` has read a
time at or after the deadline computed by the code. -/
theorem waiting_to_sampling_time (cfg : Config) (inp : RunInputs) (s : State)
    (hw : s.inference_state = INFERENCE_WAITING)
    (hs : (ei_run_impulse cfg inp s).inference_state = INFERENCE_SAMPLING) :
    (s.last_inference_ts + 2000) % UINT64_MOD ≤ inp.ei_read_timer_ms := by
  by_contra hn
  have hd : inp.ei_read_timer_ms < (s.last_inference_ts + 2000) % UINT64_MOD := by omega
  have : ei_run_impulse cfg inp s = s := by simp [ei_run_impulse, hw, hd]
  rw [this, hw] at hs
  exact absurd hs (by decide)

/-- A waiting step either returns the state unchanged or moves to sampling. -/
theorem waiting_step_cases (cfg : Config) (inp : RunInputs) (s : State)
    (hw : s.inference_state = INFERENCE_WAITING) :
    ei_run_impulse cfg inp s = s ∨
      (ei_run_impulse cfg inp s).inference_state = INFERENCE_SAMPLING := by
  by_cases hd : inp.ei_read_timer_ms < (s.last_inference_ts + 2000) % UINT64_MOD
  · left; simp [ei_run_impulse, hw, hd]
  · right; simp [ei_run_impulse, hw, hd, emit, set_state]

/-- The state after a successful single-shot classification. -/
theorem classified_ok_single_shot (cfg : Config) (inp : RunInputs) (s : State)
    (hmode : s.continuous_mode = false) (hok : classified_ok cfg inp s = true) :
    (ei_run_impulse cfg inp s).inference_state = INFERENCE_WAITING ∧
      (ei_run_impulse cfg inp s).last_inference_ts = inp.ei_read_timer_ms := by
  obtain ⟨hinv, he⟩ := (classified_ok_iff cfg inp s).mp hok
  rw [ei_run_impulse_of_invoked cfg inp s hinv]
  have hcm : ({ s with inference_state := INFERENCE_DATA_READY } : State).continuous_mode
      = false := hmode
  rw [classify_ok_single cfg inp { s with inference_state := INFERENCE_DATA_READY } he hcm]
  exact ⟨rfl, rfl⟩

/-- With a non-decreasing clock: once the machine waits on timestamp `t`, or
the clock has passed `t + 2000`, every later move from waiting to sampling
reads a time of at least `t + 2000`. -/
theorem cooldown_invariant (cfg : Config) (t : Nat) (ht : t + 2000 < UINT64_MOD)
    (b : RunInputs) (mid : List RunInputs) :
    ∀ (s : State) (lo : Nat),
      ((s.inference_state = INFERENCE_WAITING ∧ s.last_inference_ts = t) ∨ t + 2000 ≤ lo) →
      List.Chain (· ≤ ·) lo ((mid ++ [b]).map RunInputs.ei_read_timer_ms) →
      (run_steps cfg s mid).inference_state = INFERENCE_WAITING →
      (ei_run_impulse cfg b (run_steps cfg s mid)).inference_state = INFERENCE_SAMPLING →
      t + 2000 ≤ b.ei_read_timer_ms := by
  induction mid with
  | nil =>
    intro s lo hinv hch hw hs
    simp only [List.nil_append, List.map_cons, List.map_nil, List.chain_cons] at hch
    rw [run_steps_nil] at hw hs
    rcases hinv with ⟨_, hts⟩ | hlo
    · have := waiting_to_sampling_time cfg b s hw hs
      rw [hts, Nat.mod_eq_of_lt ht] at this
      exact this
    · omega
  | cons x rest ih =>
    intro s lo hinv hch hw hs
    simp only [List.cons_append, List.map_cons, List.chain_cons] at hch
    rw [run_steps_cons] at hw hs
    refine ih (ei_run_impulse cfg x s) x.ei_read_timer_ms ?_ hch.2 hw hs
    rcases hinv with ⟨hst, hts⟩ | hlo
    · rcases waiting_step_cases cfg x s hst with hsame | hsamp
      · left; rw [hsame]; exact ⟨hst, hts⟩
      · right
        have := waiting_to_sampling_time cfg x s hst hsamp
        rw [hts, Nat.mod_eq_of_lt ht] at this
        exact this
    · right; omega

/-- Counterexample for C6 as stated: in single-shot mode the steps read the
times 9000, 11000, 100 and 2100.  The classification of the first step
succeeds at `t = 9000` and `t + 2000` does not wrap; the second step restarts
sampling, the third classifies again at time 100, and the fourth step moves
the machine from `INFERENCE_WAITING` to `INFERENCE_SAMPLING` while it reads
2100, which is below `t + 2000 = 11000`.  The step compares with the latest
timestamp only, so the bound needs timer readings that do not decrease. -/
theorem cooldown_clock_counterexample :
    ({ state_ex with inference_state := INFERENCE_DATA_READY } : State).continuous_mode = false ∧
      classified_ok cfg_ex (inputs_ex 9000 0)
        { state_ex with inference_state := INFERENCE_DATA_READY } = true ∧
      (inputs_ex 9000 0).ei_read_timer_ms + 2000 < UINT64_MOD ∧
      (run_steps cfg_ex
        (ei_run_impulse cfg_ex (inputs_ex 9000 0)
          { state_ex with inference_state := INFERENCE_DATA_READY })
        [inputs_ex 11000 0, inputs_ex 100 0]).inference_state = INFERENCE_WAITING ∧
      (ei_run_impulse cfg_ex (inputs_ex 2100 0)
        (run_steps cfg_ex
          (ei_run_impulse cfg_ex (inputs_ex 9000 0)
            { state_ex with inference_state := INFERENCE_DATA_READY })
          [inputs_ex 11000 0, inputs_ex 100 0])).inference_state = INFERENCE_SAMPLING ∧
      ¬ ((inputs_ex 9000 0).ei_read_timer_ms + 2000 ≤ (inputs_ex 2100 0).ei_read_timer_ms) := by
  decide

/-- C6 (amended): single-shot cooldown.  Take any state in single-shot mode
and a run of `ei_run_impulse` steps `a`, `mid`, `b` with no other call in
between, where a classification succeeds in step `a`, which reads time `t`,
with `t + 2000 < 2 ^ 64`, and the later step `b` moves the machine from
`INFERENCE_WAITING` to `INFERENCE_SAMPLING`.  If the timer readings do not
decrease from `a` over `mid` to `b`, or if no classification succeeds in
`mid` (so `b` is the first restart after the classification), then `b` reads
a time of at least `t + 2000`. -/
theorem single_shot_cooldown (cfg : Config) (s : State) (a : RunInputs)
    (mid : List RunInputs) (b : RunInputs)
    (hmode : s.continuous_mode = false)
    (hok : classified_ok cfg a s = true)
    (hwrap : a.ei_read_timer_ms + 2000 < UINT64_MOD)
    (hclock : count_ok cfg (ei_run_impulse cfg a s) mid = 0 ∨
      List.Chain (· ≤ ·) a.ei_read_timer_ms ((mid ++ [b]).map RunInputs.ei_read_timer_ms))
    (hw : (run_steps cfg (ei_run_impulse cfg a s) mid).inference_state = INFERENCE_WAITING)
    (hs : (ei_run_impulse cfg b (run_steps cfg (ei_run_impulse cfg a s) mid)).inference_state
      = INFERENCE_SAMPLING) :
    a.ei_read_timer_ms + 2000 ≤ b.ei_read_timer_ms := by
  obtain ⟨hst, hts⟩ := classified_ok_single_shot cfg a s hmode hok
  rcases hclock with hnone | hmono
  · have h1 := last_inference_ts_run_steps cfg mid _ hnone
    have h2 := waiting_to_sampling_time cfg b _ hw hs
    rw [h1, hts, Nat.mod_eq_of_lt hwrap] at h2
    exact h2
  · exact cooldown_invariant cfg a.ei_read_timer_ms hwrap b mid _ a.ei_read_timer_ms
      (Or.inl ⟨hst, hts⟩) hmono hw hs

/-- Witness for C6 (amended): a classification at 9000, a restart at 11000, a second
classification at 11100 and a second restart at 13100. -/
theorem single_shot_cooldown_witness :
    (inputs_ex 9000 0).ei_read_timer_ms + 2000 ≤ (inputs_ex 13100 0).ei_read_timer_ms :=
  single_shot_cooldown cfg_ex { state_ex with inference_state := INFERENCE_DATA_READY }
    (inputs_ex 9000 0) [inputs_ex 9500 0, inputs_ex 11000 0, inputs_ex 11100 0]
    (inputs_ex 13100 0) (by decide) (by decide) (by decide) (Or.inr (by simp [inputs_ex])) (by decide)
    (by decide)

theorem classifier_call_ne_display (cfg : Config) (s : State) :
    classifier_call cfg s ≠ Event.display_results := by
  intro h
  have := classifier_call_isClassifier cfg s
  rw [h] at this
  exact Bool.false_ne_true this

/-- In continuous mode, a step that leaves the throttle counter below the
report threshold does not call `display_results`; it adds one to the counter
when a classification succeeds and leaves it alone otherwise. -/
theorem continuous_step_quiet (cfg : Config) (inp : RunInputs) (s : State)
    (hc : s.continuous_mode = true)
    (hp : s.print_results + (if classified_ok cfg inp s then 1 else 0)
      < ((cfg.EI_CLASSIFIER_SLICES_PER_MODEL_WINDOW >>> 1 : Nat) : Int)) :
    ∃ evs : List Event,
      (ei_run_impulse cfg inp s).trace = s.trace ++ evs ∧
      Event.display_results ∉ evs ∧
      (ei_run_impulse cfg inp s).continuous_mode = true ∧
      (ei_run_impulse cfg inp s).print_results
        = s.print_results + (if classified_ok cfg inp s then 1 else 0) := by
  cases hinv : classifier_invoked cfg inp s
  · have hn := hinv
    rw [← Bool.not_eq_true, classifier_invoked_iff] at hn
    have hcl : classified_ok cfg inp s = false := by simp [classified_ok, hinv]
    simp only [hcl, Bool.false_eq_true, if_false, add_zero]
    cases hst : s.inference_state
    · exact ⟨[], by simp [ei_run_impulse, hst], by simp, by simp [ei_run_impulse, hst, hc],
        by simp [ei_run_impulse, hst]⟩
    · by_cases hd : inp.ei_read_timer_ms < (s.last_inference_ts + 2000) % UINT64_MOD
      · exact ⟨[], by simp [ei_run_impulse, hst, hd], by simp,
          by simp [ei_run_impulse, hst, hd, hc], by simp [ei_run_impulse, hst, hd]⟩
      · exact ⟨[Event.ei_microphone_inference_reset_buffers],
          by simp [ei_run_impulse, hst, hd, emit, set_state], by simp,
          by simp [ei_run_impulse, hst, hd, emit, set_state, hc],
          by simp [ei_run_impulse, hst, hd, emit, set_state]⟩
    · cases hr : inp.ei_microphone_inference_is_recording
      · exact absurd (Or.inr ⟨hst, hr⟩) hn
      · exact ⟨[], by simp [ei_run_impulse, hst, hr], by simp,
          by simp [ei_run_impulse, hst, hr, hc], by simp [ei_run_impulse, hst, hr]⟩
    · exact absurd (Or.inl hst) hn
  · rw [ei_run_impulse_of_invoked cfg inp s hinv]
    have hcm : ({ s with inference_state := INFERENCE_DATA_READY } : State).continuous_mode
        = true := hc
    by_cases hok : inp.ei_error = EI_IMPULSE_OK
    · have hcl : classified_ok cfg inp s = true := (classified_ok_iff cfg inp s).mpr ⟨hinv, hok⟩
      simp only [hcl, if_true] at hp ⊢
      have hq : ¬ ((cfg.EI_CLASSIFIER_SLICES_PER_MODEL_WINDOW >>> 1 : Nat) : Int)
          ≤ ({ s with inference_state := INFERENCE_DATA_READY } : State).print_results
            + (1 : Int) := by
        show ¬ ((cfg.EI_CLASSIFIER_SLICES_PER_MODEL_WINDOW >>> 1 : Nat) : Int)
          ≤ s.print_results + (1 : Int)
        omega
      rw [classify_ok_continuous_quiet cfg inp _ hok hcm hq]
      refine ⟨[classifier_call cfg s], ?_, ?_, hc, rfl⟩
      · simp [emit, classifier_call]
      · simpa using (classifier_call_ne_display cfg s).symm
    · have hcl : classified_ok cfg inp s = false := by
        simp [classified_ok, hok]
      simp only [hcl, Bool.false_eq_true, if_false, add_zero]
      rw [classify_error cfg inp _ hok]
      refine ⟨[classifier_call cfg s], ?_, ?_, hc, rfl⟩
      · simp [emit, classifier_call]
      · simpa using (classifier_call_ne_display cfg s).symm

/-- In continuous mode, as long as the throttle counter plus the number of
successful classifications of a run stays below the report threshold, the run
never calls `display_results`. -/
theorem continuous_run_quiet (cfg : Config) (ins : List RunInputs) :
    ∀ s : State, s.continuous_mode = true →
      s.print_results + (count_ok cfg s ins : Int)
        < ((cfg.EI_CLASSIFIER_SLICES_PER_MODEL_WINDOW >>> 1 : Nat) : Int) →
      ∃ evs : List Event,
        (run_steps cfg s ins).trace = s.trace ++ evs ∧ Event.display_results ∉ evs := by
  induction ins with
  | nil => intro s _ _; exact ⟨[], by simp [run_steps_nil], by simp⟩
  | cons inp rest ih =>
    intro s hc hp
    simp only [count_ok, Nat.cast_add] at hp
    have hstep : s.print_results + (if classified_ok cfg inp s then 1 else 0)
        < ((cfg.EI_CLASSIFIER_SLICES_PER_MODEL_WINDOW >>> 1 : Nat) : Int) := by
      split_ifs
      · simp_all
        omega
      · simp_all
        omega
    obtain ⟨e1, ht1, hd1, hc1, hp1⟩ := continuous_step_quiet cfg inp s hc hstep
    have hrest : (ei_run_impulse cfg inp s).print_results
        + (count_ok cfg (ei_run_impulse cfg inp s) rest : Int)
        < ((cfg.EI_CLASSIFIER_SLICES_PER_MODEL_WINDOW >>> 1 : Nat) : Int) := by
      rw [hp1]
      split_ifs at hp ⊢
      · simp_all
        omega
      · simp_all
    obtain ⟨e2, ht2, hd2⟩ := ih _ hc1 hrest
    refine ⟨e1 ++ e2, ?_, ?_⟩
    · rw [run_steps_cons, ht2, ht1, List.append_assoc]
    · simp [hd1, hd2]

/-- Counterexample for C10 as stated: with one slice per model window the
report threshold `1 >> 1` is 0, so the very first successful classification
after a continuous-mode start is handed to `display_results`. -/
theorem warmup_one_slice_counterexample :
    classified_ok { cfg_ex with EI_CLASSIFIER_SLICES_PER_MODEL_WINDOW := 1 } (inputs_ex 10 0)
        (ei_start_impulse { cfg_ex with EI_CLASSIFIER_SLICES_PER_MODEL_WINDOW := 1 }
          ⟨5, true⟩ true false false state_ex) = true ∧
      Event.display_results ∈
        emitted
          (ei_start_impulse { cfg_ex with EI_CLASSIFIER_SLICES_PER_MODEL_WINDOW := 1 }
            ⟨5, true⟩ true false false state_ex)
          (ei_run_impulse { cfg_ex with EI_CLASSIFIER_SLICES_PER_MODEL_WINDOW := 1 }
            (inputs_ex 10 0)
            (ei_start_impulse { cfg_ex with EI_CLASSIFIER_SLICES_PER_MODEL_WINDOW := 1 }
              ⟨5, true⟩ true false false state_ex)) := by
  decide

/-- C10 (amended): continuous-mode warm-up suppression for every
`EI_CLASSIFIER_SLICES_PER_MODEL_WINDOW = N ≥ 2`.  After a continuous-mode
start from any state, a run of `ei_run_impulse` steps in which at most `N`
classifications succeed never calls `display_results`: none of the first `N`
successful classifications is handed to the result reporter, however many
failed classifications and idle steps lie in between. -/
theorem continuous_warmup_suppressed (cfg : Config) (inp : StartInputs) (debug umax : Bool)
    (s : State) (ins : List RunInputs)
    (hN : 2 ≤ cfg.EI_CLASSIFIER_SLICES_PER_MODEL_WINDOW)
    (hk : count_ok cfg (ei_start_impulse cfg inp true debug umax s) ins
      ≤ cfg.EI_CLASSIFIER_SLICES_PER_MODEL_WINDOW) :
    Event.display_results ∉
      emitted (ei_start_impulse cfg inp true debug umax s)
        (run_steps cfg (ei_start_impulse cfg inp true debug umax s) ins) := by
  have hc : (ei_start_impulse cfg inp true debug umax s).continuous_mode = true := by
    cases hm : inp.ei_microphone_inference_start <;> simp [ei_start_impulse, emit, hm]
  have hp : (ei_start_impulse cfg inp true debug umax s).print_results
      = -(cfg.EI_CLASSIFIER_SLICES_PER_MODEL_WINDOW : Int) := by
    cases hm : inp.ei_microphone_inference_start <;> simp [ei_start_impulse, emit, hm]
  have hh : 1 ≤ cfg.EI_CLASSIFIER_SLICES_PER_MODEL_WINDOW >>> 1 := by
    rw [Nat.shiftRight_eq_div_pow]
    omega
  obtain ⟨evs, ht, hd⟩ := continuous_run_quiet cfg ins _ hc (by rw [hp]; omega)
  rw [emitted_append _ _ evs ht]
  exact hd

/-- Witness for C10 (amended): four slices per window and a run with four
successful classifications. -/
theorem continuous_warmup_suppressed_witness :
    Event.display_results ∉
      emitted (ei_start_impulse cfg_ex ⟨5, true⟩ true false false state_ex)
        (run_steps cfg_ex (ei_start_impulse cfg_ex ⟨5, true⟩ true false false state_ex)
          [inputs_ex 10 0, inputs_ex 20 0, inputs_ex 30 0, inputs_ex 40 0]) :=
  continuous_warmup_suppressed cfg_ex ⟨5, true⟩ false false state_ex
    [inputs_ex 10 0, inputs_ex 20 0, inputs_ex 30 0, inputs_ex 40 0] (by decide) (by decide)

/-! ## Device registry -/

/-- C17: the device mode is last-writer-wins.  `get_state` after
`set_state m` returns `m`, and `set_state a` followed by `set_state b` leaves
the same stored mode (in fact the same device record) as `set_state b`
alone. -/
theorem set_state_last_writer_wins (dev : EiDevicePSoC62) (m a b : EiState) :
    (dev.set_state m).get_state = m ∧
      ((dev.set_state a).set_state b).get_state = (dev.set_state b).get_state ∧
      (dev.set_state a).set_state b = dev.set_state b := by
  refine ⟨?_, ?_, ?_⟩
  · cases m <;> rfl
  · cases a <;> cases b <;> rfl
  · cases a <;> cases b <;> rfl

/-- C18: `set_state m` leaves the periodic LED timer started exactly when `m`
is one of `eiStateErasingFlash`, `eiStateSampling`, `eiStateUploading`,
`eiStateFinished`, and leaves it stopped for `eiStateIdle`, whatever the timer
was doing before; the mode is stored in every case. -/
theorem set_state_led_timer (dev : EiDevicePSoC62) (m : EiState) :
    ((dev.set_state m).led_timer_running = true ↔
        (m = eiStateErasingFlash ∨ m = eiStateSampling ∨ m = eiStateUploading ∨
          m = eiStateFinished)) ∧
      ((dev.set_state m).led_timer_running = false ↔ m = eiStateIdle) ∧
      (dev.set_state eiStateIdle).led_timer_running = false ∧
      (dev.set_state m).state = m := by
  cases m <;> simp [EiDevicePSoC62.set_state]

/-! ## Frame properties of a step -/

/-- When no transition is due the step returns the state it was given. -/
theorem ei_run_impulse_idle (cfg : Config) (inp : RunInputs) (s : State)
    (h : no_transition_due inp s) : ei_run_impulse cfg inp s = s := by
  rcases h with h | ⟨h, hd⟩ | ⟨h, hr⟩
  · simp [ei_run_impulse, h]
  · simp [ei_run_impulse, h, hd]
  · simp [ei_run_impulse, h, hr]

/-- The inference state in which the classification half of a step ends. -/
theorem classify_inference_state (cfg : Config) (inp : RunInputs) (t : State) :
    (ei_run_impulse_classify cfg inp t).inference_state =
      if inp.ei_error ≠ EI_IMPULSE_OK then t.inference_state
      else if t.continuous_mode = true then INFERENCE_SAMPLING
      else INFERENCE_WAITING := by
  by_cases herr : inp.ei_error ≠ EI_IMPULSE_OK
  · rw [classify_error cfg inp t herr, if_pos herr]
    rfl
  · have hok : inp.ei_error = EI_IMPULSE_OK := not_not.mp herr
    rw [if_neg herr]
    by_cases hc : t.continuous_mode = true
    · rw [if_pos hc]
      by_cases hp : ((cfg.EI_CLASSIFIER_SLICES_PER_MODEL_WINDOW >>> 1 : Nat) : Int)
          ≤ t.print_results + (1 : Int)
      · rw [classify_ok_continuous_report cfg inp t hok hc hp]
      · rw [classify_ok_continuous_quiet cfg inp t hok hc hp]
    · rw [if_neg hc, classify_ok_single cfg inp t hok (Bool.eq_false_iff.mpr hc)]

/-- A step entered in a state other than `INFERENCE_STOPPED` does not end in
`INFERENCE_STOPPED`. -/
theorem ei_run_impulse_stays_running (cfg : Config) (inp : RunInputs) (s : State)
    (h : s.inference_state ≠ INFERENCE_STOPPED) :
    (ei_run_impulse cfg inp s).inference_state ≠ INFERENCE_STOPPED := by
  cases hinv : classifier_invoked cfg inp s
  · have hn := hinv
    rw [← Bool.not_eq_true, classifier_invoked_iff] at hn
    cases hst : s.inference_state
    · exact absurd hst h
    · rcases waiting_step_cases cfg inp s hst with hsame | hsamp
      · rw [hsame]; exact h
      · rw [hsamp]; decide
    · cases hr : inp.ei_microphone_inference_is_recording
      · exact absurd (Or.inr ⟨hst, hr⟩) hn
      · rw [ei_run_impulse_idle cfg inp s (Or.inr (Or.inr ⟨hst, hr⟩))]; exact h
    · exact absurd (Or.inl hst) hn
  · rw [ei_run_impulse_of_invoked cfg inp s hinv, classify_inference_state]
    split_ifs
    · show INFERENCE_DATA_READY ≠ INFERENCE_STOPPED
      decide
    · decide
    · decide

/-- C19: the step function never cancels or starts a run.  For every state
and every outcome of the clock, the sampling trigger and the classifier,
`ei_run_impulse` ends in `INFERENCE_STOPPED` if and only if it began there, so
`is_inference_running` is preserved by every step.  Of the three entry points
only `ei_stop_impulse` ends in `INFERENCE_STOPPED` when called on a running
machine: `ei_start_impulse` always leaves the machine running. -/
theorem ei_run_impulse_preserves_running (cfg : Config) (inp : RunInputs) (s : State) :
    ((ei_run_impulse cfg inp s).inference_state = INFERENCE_STOPPED ↔
        s.inference_state = INFERENCE_STOPPED) ∧
      is_inference_running (ei_run_impulse cfg inp s) = is_inference_running s ∧
      (∀ (si : StartInputs) (continuous debug umax : Bool),
        is_inference_running (ei_start_impulse cfg si continuous debug umax s) = true) ∧
      is_inference_running (ei_stop_impulse s) = false := by
  have hiff : (ei_run_impulse cfg inp s).inference_state = INFERENCE_STOPPED ↔
      s.inference_state = INFERENCE_STOPPED := by
    constructor
    · intro h
      by_contra hn
      exact ei_run_impulse_stays_running cfg inp s hn h
    · intro h
      rw [ei_run_impulse_idle cfg inp s (Or.inl h)]
      exact h
  refine ⟨hiff, ?_, ?_, ?_⟩
  · simp only [is_inference_running, bne, Bool.not_eq_eq_eq_not, Bool.not_not]
    by_cases h : s.inference_state = INFERENCE_STOPPED
    · simp [h, hiff.mpr h]
    · have h2 : ¬ (ei_run_impulse cfg inp s).inference_state = INFERENCE_STOPPED :=
        fun hh => h (hiff.mp hh)
      simp [h, h2]
  · intro si continuous debug umax
    cases continuous <;> cases hm : si.ei_microphone_inference_start <;>
      simp [is_inference_running, ei_start_impulse, emit, hm]
  · by_cases h : s.inference_state = INFERENCE_STOPPED
    · simp [is_inference_running, ei_stop_impulse, h]
    · simp [is_inference_running, ei_stop_impulse, h, emit, set_state]

/-- Counterexample for C20 as stated: the machine waits on a timestamp
1000 ms below `2 ^ 64` and the step reads a time 500 ms later, which is before
the deadline `last_inference_ts + 2000`.  The sum wraps to 1000 in `uint64_t`,
so the step does not leave the state alone: it resets the sample buffers, and
the inference state and the device mode become sampling. -/
theorem no_transition_wrap_counterexample :
    (18446744073709550616 : Nat) < UINT64_MOD ∧ (18446744073709551116 : Nat) < UINT64_MOD ∧
      (18446744073709551116 : Nat) < 18446744073709550616 + 2000 ∧
      (ei_run_impulse cfg_ex (inputs_ex 18446744073709551116 0)
        { state_ex with
          inference_state := INFERENCE_WAITING
          last_inference_ts := 18446744073709550616 }).inference_state
        ≠ INFERENCE_WAITING ∧
      (ei_run_impulse cfg_ex (inputs_ex 18446744073709551116 0)
        { state_ex with
          inference_state := INFERENCE_WAITING
          last_inference_ts := 18446744073709550616 }).dev.get_state
        ≠ ({ state_ex with
          inference_state := INFERENCE_WAITING
          last_inference_ts := 18446744073709550616 } : State).dev.get_state ∧
      emitted
        { state_ex with
          inference_state := INFERENCE_WAITING
          last_inference_ts := 18446744073709550616 }
        (ei_run_impulse cfg_ex (inputs_ex 18446744073709551116 0)
          { state_ex with
            inference_state := INFERENCE_WAITING
            last_inference_ts := 18446744073709550616 })
        = [Event.ei_microphone_inference_reset_buffers] := by
  decide

/-- C20 (amended): no side effects when no transition is due.  A step of
`ei_run_impulse` taken in `INFERENCE_STOPPED`, in `INFERENCE_WAITING` before
the deadline `(last_inference_ts + 2000) mod 2 ^ 64`, which is
`last_inference_ts + 2000` whenever that sum is below `2 ^ 64`, or in
`INFERENCE_SAMPLING` while the trigger reports collection in progress returns
the state it was given: the inference state, the device mode, the timestamp,
the throttle counter and both buffers are unchanged and no command is issued,
neither to the classifier nor to the notification channel.  Hence any number
of such steps, whatever their inputs, leaves the state as it was. -/
theorem ei_run_impulse_no_transition (cfg : Config) (inp : RunInputs) (s : State)
    (h : no_transition_due inp s) :
    ei_run_impulse cfg inp s = s ∧
      (ei_run_impulse cfg inp s).inference_state = s.inference_state ∧
      (ei_run_impulse cfg inp s).dev.get_state = s.dev.get_state ∧
      (ei_run_impulse cfg inp s).last_inference_ts = s.last_inference_ts ∧
      (ei_run_impulse cfg inp s).print_results = s.print_results ∧
      (ei_run_impulse cfg inp s).app_edge_impulse_class_result
        = s.app_edge_impulse_class_result ∧
      (ei_run_impulse cfg inp s).app_edge_impulse_settings = s.app_edge_impulse_settings ∧
      emitted s (ei_run_impulse cfg inp s) = [] ∧
      classifier_invoked cfg inp s = false ∧
      reported cfg inp s = false ∧
      (∀ ins : List RunInputs, (∀ i ∈ ins, no_transition_due i s) → run_steps cfg s ins = s) ∧
      (∀ i : RunInputs, s.inference_state = INFERENCE_WAITING →
        s.last_inference_ts + 2000 < UINT64_MOD →
        i.ei_read_timer_ms < s.last_inference_ts + 2000 → ei_run_impulse cfg i s = s) := by
  have hs := ei_run_impulse_idle cfg inp s h
  have hrun : ∀ ins : List RunInputs, (∀ i ∈ ins, no_transition_due i s) →
      run_steps cfg s ins = s := by
    intro ins
    induction ins with
    | nil => intro _; rfl
    | cons x rest ih =>
      intro hall
      rw [run_steps_cons, ei_run_impulse_idle cfg x s (hall x (by simp))]
      exact ih (fun i hi => hall i (by simp [hi]))
  refine ⟨hs, by rw [hs], by rw [hs], by rw [hs], by rw [hs], by rw [hs], by rw [hs],
    by rw [hs]; exact emitted_self s, ?_, ?_, hrun, ?_⟩
  · simp [classifier_invoked, hs, emitted_self]
  · simp [reported, hs, emitted_self]
  · intro i hw hlt hi
    apply ei_run_impulse_idle
    right; left
    exact ⟨hw, by rw [Nat.mod_eq_of_lt hlt]; exact hi⟩

/-- Witness for C20 (amended): three polls of a machine that waits on a timestamp of
5000, all before the deadline. -/
theorem ei_run_impulse_no_transition_witness :
    run_steps cfg_ex
        { state_ex with inference_state := INFERENCE_WAITING, last_inference_ts := 5000 }
        [inputs_ex 5001 0, inputs_ex 6000 0, inputs_ex 6999 0]
      = { state_ex with inference_state := INFERENCE_WAITING, last_inference_ts := 5000 } :=
  (ei_run_impulse_no_transition cfg_ex (inputs_ex 5001 0)
    { state_ex with inference_state := INFERENCE_WAITING, last_inference_ts := 5000 }
    (by decide)).2.2.2.2.2.2.2.2.2.2.1
    [inputs_ex 5001 0, inputs_ex 6000 0, inputs_ex 6999 0] (by decide)

/-! ## Continuous-mode reporting schedule -/

theorem reported_of_trace (cfg : Config) (inp : RunInputs) (s : State) (evs : List Event)
    (h : (ei_run_impulse cfg inp s).trace = s.trace ++ evs) :
    reported cfg inp s = decide (Event.display_results ∈ evs) := by
  simp [reported, emitted_append s _ evs h]

/-- In continuous mode, a successful classification that brings the throttle
counter to the threshold is reported and resets the counter to 0. -/
theorem continuous_step_report (cfg : Config) (inp : RunInputs) (s : State)
    (hc : s.continuous_mode = true) (hok : classified_ok cfg inp s = true)
    (hp : ((cfg.EI_CLASSIFIER_SLICES_PER_MODEL_WINDOW >>> 1 : Nat) : Int)
      ≤ s.print_results + (1 : Int)) :
    reported cfg inp s = true ∧
      (ei_run_impulse cfg inp s).continuous_mode = true ∧
      (ei_run_impulse cfg inp s).print_results = 0 := by
  obtain ⟨hinv, he⟩ := (classified_ok_iff cfg inp s).mp hok
  have hcm : ({ s with inference_state := INFERENCE_DATA_READY } : State).continuous_mode
      = true := hc
  have hpm : ((cfg.EI_CLASSIFIER_SLICES_PER_MODEL_WINDOW >>> 1 : Nat) : Int)
      ≤ ({ s with inference_state := INFERENCE_DATA_READY } : State).print_results
        + (1 : Int) := hp
  have hs := classify_ok_continuous_report cfg inp _ he hcm hpm
  rw [← ei_run_impulse_of_invoked cfg inp s hinv] at hs
  refine ⟨?_, ?_, ?_⟩
  · rw [reported_of_trace cfg inp s
      (classifier_call cfg s :: Event.display_results ::
        notify_events (emit (classifier_call cfg s) s))
      (by rw [hs]; simp [display_results_eq, emit, classifier_call, notify_events])]
    simp
  · rw [hs]; simp [display_results_eq, emit, hc]
  · rw [hs]

theorem mod_succ_eq_zero_iff (d h : Nat) (hh : 1 ≤ h) :
    (h : Int) ≤ ((d % h : Nat) : Int) + 1 ↔ h ∣ d + 1 := by
  rcases Nat.eq_or_lt_of_le hh with h1 | h1
  · subst h1
    simp
  · have hlt : d % h < h := Nat.mod_lt d (by omega)
    have key : (d + 1) % h = (d % h + 1) % h := by
      rw [Nat.add_mod, Nat.mod_eq_of_lt h1]
    rw [Nat.dvd_iff_mod_eq_zero, key]
    constructor
    · intro hle
      have he : d % h + 1 = h := by omega
      rw [he, Nat.mod_self]
    · intro hz
      by_contra hn
      have hlt2 : d % h + 1 < h := by omega
      rw [Nat.mod_eq_of_lt hlt2] at hz
      omega

/-- One step under the counter invariant: the invariant is kept with the
success count advanced, and the step reports exactly when it is a successful
classification whose number `c + 1` satisfies the schedule. -/
theorem counter_inv_step (cfg : Config) (inp : RunInputs) (s : State) (c : Nat)
    (hN : 2 ≤ cfg.EI_CLASSIFIER_SLICES_PER_MODEL_WINDOW) (hinv : counter_inv cfg c s) :
    counter_inv cfg (c + (if classified_ok cfg inp s then 1 else 0))
        (ei_run_impulse cfg inp s) ∧
      (reported cfg inp s = true ↔
        (classified_ok cfg inp s = true ∧
          cfg.EI_CLASSIFIER_SLICES_PER_MODEL_WINDOW
              + cfg.EI_CLASSIFIER_SLICES_PER_MODEL_WINDOW >>> 1 ≤ c + 1 ∧
          cfg.EI_CLASSIFIER_SLICES_PER_MODEL_WINDOW >>> 1
            ∣ c + 1 - cfg.EI_CLASSIFIER_SLICES_PER_MODEL_WINDOW)) ∧
      (reported cfg inp s = true ↔
        (classified_ok cfg inp s = true ∧
          s.print_results + 1
            = ((cfg.EI_CLASSIFIER_SLICES_PER_MODEL_WINDOW >>> 1 : Nat) : Int))) ∧
      (reported cfg inp s = true → (ei_run_impulse cfg inp s).print_results = 0) := by
  obtain ⟨hc, hcase⟩ := hinv
  have hH : 1 ≤ cfg.EI_CLASSIFIER_SLICES_PER_MODEL_WINDOW >>> 1 := by
    rw [Nat.shiftRight_eq_div_pow]
    omega
  generalize hNd : cfg.EI_CLASSIFIER_SLICES_PER_MODEL_WINDOW = N at *
  generalize hHd : N >>> 1 = H at *
  have hmodlt : ∀ d : Nat, d % H < H := fun d => Nat.mod_lt d (by omega)
  have hprlt : s.print_results < (H : Int) := by
    rcases hcase with ⟨h1, h2⟩ | ⟨h1, h2⟩
    · rw [h2]; omega
    · rw [h2]; have := hmodlt (c - N); omega
  cases hok : classified_ok cfg inp s
  · -- no successful classification in this step
    have hp : s.print_results + (if classified_ok cfg inp s then 1 else 0)
        < ((cfg.EI_CLASSIFIER_SLICES_PER_MODEL_WINDOW >>> 1 : Nat) : Int) := by
      rw [hok, hNd, hHd]; simpa using hprlt
    obtain ⟨evs, ht, hd, hc2, hp2⟩ := continuous_step_quiet cfg inp s hc hp
    have hrep : reported cfg inp s = false := by
      rw [reported_of_trace cfg inp s evs ht]; simpa using hd
    rw [hok] at hp2
    simp only [Bool.false_eq_true, if_false, add_zero] at hp2 ⊢
    refine ⟨⟨hc2, ?_⟩, by simp [hrep], by simp [hrep], by simp [hrep]⟩
    rw [hp2, hNd, hHd]
    exact hcase
  · by_cases hp : (H : Int) ≤ s.print_results + (1 : Int)
    · -- the counter reaches the threshold: report and reset
      have hp0 : ((cfg.EI_CLASSIFIER_SLICES_PER_MODEL_WINDOW >>> 1 : Nat) : Int)
          ≤ s.print_results + (1 : Int) := by rw [hNd, hHd]; exact hp
      obtain ⟨hrep, hc2, hp2⟩ := continuous_step_report cfg inp s hc hok hp0
      have hcN : N ≤ c ∧ s.print_results = (((c - N) % H : Nat) : Int) := by
        rcases hcase with ⟨h1, h2⟩ | h
        · rw [h2] at hp; omega
        · exact h
      have hdvd : H ∣ (c - N) + 1 := by
        rw [← mod_succ_eq_zero_iff (c - N) H hH, ← hcN.2]; exact hp
      have hsub : c + 1 - N = (c - N) + 1 := by omega
      have hle : H ≤ (c - N) + 1 := Nat.le_of_dvd (by omega) hdvd
      simp only [if_true]
      refine ⟨⟨hc2, ?_⟩, ?_, ?_, fun _ => hp2⟩
      · right
        rw [hNd, hHd]
        refine ⟨by omega, ?_⟩
        rw [hp2, hsub, Nat.mod_eq_zero_of_dvd hdvd]
        rfl
      · simp only [hrep, true_iff]
        exact ⟨trivial, by omega, by rw [hsub]; exact hdvd⟩
      · simp only [hrep, true_iff]
        exact ⟨trivial, by omega⟩
    · -- below the threshold: count and stay quiet
      have hp0 : s.print_results + (if classified_ok cfg inp s then 1 else 0)
          < ((cfg.EI_CLASSIFIER_SLICES_PER_MODEL_WINDOW >>> 1 : Nat) : Int) := by
        rw [hok, hNd, hHd]; simp only [if_true]; omega
      obtain ⟨evs, ht, hd, hc2, hp2⟩ := continuous_step_quiet cfg inp s hc hp0
      have hrep : reported cfg inp s = false := by
        rw [reported_of_trace cfg inp s evs ht]; simpa using hd
      rw [hok] at hp2
      simp only [if_true] at hp2 ⊢
      refine ⟨⟨hc2, ?_⟩, ?_, ?_, by simp [hrep]⟩
      · rw [hp2, hNd, hHd]
        rcases hcase with ⟨h1, h2⟩ | ⟨h1, h2⟩
        · rcases Nat.lt_or_ge (c + 1) N with h3 | h3
          · left; exact ⟨h3, by rw [h2]; push_cast; ring⟩
          · right
            have : c + 1 - N = 0 := by omega
            refine ⟨h3, ?_⟩
            rw [h2, this, Nat.zero_mod]
            push_cast
            omega
        · right
          refine ⟨by omega, ?_⟩
          have hsub : c + 1 - N = (c - N) + 1 := by omega
          have hlt2 : (c - N) % H + 1 < H := by rw [h2] at hp; omega
          have h1H : 1 < H := by omega
          rw [h2, hsub, Nat.add_mod, Nat.mod_eq_of_lt h1H, Nat.mod_eq_of_lt hlt2]
          push_cast
          ring
      · simp only [hrep, Bool.false_eq_true, false_iff, not_and]
        intro _ hle hdvd
        rcases hcase with ⟨h1, _⟩ | ⟨h1, h2⟩
        · omega
        · have hsub : c + 1 - N = (c - N) + 1 := by omega
          rw [hsub, ← mod_succ_eq_zero_iff (c - N) H hH, ← h2] at hdvd
          exact hp hdvd
      · simp only [hrep, Bool.false_eq_true, false_iff, not_and]
        intro _ heq
        omega

theorem run_steps_append (cfg : Config) (s : State) (ins : List RunInputs) (inp : RunInputs) :
    run_steps cfg s (ins ++ [inp]) = ei_run_impulse cfg inp (run_steps cfg s ins) := by
  simp [run_steps]

/-- The counter invariant holds along every run. -/
theorem counter_inv_run (cfg : Config)
    (hN : 2 ≤ cfg.EI_CLASSIFIER_SLICES_PER_MODEL_WINDOW) (ins : List RunInputs) :
    ∀ (s : State) (c : Nat), counter_inv cfg c s →
      counter_inv cfg (c + count_ok cfg s ins) (run_steps cfg s ins) := by
  induction ins with
  | nil => intro s c h; simpa [count_ok, run_steps_nil] using h
  | cons x rest ih =>
    intro s c h
    have h1 := (counter_inv_step cfg x s c hN h).1
    have h2 := ih _ _ h1
    rw [run_steps_cons]
    simp only [count_ok]
    rw [← Nat.add_assoc]
    exact h2

/-- A continuous-mode start establishes the counter invariant with no
successful classification counted yet. -/
theorem counter_inv_start (cfg : Config) (si : StartInputs) (debug umax : Bool) (s : State)
    (hN : 1 ≤ cfg.EI_CLASSIFIER_SLICES_PER_MODEL_WINDOW) :
    counter_inv cfg 0 (ei_start_impulse cfg si true debug umax s) := by
  refine ⟨?_, Or.inl ⟨by omega, ?_⟩⟩
  · cases hm : si.ei_microphone_inference_start <;> simp [ei_start_impulse, emit, hm]
  · cases hm : si.ei_microphone_inference_start <;> simp [ei_start_impulse, emit, hm]

/-- C11: continuous-mode reporting schedule.  Let `N ≥ 2` be the number of
slices per model window and `h = N / 2`.  After a continuous-mode start from
any state and any run of steps `ins`, the next step reports (calls
`display_results`) if and only if it is a successful classification and its
number `k` among the successful classifications since the start (failed
classifications and idle steps not counted) satisfies `k ≥ N + h` and
`h ∣ k - N`.  Equivalently the step reports exactly when its success brings the
throttle counter to `h`, and each report resets the counter to 0; so the first
report is at `k = N + h` and then one follows every `h` successes. -/
theorem continuous_report_schedule (cfg : Config) (si : StartInputs) (debug umax : Bool)
    (s : State) (ins : List RunInputs) (inp : RunInputs)
    (hN : 2 ≤ cfg.EI_CLASSIFIER_SLICES_PER_MODEL_WINDOW) :
    (reported cfg inp (run_steps cfg (ei_start_impulse cfg si true debug umax s) ins) = true ↔
      (classified_ok cfg inp (run_steps cfg (ei_start_impulse cfg si true debug umax s) ins)
          = true ∧
        cfg.EI_CLASSIFIER_SLICES_PER_MODEL_WINDOW
            + cfg.EI_CLASSIFIER_SLICES_PER_MODEL_WINDOW / 2
          ≤ count_ok cfg (ei_start_impulse cfg si true debug umax s) ins + 1 ∧
        cfg.EI_CLASSIFIER_SLICES_PER_MODEL_WINDOW / 2 ∣
          count_ok cfg (ei_start_impulse cfg si true debug umax s) ins + 1
            - cfg.EI_CLASSIFIER_SLICES_PER_MODEL_WINDOW)) ∧
    (reported cfg inp (run_steps cfg (ei_start_impulse cfg si true debug umax s) ins) = true ↔
      (classified_ok cfg inp (run_steps cfg (ei_start_impulse cfg si true debug umax s) ins)
          = true ∧
        (run_steps cfg (ei_start_impulse cfg si true debug umax s) ins).print_results + 1
          = ((cfg.EI_CLASSIFIER_SLICES_PER_MODEL_WINDOW / 2 : Nat) : Int))) ∧
    (reported cfg inp (run_steps cfg (ei_start_impulse cfg si true debug umax s) ins) = true →
      (ei_run_impulse cfg inp
        (run_steps cfg (ei_start_impulse cfg si true debug umax s) ins)).print_results = 0) := by
  have h0 := counter_inv_start cfg si debug umax s (by omega)
  have h1 := counter_inv_run cfg hN ins _ 0 h0
  rw [Nat.zero_add] at h1
  have h2 := counter_inv_step cfg inp _ _ hN h1
  have hsh : cfg.EI_CLASSIFIER_SLICES_PER_MODEL_WINDOW >>> 1
      = cfg.EI_CLASSIFIER_SLICES_PER_MODEL_WINDOW / 2 := by
    rw [Nat.shiftRight_eq_div_pow, Nat.pow_one]
  rw [hsh] at h2
  exact h2.2

/-- Witness for C11: with four slices per window the sixth successful
classification after the start is the first one reported. -/
theorem continuous_report_schedule_witness :
    reported cfg_ex (inputs_ex 60 0)
      (run_steps cfg_ex (ei_start_impulse cfg_ex ⟨5, true⟩ true false false state_ex)
        [inputs_ex 10 0, inputs_ex 20 0, inputs_ex 30 (-1), inputs_ex 30 0, inputs_ex 40 0,
          inputs_ex 50 0]) = true :=
  (continuous_report_schedule cfg_ex ⟨5, true⟩ false false state_ex
    [inputs_ex 10 0, inputs_ex 20 0, inputs_ex 30 (-1), inputs_ex 30 0, inputs_ex 40 0,
      inputs_ex 50 0] (inputs_ex 60 0) (by decide)).1.mpr (by decide)

/-! ## Arg-max selection -/

theorem find_max_ix_inv (rest : List ei_impulse_result_classification_t) :
    ∀ (pre : List ℚ) (max : ℚ) (max_ix : Nat), argmax_inv pre max max_ix →
      ∃ m, argmax_inv (pre ++ rest.map (fun c => c.value)) m
        (find_max_ix rest pre.length max max_ix) := by
  induction rest with
  | nil => intro pre max max_ix h; exact ⟨max, by simpa [find_max_ix] using h⟩
  | cons c rest ih =>
    intro pre max max_ix h
    have happ : pre ++ (c :: rest).map (fun c => c.value)
        = (pre ++ [c.value]) ++ rest.map (fun c => c.value) := by simp
    have hlen : (pre ++ [c.value]).length = pre.length + 1 := by simp
    rw [happ]
    by_cases hgt : c.value > max
    · simp only [find_max_ix, hgt, if_true]
      rw [← hlen]
      apply ih
      left
      have hmax0 : 0 ≤ max := by
        rcases h with ⟨h1, _⟩ | ⟨h1, _⟩
        · exact le_of_lt h1
        · rw [h1]
      have hall : ∀ x ∈ pre, x ≤ max := by
        rcases h with ⟨_, h2, h3⟩ | ⟨h1, _, h3⟩
        · intro x hx; rw [← h2]; exact h3.2.1 x hx
        · intro x hx; rw [h1]; exact h3 x hx
      have hget : (pre ++ [c.value]).getD pre.length 0 = c.value := by
        simp [List.getD_eq_getElem?_getD]
      refine ⟨lt_of_le_of_lt hmax0 hgt, hget, ?_, ?_, ?_⟩
      · simp
      · intro x hx
        rw [hget]
        rcases List.mem_append.mp hx with hx | hx
        · exact le_of_lt (lt_of_le_of_lt (hall x hx) hgt)
        · simp at hx; rw [hx]
      · intro x hx
        rw [hget]
        rw [List.take_append_of_le_length (le_refl _), List.take_length] at hx
        exact lt_of_le_of_lt (hall x hx) hgt
    · simp only [find_max_ix, hgt, if_false]
      rw [← hlen]
      apply ih
      have hle : c.value ≤ max := not_lt.mp hgt
      rcases h with ⟨h1, h2, h3⟩ | ⟨h1, h2, h3⟩
      · left
        have hix : max_ix < pre.length := h3.1
        have hget : (pre ++ [c.value]).getD max_ix 0 = pre.getD max_ix 0 := by
          simp [List.getD_eq_getElem?_getD, List.getElem?_append_left hix]
        refine ⟨h1, by rw [hget, h2], ?_, ?_, ?_⟩
        · simp; omega
        · intro x hx
          rw [hget]
          rcases List.mem_append.mp hx with hx | hx
          · exact h3.2.1 x hx
          · simp at hx; rw [hx, h2]; exact hle
        · intro x hx
          rw [hget]
          rw [List.take_append_of_le_length (le_of_lt hix)] at hx
          exact h3.2.2 x hx
      · right
        refine ⟨h1, h2, ?_⟩
        intro x hx
        rcases List.mem_append.mp hx with hx | hx
        · exact h3 x hx
        · simp at hx; rw [hx, ← h1]; exact hle

theorem find_max_ix_argmax_inv (r : ei_impulse_result_t) :
    ∃ m, argmax_inv (confidences r) m (find_max_ix r.classification 0 0 0) := by
  have h := find_max_ix_inv r.classification [] 0 0 (Or.inr ⟨rfl, rfl, by simp⟩)
  simpa [confidences] using h

theorem getD_mem_of_lt (l : List ℚ) (i : Nat) (h : i < l.length) : l.getD i 0 ∈ l := by
  rw [List.getD_eq_getElem l 0 h]
  exact List.getElem_mem h

theorem getD_mem_take (l : List ℚ) (i j : Nat) (hij : i < j) (h : i < l.length) :
    l.getD i 0 ∈ l.take j := by
  have h2 : i < (l.take j).length := by simp; omega
  have h3 : (l.take j).getD i 0 = l.getD i 0 := by
    rw [List.getD_eq_getElem _ 0 h2, List.getD_eq_getElem _ 0 h]
    simp
  rw [← h3]
  exact getD_mem_of_lt _ _ h2

/-- The first arg-max of a list is unique. -/
theorem is_first_argmax_unique (l : List ℚ) (i j : Nat)
    (hi : is_first_argmax l i) (hj : is_first_argmax l j) : i = j := by
  rcases Nat.lt_trichotomy i j with h | h | h
  · have h1 := hj.2.2 _ (getD_mem_take l i j h hi.1)
    have h2 := hi.2.1 _ (getD_mem_of_lt l j hj.1)
    exact absurd h1 (not_lt.mpr h2)
  · exact h
  · have h1 := hi.2.2 _ (getD_mem_take l j i h hj.1)
    have h2 := hj.2.1 _ (getD_mem_of_lt l i hi.1)
    exact absurd h1 (not_lt.mpr h2)

/-- When some confidence is positive the loop returns the first arg-max. -/
theorem find_max_ix_of_pos (r : ei_impulse_result_t) (h : ∃ x ∈ confidences r, 0 < x) :
    is_first_argmax (confidences r) (find_max_ix r.classification 0 0 0) := by
  obtain ⟨m, hm⟩ := find_max_ix_argmax_inv r
  rcases hm with ⟨_, _, h3⟩ | ⟨_, _, h3⟩
  · exact h3
  · obtain ⟨x, hx, hpos⟩ := h
    exact absurd hpos (not_lt.mpr (h3 x hx))

/-- When no confidence is positive the loop returns index 0. -/
theorem find_max_ix_of_nonpos (r : ei_impulse_result_t) (h : ∀ x ∈ confidences r, x ≤ 0) :
    find_max_ix r.classification 0 0 0 = 0 := by
  obtain ⟨m, hm⟩ := find_max_ix_argmax_inv r
  rcases hm with ⟨h1, h2, h3⟩ | ⟨_, h2, _⟩
  · have := h _ (getD_mem_of_lt _ _ h3.1)
    rw [h2] at this
    exact absurd h1 (not_lt.mpr this)
  · exact h2

/-- C12: arg-max selection in `display_results` fails on the non-empty
sequence ("a", -1/2), ("b", -1/10).  The first index whose confidence equals
the maximum is 1 (label "b"), which is what the claim and the comment above
the loop, "Find the label with maximum confidence", ask for; but the running
maximum starts at `0.0f` instead of the first confidence, so the loop keeps
its initial winner 0 and `display_results` stages label "a". -/
theorem display_results_negative_confidences :
    is_first_argmax
        (confidences ⟨[{ label := [97], value := -1 / 2 }, { label := [98], value := -1 / 10 }]⟩)
        1 ∧
      find_max_ix [{ label := [97], value := -1 / 2 }, { label := [98], value := -1 / 10 }]
        0 0 0 = 0 ∧
      (display_results cfg_ex
        ⟨[{ label := [97], value := -1 / 2 }, { label := [98], value := -1 / 10 }]⟩
        state_ex).app_edge_impulse_class_result = [97, 0, 0, 0, 0, 0, 0, 0] := by
  decide!

/-- Arg-max selection in `display_results` where the start value `0.0f` of
the running maximum does no harm: for every non-empty classification sequence
whose confidences are all non-negative (taken as exact rationals), the index
chosen by the loop is the first index whose confidence equals the maximum
confidence, and the label staged in the notification buffer is the label at
that index. -/
theorem argmax_selection (cfg : Config) (r : ei_impulse_result_t) (s : State)
    (hne : r.classification ≠ []) (hnonneg : ∀ x ∈ confidences r, 0 ≤ x) :
    is_first_argmax (confidences r) (find_max_ix r.classification 0 0 0) ∧
      ∀ i, is_first_argmax (confidences r) i →
        find_max_ix r.classification 0 0 0 = i ∧
          (display_results cfg r s).app_edge_impulse_class_result =
            (stage_label cfg.app_edge_impulse_class_result_len (label_at r i)
              s.app_edge_impulse_class_result).1 := by
  have hfirst : is_first_argmax (confidences r) (find_max_ix r.classification 0 0 0) := by
    by_cases hpos : ∃ x ∈ confidences r, 0 < x
    · exact find_max_ix_of_pos r hpos
    · have hle : ∀ x ∈ confidences r, x ≤ 0 := by
        intro x hx
        by_contra hn
        exact hpos ⟨x, hx, not_le.mp hn⟩
      rw [find_max_ix_of_nonpos r hle]
      have hlen : 0 < (confidences r).length := by
        cases hc : r.classification with
        | nil => exact absurd hc hne
        | cons c rest => simp [confidences, hc]
      have h0 : (confidences r).getD 0 0 = 0 :=
        le_antisymm (hle _ (getD_mem_of_lt _ _ hlen)) (hnonneg _ (getD_mem_of_lt _ _ hlen))
      refine ⟨hlen, ?_, by simp⟩
      intro x hx
      rw [h0]
      exact hle x hx
  refine ⟨hfirst, fun i hi => ?_⟩
  have heq := is_first_argmax_unique _ _ _ hfirst hi
  refine ⟨heq, ?_⟩
  rw [display_results_eq, heq]

/-- For the confidences 0.2, 0.9, 0.9 the winner is index 1, the first of
the two tied labels. -/
theorem argmax_selection_witness :
    find_max_ix result_ex.classification 0 0 0 = 1 ∧
      (display_results cfg_ex result_ex state_ex).app_edge_impulse_class_result =
        (stage_label cfg_ex.app_edge_impulse_class_result_len (label_at result_ex 1)
          state_ex.app_edge_impulse_class_result).1 :=
  (argmax_selection cfg_ex result_ex state_ex (by decide) (by decide!)).2 1 (by decide!)

/-! ## Byte stores -/

theorem store_bytes_length (bs : List Nat) :
    ∀ (i : Nat) (mem : List Nat) (log : List (Nat × Nat)),
      (store_bytes bs i mem log).1.length = mem.length := by
  induction bs with
  | nil => intro i mem log; simp [store_bytes]
  | cons b rest ih =>
    intro i mem log
    simp [store_bytes, ih]

theorem store_bytes_fst (bs : List Nat) :
    ∀ (i : Nat) (mem : List Nat) (log : List (Nat × Nat)), i + bs.length ≤ mem.length →
      (store_bytes bs i mem log).1 = mem.take i ++ bs ++ mem.drop (i + bs.length) := by
  induction bs with
  | nil => intro i mem log _; simp [store_bytes]
  | cons b rest ih =>
    intro i mem log h
    simp only [List.length_cons] at h
    have hi : i < mem.length := by omega
    simp only [store_bytes]
    rw [ih (i + 1) (mem.set i b) _ (by simp; omega)]
    rw [List.set_eq_take_append_cons_drop, if_pos hi]
    have h1 : (mem.take i ++ b :: mem.drop (i + 1)).take (i + 1) = mem.take i ++ [b] := by
      rw [List.take_append_eq_append_take]
      simp [List.length_take, Nat.min_eq_left (le_of_lt hi)]
    have h2 : (mem.take i ++ b :: mem.drop (i + 1)).drop (i + 1 + rest.length)
        = mem.drop (i + (rest.length + 1)) := by
      have hl : (mem.take i).length = i := by
        rw [List.length_take]; exact Nat.min_eq_left (le_of_lt hi)
      have e1 : i + 1 + rest.length = (mem.take i).length + (rest.length + 1) := by
        rw [hl]; omega
      rw [e1, List.drop_append, List.drop_succ_cons, List.drop_drop]
      congr 1
      omega
    rw [h1, h2]
    simp

theorem c_memset_fst (mem : List Nat) (val n : Nat) (h : n ≤ mem.length) :
    (c_memset mem val n).1 = List.replicate n val ++ mem.drop n := by
  unfold c_memset
  rw [store_bytes_fst _ 0 mem [] (by simpa using h)]
  simp

theorem c_memcpy_fst (mem src : List Nat) (n : Nat) (hn : n ≤ src.length)
    (h : n ≤ mem.length) :
    (c_memcpy mem src n).1 = src.take n ++ mem.drop n := by
  unfold c_memcpy
  have hl : (src.take n).length = n := by
    rw [List.length_take]; exact Nat.min_eq_left hn
  rw [store_bytes_fst _ 0 mem [] (by rw [hl]; omega), hl]
  simp

/-- C14 (evaluation of the code): with the bound 8 and the labels "noise" and
"up", the second label ends exactly at the bound; the terminator written by
`strncat` and the delimiter `/` are then both stored at index 8, which is not
below the bound, and the byte at index 8 of the settings memory is
overwritten. -/
theorem catalog_overrun :
    (8, 0) ∈ (catalog_build 8
        ⟨[{ label := [110, 111, 105, 115, 101], value := 7 / 10 },
          { label := [117, 112], value := 3 / 10 }]⟩ (List.replicate 12 255)).2 ∧
      (8, 47) ∈ (catalog_build 8
        ⟨[{ label := [110, 111, 105, 115, 101], value := 7 / 10 },
          { label := [117, 112], value := 3 / 10 }]⟩ (List.replicate 12 255)).2 ∧
      ¬ (∀ p ∈ (catalog_build 8
        ⟨[{ label := [110, 111, 105, 115, 101], value := 7 / 10 },
          { label := [117, 112], value := 3 / 10 }]⟩ (List.replicate 12 255)).2, p.1 < 8) ∧
      (display_results cfg_ex
        ⟨[{ label := [110, 111, 105, 115, 101], value := 7 / 10 },
          { label := [117, 112], value := 3 / 10 }]⟩
        { state_ex with app_edge_impulse_settings := List.replicate 12 255 }
        ).app_edge_impulse_settings
        = [110, 111, 105, 115, 101, 47, 117, 112, 47, 255, 255, 255] := by
  decide!

theorem c_strlen_eq (p : List Nat) : c_strlen p = (c_str p).length := rfl

theorem take_c_strlen (p : List Nat) : p.take (c_strlen p) = c_str p := by
  unfold c_strlen c_str
  exact (List.prefix_iff_eq_take.mp (List.takeWhile_prefix _)).symm

theorem c_strlen_of_head_zero (T : List Nat) (h : T[0]? = some 0) : c_strlen T = 0 := by
  cases T with
  | nil => simp at h
  | cons a rest =>
    simp at h
    subst h
    simp [c_strlen]

theorem set_append_cons (A B : List Nat) (x y : Nat) :
    (A ++ x :: B).set A.length y = A ++ y :: B := by
  induction A with
  | nil => simp
  | cons a A ih => simp [ih]

/-- The memory left by the catalog loop.  The memory is `W ++ T`, where `W`
holds the `total_len` bytes written so far; below the bound `C` the memory
behind `W` is still zero, and it extends past index `C`. -/
theorem catalog_loop_fst (C : Nat) (cls : List ei_impulse_result_classification_t) :
    ∀ (total_len : Nat) (W T : List Nat) (log : List (Nat × Nat)),
      (∀ c ∈ cls, 0 < c_strlen c.label) →
      W.length = total_len →
      (∀ k, total_len + k < C → T[k]? = some 0) →
      (total_len ≤ C → C - total_len < T.length) →
      (catalog_loop C cls total_len (W ++ T) log).1 =
        W ++ catalog_from C (cls.map (fun c => c.label)) total_len
          ++ T.drop (catalog_from C (cls.map (fun c => c.label)) total_len).length := by
  induction cls with
  | nil => intro total_len W T log _ _ _ _; simp [catalog_loop, catalog_from]
  | cons c rest ih =>
    intro total_len W T log hne hW hzero hlen
    have hn : 0 < c_strlen c.label := hne c (by simp)
    by_cases hgt : total_len + c_strlen c.label > C
    · simp [catalog_loop, catalog_from, hgt]
    · have hfit : total_len + c_strlen c.label ≤ C := not_lt.mp hgt
      have hdrop : (W ++ T).drop total_len = T := by
        rw [← hW]; exact List.drop_left' rfl
      have hdst : c_strlen ((W ++ T).drop total_len) = 0 := by
        rw [hdrop]
        exact c_strlen_of_head_zero T (hzero 0 (by omega))
      have hTlen : c_strlen c.label + 1 ≤ T.length := by
        have := hlen (by omega)
        omega
      have hbytes : (c.label.take (c_strlen c.label) ++ [0]).length = c_strlen c.label + 1 := by
        rw [take_c_strlen]; simp [c_strlen_eq]
      have hstore : (store_bytes (c.label.take (c_strlen c.label) ++ [0]) total_len (W ++ T)
          log).1 = (W ++ c_str c.label) ++ 0 :: T.drop (c_strlen c.label + 1) := by
        rw [store_bytes_fst _ _ _ _ (by rw [hbytes, List.length_append, hW]; omega), hbytes,
          take_c_strlen]
        have e1 : (W ++ T).take total_len = W := by
          rw [← hW]; exact List.take_left' rfl
        have e2 : (W ++ T).drop (total_len + (c_strlen c.label + 1))
            = T.drop (c_strlen c.label + 1) := by
          rw [← hW, List.drop_append]
        rw [e1, e2]
        simp
      have hidx : total_len + c_strlen c.label = (W ++ c_str c.label).length := by
        rw [List.length_append, hW, c_strlen_eq]
      have hmem : (store_bytes (c.label.take (c_strlen c.label) ++ [0]) total_len (W ++ T)
          log).1.set (total_len + c_strlen c.label) 47
          = (W ++ c_str c.label ++ [47]) ++ T.drop (c_strlen c.label + 1) := by
        rw [hstore, hidx, set_append_cons]
        simp
      simp only [catalog_loop, catalog_from, hgt, if_false, List.map_cons, hdst, Nat.add_zero]
      rw [hmem]
      rw [ih (total_len + c_strlen c.label + 1) (W ++ c_str c.label ++ [47])
        (T.drop (c_strlen c.label + 1)) _ (fun x hx => hne x (by simp [hx]))
        (by simp [hW, c_strlen_eq]; omega)
        (by
          intro k hk
          rw [List.getElem?_drop]
          exact hzero _ (by omega))
        (by
          intro hle
          rw [List.length_drop]
          have := hlen (by omega)
          omega)]
      simp only [List.length_append, List.length_cons, List.length_nil, List.drop_drop,
        List.append_assoc]
      have e3 : ∀ k : Nat, c_strlen c.label + 1 + k = (c_str c.label).length + (0 + 1 + k) := by
        intro k
        rw [c_strlen_eq]
        omega
      rw [e3]

/-- The catalog written by the loop, entered with `total_len` bytes written,
in the words of the specification: the labels before the first one that does
not fit, each followed by the delimiter. -/
theorem catalog_from_eq (C : Nat) (labels : List (List Nat)) :
    ∀ total_len : Nat,
      catalog_from C labels total_len =
        ((labels.take
          (((List.range labels.length).find?
            (fun i => decide (total_len + catalog_bytes_before labels i
              + c_strlen (labels.getD i []) > C))).getD labels.length)).map
          (fun l => c_str l ++ [47])).flatten := by
  induction labels with
  | nil => intro total_len; simp [catalog_from]
  | cons l rest ih =>
    intro total_len
    rw [List.length_cons, List.range_succ_eq_map, List.find?_cons]
    by_cases hgt : total_len + c_strlen l > C
    · simp [catalog_from, catalog_bytes_before, hgt]
    · have h0 : decide (total_len + catalog_bytes_before (l :: rest) 0
          + c_strlen ((l :: rest).getD 0 []) > C) = false := by
        simp [catalog_bytes_before]
        omega
      rw [h0]
      simp only [catalog_from, hgt, if_false]
      rw [ih (total_len + c_strlen l + 1), List.find?_map]
      have hp : ((fun i => decide (total_len + catalog_bytes_before (l :: rest) i
            + c_strlen ((l :: rest).getD i []) > C)) ∘ Nat.succ)
          = (fun i => decide (total_len + c_strlen l + 1 + catalog_bytes_before rest i
            + c_strlen (rest.getD i []) > C)) := by
        funext i
        simp only [Function.comp, catalog_bytes_before, Nat.succ_eq_add_one, List.take_succ_cons,
          List.map_cons, List.sum_cons, List.getD_cons_succ]
        congr 1
        apply propext
        constructor <;> intro h <;> omega
      rw [hp]
      cases hf : (List.range rest.length).find?
          (fun i => decide (total_len + c_strlen l + 1 + catalog_bytes_before rest i
            + c_strlen (rest.getD i []) > C)) with
      | none => simp
      | some k => simp

/-- The catalog written by the loop from the start is the catalog of the
specification. -/
theorem catalog_from_zero (C : Nat) (labels : List (List Nat)) :
    catalog_from C labels 0 = catalog_spec C labels := by
  rw [catalog_from_eq C labels 0]
  simp [catalog_spec, catalog_count]

/-- The catalog never exceeds the bound by more than the last delimiter. -/
theorem catalog_from_length (C : Nat) (labels : List (List Nat)) :
    ∀ total_len : Nat, total_len ≤ C + 1 →
      total_len + (catalog_from C labels total_len).length ≤ C + 1 := by
  induction labels with
  | nil => intro total_len h; simpa [catalog_from] using h
  | cons l rest ih =>
    intro total_len h
    by_cases hgt : total_len + c_strlen l > C
    · simpa [catalog_from, hgt] using h
    · have := ih (total_len + c_strlen l + 1) (by omega)
      simp only [catalog_from, hgt, if_false, List.length_append, List.length_cons,
        List.length_nil, ← c_strlen_eq]
      omega

/-- The memory left by the catalog builder when the settings memory extends
past the bound. -/
theorem catalog_build_fst (C : Nat) (r : ei_impulse_result_t) (mem : List Nat)
    (hne : ∀ l ∈ labels_of r, 0 < c_strlen l) (hwin : C < mem.length) :
    (catalog_build C r mem).1 =
      catalog_spec C (labels_of r)
        ++ (List.replicate C 0 ++ mem.drop C).drop (catalog_spec C (labels_of r)).length := by
  unfold catalog_build
  have hm : (c_memset mem 0 C).1 = [] ++ (List.replicate C 0 ++ mem.drop C) := by
    rw [c_memset_fst mem 0 C (le_of_lt hwin)]
    simp
  simp only
  rw [hm, catalog_loop_fst C r.classification 0 [] _ _
    (by
      intro c hc
      exact hne c.label (by simp only [labels_of]; exact List.mem_map_of_mem _ hc))
    rfl
    (by
      intro k hk
      rw [List.getElem?_append_left (by simpa using (by omega : k < C))]
      simp [List.getElem?_replicate]
      omega)
    (by
      intro _
      simp
      omega)]
  have hz : catalog_from C (List.map (fun c => c.label) r.classification) 0
      = catalog_spec C (labels_of r) := catalog_from_zero C (labels_of r)
  rw [List.nil_append, hz]

/-- C15: label catalog content.  For every result whose labels are non-empty
and every bound `C = app_edge_impulse_class_result_len`, the first call of
`display_results` leaves in the settings memory the catalog of the
specification, `label_i` followed by `/` for `i = 0 .. m - 1` in sequence
order, where `m` is the first index at which the bytes written so far plus the
length of `label_m` exceed `C`, or the label count; behind the catalog the
memory is as the initial `memset` left it.  So no label is written partially
and none after the first that does not fit.  The catalog is at most `C + 1`
bytes long, and the settings memory is modelled past index `C` so that its
last delimiter is visible. -/
theorem catalog_content (cfg : Config) (r : ei_impulse_result_t) (s : State)
    (hne : ∀ l ∈ labels_of r, 0 < c_strlen l)
    (hwin : cfg.app_edge_impulse_class_result_len < s.app_edge_impulse_settings.length)
    (hfirst : s.ble_inference_settings_ready = 0) :
    (display_results cfg r s).app_edge_impulse_settings =
        catalog_spec cfg.app_edge_impulse_class_result_len (labels_of r)
          ++ (List.replicate cfg.app_edge_impulse_class_result_len 0
              ++ s.app_edge_impulse_settings.drop cfg.app_edge_impulse_class_result_len).drop
            (catalog_spec cfg.app_edge_impulse_class_result_len (labels_of r)).length ∧
      (catalog_spec cfg.app_edge_impulse_class_result_len (labels_of r)).length
        ≤ cfg.app_edge_impulse_class_result_len + 1 ∧
      (display_results cfg r s).app_edge_impulse_settings.take
          (catalog_spec cfg.app_edge_impulse_class_result_len (labels_of r)).length
        = catalog_spec cfg.app_edge_impulse_class_result_len (labels_of r) := by
  have hmem : (display_results cfg r s).app_edge_impulse_settings
      = (catalog_build cfg.app_edge_impulse_class_result_len r s.app_edge_impulse_settings).1 := by
    rw [display_results_eq]
    simp [hfirst]
  have hbuild := catalog_build_fst cfg.app_edge_impulse_class_result_len r
    s.app_edge_impulse_settings hne hwin
  have hlen := catalog_from_length cfg.app_edge_impulse_class_result_len (labels_of r) 0
    (by omega)
  rw [catalog_from_zero, Nat.zero_add] at hlen
  refine ⟨by rw [hmem, hbuild], hlen, ?_⟩
  rw [hmem, hbuild]
  exact List.take_left' rfl

/-- Witness for C15: with the bound 8 and the labels "a", "bb", "ccccc" the
catalog is "a/bb/"; the third label does not fit and is left out whole. -/
theorem catalog_content_witness :
    (display_results cfg_ex result_ex state_ex).app_edge_impulse_settings
      = [97, 47, 98, 98, 47, 0, 0, 0, 0, 0, 0, 0] :=
  (catalog_content cfg_ex result_ex state_ex (by decide) (by decide) (by decide)).1.trans
    (by decide)

/-! ## Catalog timing -/

/-- What a step does to the mode flag, the settings memory and the
catalog flag: a step reports only when a classification succeeds, a reporting
step leaves the settings memory and the flag as `display_results` leaves
them, every other step leaves them alone, and in single-shot mode every
successful classification reports. -/
theorem step_settings (cfg : Config) (inp : RunInputs) (s : State) :
    (ei_run_impulse cfg inp s).continuous_mode = s.continuous_mode ∧
      (reported cfg inp s = true →
        classified_ok cfg inp s = true ∧
          (ei_run_impulse cfg inp s).app_edge_impulse_settings
            = (display_results cfg inp.result s).app_edge_impulse_settings ∧
          (ei_run_impulse cfg inp s).ble_inference_settings_ready
            = (display_results cfg inp.result s).ble_inference_settings_ready) ∧
      (reported cfg inp s = false →
        (ei_run_impulse cfg inp s).app_edge_impulse_settings = s.app_edge_impulse_settings ∧
          (ei_run_impulse cfg inp s).ble_inference_settings_ready
            = s.ble_inference_settings_ready) ∧
      (s.continuous_mode = false → classified_ok cfg inp s = true →
        reported cfg inp s = true) := by
  cases hinv : classifier_invoked cfg inp s
  · have hn := hinv
    rw [← Bool.not_eq_true, classifier_invoked_iff] at hn
    have hcl : classified_ok cfg inp s = false := by simp [classified_ok, hinv]
    have hquiet : ∀ evs : List Event, Event.display_results ∉ evs →
        (ei_run_impulse cfg inp s).trace = s.trace ++ evs →
        reported cfg inp s = false := by
      intro evs hd ht
      rw [reported_of_trace cfg inp s evs ht]; simpa using hd
    cases hst : s.inference_state
    · have hs := ei_run_impulse_idle cfg inp s (Or.inl hst)
      have hr := hquiet [] (by simp) (by rw [hs]; simp)
      exact ⟨by rw [hs], by simp [hr], fun _ => ⟨by rw [hs], by rw [hs]⟩, by simp [hcl]⟩
    · by_cases hd : inp.ei_read_timer_ms < (s.last_inference_ts + 2000) % UINT64_MOD
      · have hs := ei_run_impulse_idle cfg inp s (Or.inr (Or.inl ⟨hst, hd⟩))
        have hr := hquiet [] (by simp) (by rw [hs]; simp)
        exact ⟨by rw [hs], by simp [hr], fun _ => ⟨by rw [hs], by rw [hs]⟩, by simp [hcl]⟩
      · have hr := hquiet [Event.ei_microphone_inference_reset_buffers] (by simp)
          (by simp [ei_run_impulse, hst, hd, emit, set_state])
        exact ⟨by simp [ei_run_impulse, hst, hd, emit, set_state], by simp [hr],
          fun _ => ⟨by simp [ei_run_impulse, hst, hd, emit, set_state],
            by simp [ei_run_impulse, hst, hd, emit, set_state]⟩, by simp [hcl]⟩
    · cases hrec : inp.ei_microphone_inference_is_recording
      · exact absurd (Or.inr ⟨hst, hrec⟩) hn
      · have hs := ei_run_impulse_idle cfg inp s (Or.inr (Or.inr ⟨hst, hrec⟩))
        have hr := hquiet [] (by simp) (by rw [hs]; simp)
        exact ⟨by rw [hs], by simp [hr], fun _ => ⟨by rw [hs], by rw [hs]⟩, by simp [hcl]⟩
    · exact absurd (Or.inl hst) hn
  · have hstep := ei_run_impulse_of_invoked cfg inp s hinv
    generalize htd : ({ s with inference_state := INFERENCE_DATA_READY } : State) = t at hstep
    have ht1 : t.continuous_mode = s.continuous_mode := by rw [← htd]
    have ht2 : t.trace = s.trace := by rw [← htd]
    have ht3 : t.app_edge_impulse_settings = s.app_edge_impulse_settings := by rw [← htd]
    have ht4 : t.ble_inference_settings_ready = s.ble_inference_settings_ready := by rw [← htd]
    have ht5 : t.print_results = s.print_results := by rw [← htd]
    have ht6 : classifier_call cfg t = classifier_call cfg s := by rw [← htd]; rfl
    by_cases hok : inp.ei_error = EI_IMPULSE_OK
    · have hcl : classified_ok cfg inp s = true := (classified_ok_iff cfg inp s).mpr ⟨hinv, hok⟩
      by_cases hc : t.continuous_mode = true
      · by_cases hp : ((cfg.EI_CLASSIFIER_SLICES_PER_MODEL_WINDOW >>> 1 : Nat) : Int)
            ≤ t.print_results + (1 : Int)
        · rw [classify_ok_continuous_report cfg inp t hok hc hp] at hstep
          have hr : reported cfg inp s = true := by
            rw [reported_of_trace cfg inp s
              (classifier_call cfg s :: Event.display_results ::
                notify_events (emit (classifier_call cfg t) t))
              (by rw [hstep]; simp [display_results_eq, emit, ht2, ht6])]
            simp
          refine ⟨by rw [hstep]; simp [display_results_eq, emit, ht1], fun _ => ⟨hcl, ?_, ?_⟩,
            by simp [hr], fun _ _ => hr⟩
          · rw [hstep]; simp [display_results_eq, emit, ht3, ht4]
          · rw [hstep]; simp [display_results_eq, emit, ht4]
        · rw [classify_ok_continuous_quiet cfg inp t hok hc hp] at hstep
          have hr : reported cfg inp s = false := by
            rw [reported_of_trace cfg inp s [classifier_call cfg s]
              (by rw [hstep]; simp [emit, ht2, ht6])]
            simpa using (classifier_call_ne_display cfg s).symm
          refine ⟨by rw [hstep]; simp [emit, ht1], by simp [hr], fun _ => ⟨?_, ?_⟩, ?_⟩
          · rw [hstep]; simp [emit, ht3]
          · rw [hstep]; simp [emit, ht4]
          · intro hsingle; rw [← ht1, hc] at hsingle; exact absurd hsingle (by decide)
      · have hc2 : t.continuous_mode = false := Bool.eq_false_iff.mpr hc
        rw [classify_ok_single cfg inp t hok hc2] at hstep
        have hr : reported cfg inp s = true := by
          rw [reported_of_trace cfg inp s
            (classifier_call cfg s :: Event.display_results ::
              notify_events (emit (classifier_call cfg t) t))
            (by rw [hstep]; simp [display_results_eq, emit, ht2, ht6])]
          simp
        refine ⟨by rw [hstep]; simp [display_results_eq, emit, ht1], fun _ => ⟨hcl, ?_, ?_⟩,
          by simp [hr], fun _ _ => hr⟩
        · rw [hstep]; simp [display_results_eq, emit, ht3, ht4]
        · rw [hstep]; simp [display_results_eq, emit, ht4]
    · have hcl : classified_ok cfg inp s = false := by simp [classified_ok, hok]
      rw [classify_error cfg inp t hok] at hstep
      have hr : reported cfg inp s = false := by
        rw [reported_of_trace cfg inp s [classifier_call cfg s]
          (by rw [hstep]; simp [emit, ht2, ht6])]
        simpa using (classifier_call_ne_display cfg s).symm
      refine ⟨by rw [hstep]; simp [emit, ht1], by simp [hr], fun _ => ⟨?_, ?_⟩, by simp [hcl]⟩
      · rw [hstep]; simp [emit, ht3]
      · rw [hstep]; simp [emit, ht4]

/-- A run in which no classification succeeds leaves the mode flag, the
settings memory and the catalog flag alone. -/
theorem run_steps_settings (cfg : Config) (ins : List RunInputs) :
    ∀ s : State, count_ok cfg s ins = 0 →
      (run_steps cfg s ins).continuous_mode = s.continuous_mode ∧
        (run_steps cfg s ins).app_edge_impulse_settings = s.app_edge_impulse_settings ∧
        (run_steps cfg s ins).ble_inference_settings_ready = s.ble_inference_settings_ready := by
  induction ins with
  | nil => intro s _; exact ⟨rfl, rfl, rfl⟩
  | cons x rest ih =>
    intro s hc
    simp only [count_ok] at hc
    have h1 : classified_ok cfg x s = false := by
      cases hb : classified_ok cfg x s
      · rfl
      · simp [hb] at hc
    have h2 : count_ok cfg (ei_run_impulse cfg x s) rest = 0 := by omega
    obtain ⟨hm, hrep, hquiet, _⟩ := step_settings cfg x s
    have hr : reported cfg x s = false := by
      cases hb : reported cfg x s
      · rfl
      · have := (hrep hb).1
        rw [h1] at this
        exact absurd this (by decide)
    obtain ⟨e1, e2, e3⟩ := ih _ h2
    rw [run_steps_cons, e1, e2, e3, hm, (hquiet hr).1, (hquiet hr).2]
    exact ⟨rfl, rfl, rfl⟩

/-- Counterexample for C16 as stated.  In continuous mode the first successful
classification after `ei_start_impulse` is not reported and builds no
catalog: the settings memory and the catalog flag are as before.  And in a
second run, after stop and a new start, the first successful classification
does not build the catalog of its result: the settings memory still holds the
catalog of the first run. -/
theorem catalog_timing_counterexample :
    (classified_ok cfg_ex (inputs_ex 10 0)
        (ei_start_impulse cfg_ex ⟨5, true⟩ true false false state_ex) = true ∧
      (ei_run_impulse cfg_ex (inputs_ex 10 0)
        (ei_start_impulse cfg_ex ⟨5, true⟩ true false false state_ex)).app_edge_impulse_settings
        = state_ex.app_edge_impulse_settings ∧
      (ei_run_impulse cfg_ex (inputs_ex 10 0)
        (ei_start_impulse cfg_ex ⟨5, true⟩ true false false
          state_ex)).ble_inference_settings_ready = 0) ∧
    (classified_ok cfg_ex
        { inputs_ex 9000 0 with result := ⟨[{ label := [120, 121], value := 1 }]⟩ }
        (run_steps cfg_ex
          (ei_start_impulse cfg_ex ⟨5000, true⟩ false false false
            (ei_stop_impulse
              (run_steps cfg_ex (ei_start_impulse cfg_ex ⟨5, true⟩ false false false state_ex)
                [inputs_ex 2005 0, inputs_ex 2100 0])))
          [inputs_ex 7000 0]) = true ∧
      (run_steps cfg_ex
          (ei_start_impulse cfg_ex ⟨5000, true⟩ false false false
            (ei_stop_impulse
              (run_steps cfg_ex (ei_start_impulse cfg_ex ⟨5, true⟩ false false false state_ex)
                [inputs_ex 2005 0, inputs_ex 2100 0])))
          [inputs_ex 7000 0,
            { inputs_ex 9000 0 with result := ⟨[{ label := [120, 121], value := 1 }]⟩ }]
        ).app_edge_impulse_settings = [97, 47, 98, 98, 47, 0, 0, 0, 0, 0, 0, 0] ∧
      (catalog_build cfg_ex.app_edge_impulse_class_result_len
          ⟨[{ label := [120, 121], value := 1 }]⟩
          [97, 47, 98, 98, 47, 0, 0, 0, 0, 0, 0, 0]).1
        = [120, 121, 47, 0, 0, 0, 0, 0, 0, 0, 0, 0]) := by
  decide

/-- C16 (amended): catalog timing.  The label catalog is built exactly once
after boot, during the first step that reports a result while the flag
`ble_inference_settings_ready` is still 0, and it is never rebuilt: once the
flag is set no step changes the settings memory, and `ei_start_impulse` and
`ei_stop_impulse` change neither the memory nor the flag.  A step reports only
when a classification succeeds.  In single-shot mode every successful
classification reports, so when the flag is 0 at the start the catalog is
built during the very first successful classification after
`ei_start_impulse`; in continuous mode it is built during the first reported
classification. -/
theorem catalog_built_once (cfg : Config) (inp : RunInputs) (s : State) :
    (reported cfg inp s = true → s.ble_inference_settings_ready = 0 →
      (ei_run_impulse cfg inp s).app_edge_impulse_settings
          = (catalog_build cfg.app_edge_impulse_class_result_len inp.result
              s.app_edge_impulse_settings).1 ∧
        (ei_run_impulse cfg inp s).ble_inference_settings_ready = 1) ∧
    (s.ble_inference_settings_ready ≠ 0 →
      (ei_run_impulse cfg inp s).app_edge_impulse_settings = s.app_edge_impulse_settings ∧
        (ei_run_impulse cfg inp s).ble_inference_settings_ready
          = s.ble_inference_settings_ready) ∧
    (reported cfg inp s = false →
      (ei_run_impulse cfg inp s).app_edge_impulse_settings = s.app_edge_impulse_settings ∧
        (ei_run_impulse cfg inp s).ble_inference_settings_ready
          = s.ble_inference_settings_ready) ∧
    (reported cfg inp s = true → classified_ok cfg inp s = true) ∧
    (s.continuous_mode = false → classified_ok cfg inp s = true →
      reported cfg inp s = true) ∧
    (∀ (si : StartInputs) (continuous debug umax : Bool),
      (ei_start_impulse cfg si continuous debug umax s).app_edge_impulse_settings
          = s.app_edge_impulse_settings ∧
        (ei_start_impulse cfg si continuous debug umax s).ble_inference_settings_ready
          = s.ble_inference_settings_ready) ∧
    ((ei_stop_impulse s).app_edge_impulse_settings = s.app_edge_impulse_settings ∧
      (ei_stop_impulse s).ble_inference_settings_ready = s.ble_inference_settings_ready) ∧
    (∀ (si : StartInputs) (debug umax : Bool) (ins : List RunInputs),
      s.ble_inference_settings_ready = 0 →
      count_ok cfg (ei_start_impulse cfg si false debug umax s) ins = 0 →
      classified_ok cfg inp (run_steps cfg (ei_start_impulse cfg si false debug umax s) ins)
        = true →
      (run_steps cfg (ei_start_impulse cfg si false debug umax s) ins).app_edge_impulse_settings
          = s.app_edge_impulse_settings ∧
        (ei_run_impulse cfg inp
          (run_steps cfg (ei_start_impulse cfg si false debug umax s) ins)
          ).app_edge_impulse_settings
          = (catalog_build cfg.app_edge_impulse_class_result_len inp.result
              s.app_edge_impulse_settings).1 ∧
        (ei_run_impulse cfg inp
          (run_steps cfg (ei_start_impulse cfg si false debug umax s) ins)
          ).ble_inference_settings_ready = 1) := by
  have hbuilt : ∀ (x : RunInputs) (t : State), reported cfg x t = true →
      t.ble_inference_settings_ready = 0 →
      (ei_run_impulse cfg x t).app_edge_impulse_settings
          = (catalog_build cfg.app_edge_impulse_class_result_len x.result
              t.app_edge_impulse_settings).1 ∧
        (ei_run_impulse cfg x t).ble_inference_settings_ready = 1 := by
    intro x t hr h0
    obtain ⟨_, h2, h3⟩ := (step_settings cfg x t).2.1 hr
    rw [h2, h3, display_results_eq]
    simp [h0]
  have hstart : ∀ (si : StartInputs) (continuous debug umax : Bool),
      (ei_start_impulse cfg si continuous debug umax s).app_edge_impulse_settings
          = s.app_edge_impulse_settings ∧
        (ei_start_impulse cfg si continuous debug umax s).ble_inference_settings_ready
          = s.ble_inference_settings_ready := by
    intro si continuous debug umax
    cases continuous <;> cases hm : si.ei_microphone_inference_start <;>
      simp [ei_start_impulse, emit, hm]
  obtain ⟨_, hrep, hquiet, hsingle⟩ := step_settings cfg inp s
  refine ⟨hbuilt inp s, ?_, hquiet, fun h => (hrep h).1, hsingle, hstart, ?_, ?_⟩
  · intro hne
    cases hr : reported cfg inp s
    · exact hquiet hr
    · obtain ⟨_, h2, h3⟩ := hrep hr
      rw [h2, h3, display_results_eq]
      simp [hne]
  · by_cases h : s.inference_state = INFERENCE_STOPPED
    · simp [ei_stop_impulse, h]
    · simp [ei_stop_impulse, h, emit, set_state]
  · intro si debug umax ins h0 hcount hok
    have hmode : (ei_start_impulse cfg si false debug umax s).continuous_mode = false := by
      cases hm : si.ei_microphone_inference_start <;> simp [ei_start_impulse, emit, hm]
    obtain ⟨e1, e2, e3⟩ := run_steps_settings cfg ins _ hcount
    obtain ⟨s1, s2⟩ := hstart si false debug umax
    have hr := (step_settings cfg inp _).2.2.2 (by rw [e1, hmode]) hok
    have hb := hbuilt inp _ hr (by rw [e3, s2, h0])
    rw [e2, s1] at hb
    exact ⟨by rw [e2, s1], hb⟩

/-- Witness for C16 (amended): the first run after boot in single-shot mode;
the first successful classification builds the catalog "a/bb/". -/
theorem catalog_built_once_witness :
    (ei_run_impulse cfg_ex (inputs_ex 2100 0)
      (run_steps cfg_ex (ei_start_impulse cfg_ex ⟨5, true⟩ false false false state_ex)
        [inputs_ex 1000 0, inputs_ex 2005 0])).app_edge_impulse_settings
      = [97, 47, 98, 98, 47, 0, 0, 0, 0, 0, 0, 0] :=
  ((catalog_built_once cfg_ex (inputs_ex 2100 0) state_ex).2.2.2.2.2.2.2
    ⟨5, true⟩ false false [inputs_ex 1000 0, inputs_ex 2005 0] (by decide) (by decide)
    (by decide)).2.1.trans (by decide)

/-! ## LED animation -/

theorem led_handler_mode_animation (l : LedState) (h : l.animation ≠ 0) :
    (led_handler_mode l).animation = l.animation ∧
      (led_handler_mode l).dev.state = l.dev.state ∧
      (led_handler_mode l).dev.led_timer_running = l.dev.led_timer_running := by
  cases hst : l.dev.state <;>
    simp [led_handler_mode, EiDevicePSoC62.get_state, hst, h]

theorem led_handler_frame_animation (l : LedState) :
    (led_handler_frame l).animation = l.animation := by
  simp [led_handler_frame, led_write, apply_ite LedState.animation, EiDevicePSoC62.set_state]

theorem led_handler_frame_dev (l : LedState) :
    (l.animation = 1 → (led_handler_frame l).dev = l.dev.set_state eiStateIdle) ∧
      (l.animation ≠ 1 →
        (led_handler_frame l).dev.state = l.dev.state ∧
          (led_handler_frame l).dev.led_timer_running = l.dev.led_timer_running) := by
  constructor
  · intro h; simp [led_handler_frame, h]
  · intro h
    simp [led_handler_frame, led_write, apply_ite LedState.dev,
      apply_ite EiDevicePSoC62.state, apply_ite EiDevicePSoC62.led_timer_running, h]

/-- One tick while the animation counter is non-zero: the counter goes down
by one whatever the mode; at counter 1 the tick calls `set_state(eiStateIdle)`,
at any other counter it leaves the mode and the LED timer alone. -/
theorem led_handler_countdown (l : LedState) (h1 : 1 ≤ l.animation)
    (h2 : l.animation < UINT8_MOD) :
    (led_handler l).animation = l.animation - 1 ∧
      (l.animation = 1 →
        (led_handler l).dev.state = eiStateIdle ∧
          (led_handler l).dev.led_timer_running = false) ∧
      (l.animation ≠ 1 →
        (led_handler l).dev.state = l.dev.state ∧
          (led_handler l).dev.led_timer_running = l.dev.led_timer_running) := by
  have hne : l.animation ≠ 0 := by omega
  obtain ⟨ha, hs, ht⟩ := led_handler_mode_animation l hne
  have hne2 : (led_handler_mode l).animation ≠ 0 := by rw [ha]; exact hne
  have hfa := led_handler_frame_animation (led_handler_mode l)
  obtain ⟨hf1, hf2⟩ := led_handler_frame_dev (led_handler_mode l)
  have hstep : led_handler l =
      { led_handler_frame (led_handler_mode l) with
        animation := ((led_handler_frame (led_handler_mode l)).animation + UINT8_MOD - 1)
          % UINT8_MOD } := by
    simp [led_handler, hne2]
  rw [hstep]
  refine ⟨?_, ?_, ?_⟩
  · show ((led_handler_frame (led_handler_mode l)).animation + UINT8_MOD - 1) % UINT8_MOD = _
    rw [hfa, ha]
    unfold UINT8_MOD at h2 ⊢
    omega
  · intro h
    show (led_handler_frame (led_handler_mode l)).dev.state = _ ∧
      (led_handler_frame (led_handler_mode l)).dev.led_timer_running = _
    rw [hf1 (by rw [ha]; exact h)]
    simp [EiDevicePSoC62.set_state]
  · intro h
    show (led_handler_frame (led_handler_mode l)).dev.state = _ ∧
      (led_handler_frame (led_handler_mode l)).dev.led_timer_running = _
    obtain ⟨e1, e2⟩ := hf2 (by rw [ha]; exact h)
    rw [e1, e2, hs, ht]
    exact ⟨rfl, rfl⟩

/-- Counting down from `c`: after `c` ticks the mode is `eiStateIdle`, the LED
timer is stopped and the counter is 0; before that the mode is the one the
countdown started with. -/
theorem led_ticks_countdown (c : Nat) :
    ∀ l : LedState, l.animation = c → 1 ≤ c → c < UINT8_MOD →
      ((led_ticks c l).dev.state = eiStateIdle ∧
        (led_ticks c l).dev.led_timer_running = false ∧
        (led_ticks c l).animation = 0) ∧
      ∀ k, k < c → (led_ticks k l).dev.state = l.dev.state ∧
        (led_ticks k l).animation = c - k := by
  induction c with
  | zero => intro l _ h; omega
  | succ n ih =>
    intro l ha h1 h2
    obtain ⟨hd, hone, hmore⟩ := led_handler_countdown l (by omega) (by rw [ha]; exact h2)
    rcases Nat.eq_zero_or_pos n with hn | hn
    · subst hn
      obtain ⟨e1, e2⟩ := hone ha
      refine ⟨⟨?_, ?_, ?_⟩, ?_⟩
      · exact e1
      · exact e2
      · show (led_handler l).animation = 0
        rw [hd, ha]
      · intro k hk
        have : k = 0 := by omega
        subst this
        exact ⟨rfl, by simpa [led_ticks] using ha⟩
    · obtain ⟨e1, e2⟩ := hmore (by omega)
      obtain ⟨hfin, hbefore⟩ := ih (led_handler l) (by rw [hd, ha]; rfl) hn (by omega)
      refine ⟨hfin, ?_⟩
      intro k hk
      cases k with
      | zero => exact ⟨rfl, by simpa [led_ticks] using ha⟩
      | succ j =>
        obtain ⟨f1, f2⟩ := hbefore j (by omega)
        show (led_ticks j (led_handler l)).dev.state = _ ∧ (led_ticks j (led_handler l)).animation = _
        rw [f1, f2, e1]
        exact ⟨rfl, by omega⟩

theorem led_ticks_succ (n : Nat) (l : LedState) :
    led_ticks (n + 1) l = led_ticks n (led_handler l) := rfl

/-- The first tick in mode `eiStateFinished` with the counter at 0 arms the
animation, shows frame 10 and leaves the counter at 9. -/
theorem led_handler_arm (dev : EiDevicePSoC62) (h : dev.state = eiStateFinished) :
    (led_handler ⟨dev, 0⟩).animation = 9 ∧
      (led_handler ⟨dev, 0⟩).dev.state = eiStateFinished := by
  simp [led_handler, led_handler_mode, led_handler_frame, led_write, EiDevicePSoC62.get_state, h,
    UINT8_MOD]

/-- Between ticks the animation counter is at most 9. -/
theorem led_handler_le_nine (l : LedState) (h : l.animation ≤ 9) :
    (led_handler l).animation ≤ 9 := by
  rcases Nat.eq_zero_or_pos l.animation with h0 | h0
  · cases hst : l.dev.state <;>
      simp [led_handler, led_handler_mode, led_handler_frame, led_write,
        EiDevicePSoC62.get_state, hst, h0, UINT8_MOD]
  · have := (led_handler_countdown l h0 (by unfold UINT8_MOD; omega)).1
    omega

/-- C21: the Finished animation.  Starting from device mode
`eiStateFinished` with the animation counter at 0 and no other writer of the
mode, each of the first nine ticks of `led_handler` leaves the mode
`eiStateFinished` (the counter reads 9, 8, ..., 1 after them), and the tenth
tick sets the mode to `eiStateIdle` and returns the counter to 0: the animation
has exactly 10 steps and then reverts to idle. -/
theorem finished_animation (dev : EiDevicePSoC62) (h : dev.get_state = eiStateFinished) :
    (∀ k, 1 ≤ k → k ≤ 9 →
      (led_ticks k ⟨dev, 0⟩).dev.get_state = eiStateFinished ∧
        (led_ticks k ⟨dev, 0⟩).animation = 10 - k) ∧
      (led_ticks 10 ⟨dev, 0⟩).dev.get_state = eiStateIdle ∧
      (led_ticks 10 ⟨dev, 0⟩).animation = 0 ∧
      (led_ticks 10 ⟨dev, 0⟩).dev.led_timer_running = false := by
  have hst : dev.state = eiStateFinished := h
  obtain ⟨ha, hs⟩ := led_handler_arm dev hst
  obtain ⟨⟨e1, e2, e3⟩, hbefore⟩ :=
    led_ticks_countdown 9 (led_handler ⟨dev, 0⟩) ha (by omega) (by unfold UINT8_MOD; omega)
  have h10 : led_ticks 10 ⟨dev, 0⟩ = led_ticks 9 (led_handler ⟨dev, 0⟩) :=
    led_ticks_succ 9 ⟨dev, 0⟩
  rw [h10]
  refine ⟨?_, e1, e3, e2⟩
  intro k hk1 hk9
  obtain ⟨j, rfl⟩ : ∃ j, k = j + 1 := ⟨k - 1, by omega⟩
  obtain ⟨f1, f2⟩ := hbefore j (by omega)
  rw [led_ticks_succ]
  unfold EiDevicePSoC62.get_state
  rw [f1, f2, hs]
  exact ⟨rfl, by omega⟩

/-- Witness for C21: the device right after `set_state(eiStateFinished)`. -/
theorem finished_animation_witness :
    (led_ticks 9 ⟨state_ex.dev.set_state eiStateFinished, 0⟩).dev.get_state = eiStateFinished ∧
      (led_ticks 10 ⟨state_ex.dev.set_state eiStateFinished, 0⟩).dev.get_state = eiStateIdle :=
  ⟨((finished_animation (state_ex.dev.set_state eiStateFinished) (by decide)).1 9
      (by decide) (by decide)).1,
    (finished_animation (state_ex.dev.set_state eiStateFinished) (by decide)).2.1⟩

/-- C24: the Finished animation overrides later mode changes.  Once the
animation counter is non-zero, every tick of `led_handler` counts it down by
one whatever the current mode is, and the tick at counter 1 calls
`set_state(eiStateIdle)` for every current mode.  Between ticks the counter
is at most 9, so if another caller sets the mode to `eiStateSampling`,
`eiStateUploading` or `eiStateErasingFlash` while the animation is in progress
(counter `c`, `1 ≤ c ≤ 9`), the mode set stays for `c - 1` ticks and the `c`-th
tick forces the mode to `eiStateIdle` and stops the LED timer. -/
theorem animation_overrides_mode (l : LedState) (h1 : 1 ≤ l.animation)
    (h2 : l.animation < UINT8_MOD) :
    (led_handler l).animation = l.animation - 1 ∧
      (l.animation = 1 →
        (led_handler l).dev.get_state = eiStateIdle ∧
          (led_handler l).dev.led_timer_running = false) ∧
      ((led_ticks l.animation l).dev.get_state = eiStateIdle ∧
        (led_ticks l.animation l).dev.led_timer_running = false ∧
        (led_ticks l.animation l).animation = 0) ∧
      (∀ t : LedState, t.animation ≤ 9 → (led_handler t).animation ≤ 9) ∧
      (∀ m : EiState, m = eiStateSampling ∨ m = eiStateUploading ∨ m = eiStateErasingFlash →
        l.animation ≤ 9 →
        (led_ticks l.animation { l with dev := l.dev.set_state m }).dev.get_state
            = eiStateIdle ∧
          (led_ticks l.animation { l with dev := l.dev.set_state m }).dev.led_timer_running
            = false ∧
          ∀ k, k < l.animation →
            (led_ticks k { l with dev := l.dev.set_state m }).dev.get_state = m) := by
  obtain ⟨hd, hone, _⟩ := led_handler_countdown l h1 h2
  obtain ⟨⟨e1, e2, e3⟩, _⟩ := led_ticks_countdown l.animation l rfl h1 h2
  refine ⟨hd, hone, ⟨e1, e2, e3⟩, led_handler_le_nine, ?_⟩
  intro m _ _
  obtain ⟨⟨f1, f2, _⟩, hbefore⟩ :=
    led_ticks_countdown l.animation { l with dev := l.dev.set_state m } rfl h1 h2
  refine ⟨f1, f2, ?_⟩
  intro k hk
  have := (hbefore k hk).1
  show (led_ticks k { l with dev := l.dev.set_state m }).dev.state = m
  rw [this]
  cases m <;> rfl

/-- Witness for C24: the mode is set to `eiStateSampling` when the counter
is at 5; five ticks later the mode is `eiStateIdle` and the timer stopped. -/
theorem animation_overrides_mode_witness :
    (led_ticks 5 ⟨state_ex.dev.set_state eiStateSampling, 5⟩).dev.get_state = eiStateIdle ∧
      (led_ticks 5 ⟨state_ex.dev.set_state eiStateSampling, 5⟩).dev.led_timer_running
        = false :=
  ⟨(animation_overrides_mode ⟨state_ex.dev.set_state eiStateSampling, 5⟩ (by decide)
      (by decide)).2.2.1.1,
    (animation_overrides_mode ⟨state_ex.dev.set_state eiStateSampling, 5⟩ (by decide)
      (by decide)).2.2.1.2.1⟩

/-! ## Persistent classification failure -/

/-- A failing classification step entered in `INFERENCE_DATA_READY` only
records the classifier call. -/
theorem data_ready_failure (cfg : Config) (inp : RunInputs) (s : State)
    (hst : s.inference_state = INFERENCE_DATA_READY) (herr : inp.ei_error ≠ EI_IMPULSE_OK) :
    ei_run_impulse cfg inp s = { s with trace := s.trace ++ [classifier_call cfg s] } := by
  have hinv : classifier_invoked cfg inp s = true :=
    (classifier_invoked_iff cfg inp s).mpr (Or.inl hst)
  have hs : ({ s with inference_state := INFERENCE_DATA_READY } : State) = s := by
    cases s; simp_all
  rw [ei_run_impulse_of_invoked cfg inp s hinv, hs, classify_error cfg inp s herr]
  rfl

/-- A run of failing classifications started in `INFERENCE_DATA_READY` stays
there, keeps the throttle counter and the timestamp, and reports nothing. -/
theorem data_ready_failure_run (cfg : Config) (ins : List RunInputs) :
    ∀ s : State, s.inference_state = INFERENCE_DATA_READY →
      (∀ x ∈ ins, x.ei_error ≠ EI_IMPULSE_OK) →
      (run_steps cfg s ins).inference_state = INFERENCE_DATA_READY ∧
        (run_steps cfg s ins).print_results = s.print_results ∧
        (run_steps cfg s ins).last_inference_ts = s.last_inference_ts ∧
        ∃ evs : List Event, (run_steps cfg s ins).trace = s.trace ++ evs ∧
          Event.display_results ∉ evs := by
  induction ins with
  | nil => intro s hst _; exact ⟨hst, rfl, rfl, [], by simp [run_steps_nil], by simp⟩
  | cons x rest ih =>
    intro s hst herr
    have hx := data_ready_failure cfg x s hst (herr x (by simp))
    obtain ⟨e1, e2, e3, evs, e4, e5⟩ :=
      ih (ei_run_impulse cfg x s) (by rw [hx]; exact hst) (fun y hy => herr y (by simp [hy]))
    rw [run_steps_cons]
    refine ⟨e1, by rw [e2, hx], by rw [e3, hx], classifier_call cfg s :: evs, ?_, ?_⟩
    · rw [e4, hx]; simp
    · simp only [List.mem_cons, not_or]
      exact ⟨(classifier_call_ne_display cfg s).symm, e5⟩

/-- C22: persistent classification failure parks the machine.  Let step `a`
be the first step that calls the classifier, and let the classifier return an
error in `a` and in every later step `ins` (no start or stop in between).
Then after `a` and after each later step the state is `INFERENCE_DATA_READY`,
never waiting, sampling or stopped; each further step calls the classifier
again; no result is reported; and the throttle counter and the recorded
timestamp are the ones before `a`. -/
theorem persistent_failure_parks (cfg : Config) (s : State) (a : RunInputs)
    (ins : List RunInputs)
    (hinv : classifier_invoked cfg a s = true) (ha : a.ei_error ≠ EI_IMPULSE_OK)
    (herr : ∀ x ∈ ins, x.ei_error ≠ EI_IMPULSE_OK) :
    (run_steps cfg (ei_run_impulse cfg a s) ins).inference_state = INFERENCE_DATA_READY ∧
      (∀ x : RunInputs,
        classifier_invoked cfg x (run_steps cfg (ei_run_impulse cfg a s) ins) = true) ∧
      (∀ x : RunInputs, x.ei_error ≠ EI_IMPULSE_OK →
        (ei_run_impulse cfg x (run_steps cfg (ei_run_impulse cfg a s) ins)).inference_state
          = INFERENCE_DATA_READY) ∧
      Event.display_results ∉ emitted s (run_steps cfg (ei_run_impulse cfg a s) ins) ∧
      (run_steps cfg (ei_run_impulse cfg a s) ins).print_results = s.print_results ∧
      (run_steps cfg (ei_run_impulse cfg a s) ins).last_inference_ts = s.last_inference_ts := by
  have hstep : ei_run_impulse cfg a s =
      { s with
        inference_state := INFERENCE_DATA_READY
        trace := s.trace ++ [classifier_call cfg s] } := by
    rw [ei_run_impulse_of_invoked cfg a s hinv, classify_error cfg a _ ha]
    simp [emit, classifier_call]
  obtain ⟨e1, e2, e3, evs, e4, e5⟩ :=
    data_ready_failure_run cfg ins (ei_run_impulse cfg a s) (by rw [hstep]) herr
  refine ⟨e1, fun x => (classifier_invoked_iff cfg x _).mpr (Or.inl e1), ?_, ?_,
    by rw [e2, hstep], by rw [e3, hstep]⟩
  · intro x hx
    rw [data_ready_failure cfg x _ e1 hx]
    exact e1
  · rw [emitted_append s _ (classifier_call cfg s :: evs) (by rw [e4, hstep]; simp)]
    simp only [List.mem_cons, not_or]
    exact ⟨(classifier_call_ne_display cfg s).symm, e5⟩

/-- Witness for C22: collection ends, then the classifier fails four times
in a row. -/
theorem persistent_failure_parks_witness :
    (run_steps cfg_ex
      (ei_run_impulse cfg_ex (inputs_ex 10 (-1))
        { state_ex with inference_state := INFERENCE_SAMPLING })
      [inputs_ex 20 (-1), inputs_ex 30 (-2), inputs_ex 40 (-1)]).inference_state
      = INFERENCE_DATA_READY :=
  (persistent_failure_parks cfg_ex { state_ex with inference_state := INFERENCE_SAMPLING }
    (inputs_ex 10 (-1)) [inputs_ex 20 (-1), inputs_ex 30 (-2), inputs_ex 40 (-1)]
    (by decide) (by decide) (by decide)).1

/-! ## Exact arg-max rule, notification gating, counter bounds -/

/-- C23: the exact arg-max rule of `display_results`.  The running maximum
starts at 0 with winner index 0 and is replaced only by a strictly greater
confidence.  So when some confidence is strictly positive the winner is the
first index whose confidence equals the maximum, and that confidence is
positive; when no confidence is strictly greater than 0 the winner is index
0.  For a non-empty sequence of non-negative confidences the winner is thus
the first arg-max, while for the confidences -1/2, -1/10 it is index 0
although the first arg-max is index 1.  The label staged in the notification
buffer is the winner's. -/
theorem argmax_exact_rule (cfg : Config) (r : ei_impulse_result_t) (s : State) :
    ((∃ x ∈ confidences r, 0 < x) →
      is_first_argmax (confidences r) (find_max_ix r.classification 0 0 0) ∧
        0 < (confidences r).getD (find_max_ix r.classification 0 0 0) 0) ∧
    ((∀ x ∈ confidences r, x ≤ 0) → find_max_ix r.classification 0 0 0 = 0) ∧
    (r.classification ≠ [] → (∀ x ∈ confidences r, 0 ≤ x) →
      is_first_argmax (confidences r) (find_max_ix r.classification 0 0 0)) ∧
    (find_max_ix [{ label := [97], value := -1 / 2 }, { label := [98], value := -1 / 10 }]
        0 0 0 = 0 ∧
      is_first_argmax
        (confidences ⟨[{ label := [97], value := -1 / 2 }, { label := [98], value := -1 / 10 }]⟩)
        1) ∧
    (display_results cfg r s).app_edge_impulse_class_result =
      (stage_label cfg.app_edge_impulse_class_result_len
        (label_at r (find_max_ix r.classification 0 0 0)) s.app_edge_impulse_class_result).1 := by
  refine ⟨?_, find_max_ix_of_nonpos r, ?_, by decide!, by rw [display_results_eq]⟩
  · intro hpos
    have hfirst := find_max_ix_of_pos r hpos
    refine ⟨hfirst, ?_⟩
    obtain ⟨x, hx, h0⟩ := hpos
    exact lt_of_lt_of_le h0 (hfirst.2.1 x hx)
  · intro hne hnonneg
    by_cases hpos : ∃ x ∈ confidences r, 0 < x
    · exact find_max_ix_of_pos r hpos
    · have hle : ∀ x ∈ confidences r, x ≤ 0 := by
        intro x hx
        by_contra hn
        exact hpos ⟨x, hx, not_le.mp hn⟩
      rw [find_max_ix_of_nonpos r hle]
      have hlen : 0 < (confidences r).length := by
        cases hc : r.classification with
        | nil => exact absurd hc hne
        | cons c rest => simp [confidences, hc]
      have h0 : (confidences r).getD 0 0 = 0 :=
        le_antisymm (hle _ (getD_mem_of_lt _ _ hlen)) (hnonneg _ (getD_mem_of_lt _ _ hlen))
      refine ⟨hlen, ?_, by simp⟩
      intro x hx
      rw [h0]
      exact hle x hx

/-- Witness for C23: the confidences 0.2, 0.9, 0.9 have a positive value, and
the winner is index 1. -/
theorem argmax_exact_rule_witness :
    is_first_argmax (confidences result_ex) (find_max_ix result_ex.classification 0 0 0) ∧
      find_max_ix result_ex.classification 0 0 0 = 1 :=
  ⟨((argmax_exact_rule cfg_ex result_ex state_ex).1 ⟨9 / 10, by decide!, by decide!⟩).1,
    by decide!⟩

/-- C29: notification gating.  `bt_app_send_notification(index)` issues
`wiced_bt_gatt_server_send_notification` (for the class-result value, table
entry 2) if and only if `index` is `CLASS_RESULT`, the first byte of the
stored client configuration equals `GATT_CLIENT_CONFIG_NOTIFICATION` and the
connection id is non-zero; it then issues exactly that one command, with the
connection id.  In every other case nothing is sent and the state is returned
as it was.  In no case does the call change the notification buffer, the
client configuration or the connection id. -/
theorem notification_gating (index : Nat) (s : State) :
    ((∃ c, Event.wiced_bt_gatt_server_send_notification c
          ∈ emitted s (bt_app_send_notification index s)) ↔
        (index = ble_char_index.CLASS_RESULT.toNat ∧
          s.app_edge_impulse_class_result_client_char_config.getD 0 0
            = GATT_CLIENT_CONFIG_NOTIFICATION ∧
          s.bt_connection_id ≠ 0)) ∧
      ((index = ble_char_index.CLASS_RESULT.toNat ∧
          s.app_edge_impulse_class_result_client_char_config.getD 0 0
            = GATT_CLIENT_CONFIG_NOTIFICATION ∧
          s.bt_connection_id ≠ 0) →
        emitted s (bt_app_send_notification index s)
          = [Event.wiced_bt_gatt_server_send_notification s.bt_connection_id]) ∧
      (¬ (index = ble_char_index.CLASS_RESULT.toNat ∧
          s.app_edge_impulse_class_result_client_char_config.getD 0 0
            = GATT_CLIENT_CONFIG_NOTIFICATION ∧
          s.bt_connection_id ≠ 0) →
        bt_app_send_notification index s = s ∧
          emitted s (bt_app_send_notification index s) = []) ∧
      (bt_app_send_notification index s).app_edge_impulse_class_result
        = s.app_edge_impulse_class_result ∧
      (bt_app_send_notification index s).app_edge_impulse_class_result_client_char_config
        = s.app_edge_impulse_class_result_client_char_config ∧
      (bt_app_send_notification index s).bt_connection_id = s.bt_connection_id := by
  by_cases hc : index = ble_char_index.CLASS_RESULT.toNat ∧
      s.app_edge_impulse_class_result_client_char_config.getD 0 0
        = GATT_CLIENT_CONFIG_NOTIFICATION ∧
      s.bt_connection_id ≠ 0
  · obtain ⟨h1, h2, h3⟩ := hc
    have hs : bt_app_send_notification index s
        = emit (.wiced_bt_gatt_server_send_notification s.bt_connection_id) s := by
      have h3' : ¬ 0 = s.bt_connection_id := fun h => h3 h.symm
      simp [bt_app_send_notification, h1, ← h2, h3']
    have he : emitted s (bt_app_send_notification index s)
        = [Event.wiced_bt_gatt_server_send_notification s.bt_connection_id] :=
      emitted_append s _ _ (by rw [hs]; rfl)
    refine ⟨?_, fun _ => he, fun hn => absurd ⟨h1, h2, h3⟩ hn, by rw [hs]; rfl,
      by rw [hs]; rfl, by rw [hs]; rfl⟩
    rw [he]
    exact ⟨fun _ => ⟨h1, h2, h3⟩,
      fun _ => ⟨s.bt_connection_id, List.mem_singleton.mpr rfl⟩⟩
  · have hs : bt_app_send_notification index s = s := by
      unfold bt_app_send_notification
      by_cases h1 : index = ble_char_index.CLASS_RESULT.toNat
      · rw [if_pos h1]
        have : ¬ (GATT_CLIENT_CONFIG_NOTIFICATION
              = s.app_edge_impulse_class_result_client_char_config.getD 0 0
            ∧ 0 ≠ s.bt_connection_id) := by
          intro ⟨h2, h3⟩
          exact hc ⟨h1, h2.symm, fun h => h3 h.symm⟩
        rw [if_neg this]
      · rw [if_neg h1]
    refine ⟨?_, fun h => absurd h hc, fun _ => ⟨hs, by rw [hs]; exact emitted_self s⟩,
      by rw [hs], by rw [hs], by rw [hs]⟩
    rw [hs, emitted_self]
    exact ⟨fun ⟨_, hm⟩ => absurd hm (List.not_mem_nil _), fun h => absurd h hc⟩

/-- A step in which no classification succeeds keeps the throttle counter. -/
theorem print_results_of_not_ok (cfg : Config) (inp : RunInputs) (s : State)
    (h : classified_ok cfg inp s = false) :
    (ei_run_impulse cfg inp s).print_results = s.print_results := by
  cases hinv : classifier_invoked cfg inp s
  · have hn := hinv
    rw [← Bool.not_eq_true, classifier_invoked_iff] at hn
    cases hst : s.inference_state
    · simp [ei_run_impulse, hst]
    · by_cases hd : inp.ei_read_timer_ms < (s.last_inference_ts + 2000) % UINT64_MOD
      · simp [ei_run_impulse, hst, hd]
      · simp [ei_run_impulse, hst, hd, emit, set_state]
    · cases hr : inp.ei_microphone_inference_is_recording
      · exact absurd (Or.inr ⟨hst, hr⟩) hn
      · simp [ei_run_impulse, hst, hr]
    · exact absurd (Or.inl hst) hn
  · have herr : inp.ei_error ≠ EI_IMPULSE_OK := by
      intro hok
      have := (classified_ok_iff cfg inp s).mpr ⟨hinv, hok⟩
      rw [h] at this
      exact Bool.false_ne_true this
    rw [ei_run_impulse_of_invoked cfg inp s hinv, classify_error cfg inp _ herr]
    rfl

/-- One step in continuous mode keeps the throttle counter between `-N` and
`max (h - 1) 0`, where `h = N >> 1`. -/
theorem counter_bound_step (cfg : Config) (inp : RunInputs) (s : State)
    (hc : s.continuous_mode = true)
    (hlo : -(cfg.EI_CLASSIFIER_SLICES_PER_MODEL_WINDOW : Int) ≤ s.print_results)
    (hhi : s.print_results
      ≤ max (((cfg.EI_CLASSIFIER_SLICES_PER_MODEL_WINDOW >>> 1 : Nat) : Int) - 1) 0) :
    (ei_run_impulse cfg inp s).continuous_mode = true ∧
      -(cfg.EI_CLASSIFIER_SLICES_PER_MODEL_WINDOW : Int)
        ≤ (ei_run_impulse cfg inp s).print_results ∧
      (ei_run_impulse cfg inp s).print_results
        ≤ max (((cfg.EI_CLASSIFIER_SLICES_PER_MODEL_WINDOW >>> 1 : Nat) : Int) - 1) 0 := by
  have hmode : (ei_run_impulse cfg inp s).continuous_mode = true := by
    rw [(step_settings cfg inp s).1]; exact hc
  cases hok : classified_ok cfg inp s
  · rw [print_results_of_not_ok cfg inp s hok]
    exact ⟨hmode, hlo, hhi⟩
  · by_cases hp : ((cfg.EI_CLASSIFIER_SLICES_PER_MODEL_WINDOW >>> 1 : Nat) : Int)
        ≤ s.print_results + (1 : Int)
    · obtain ⟨_, _, h0⟩ := continuous_step_report cfg inp s hc hok hp
      rw [h0]
      exact ⟨hmode, by omega, le_max_right _ _⟩
    · have hq : s.print_results + (if classified_ok cfg inp s then 1 else 0)
          < ((cfg.EI_CLASSIFIER_SLICES_PER_MODEL_WINDOW >>> 1 : Nat) : Int) := by
        rw [hok]; simp only [if_true]; omega
      obtain ⟨_, _, _, _, h1⟩ := continuous_step_quiet cfg inp s hc hq
      rw [hok] at h1
      simp only [if_true] at h1
      rw [h1]
      refine ⟨hmode, by omega, ?_⟩
      exact le_trans (by omega) (le_max_left _ _)

/-- The bounds hold along every run in continuous mode. -/
theorem counter_bound_run (cfg : Config) (ins : List RunInputs) :
    ∀ s : State, s.continuous_mode = true →
      -(cfg.EI_CLASSIFIER_SLICES_PER_MODEL_WINDOW : Int) ≤ s.print_results →
      s.print_results
        ≤ max (((cfg.EI_CLASSIFIER_SLICES_PER_MODEL_WINDOW >>> 1 : Nat) : Int) - 1) 0 →
      -(cfg.EI_CLASSIFIER_SLICES_PER_MODEL_WINDOW : Int) ≤ (run_steps cfg s ins).print_results ∧
        (run_steps cfg s ins).print_results
          ≤ max (((cfg.EI_CLASSIFIER_SLICES_PER_MODEL_WINDOW >>> 1 : Nat) : Int) - 1) 0 := by
  induction ins with
  | nil => intro s _ hlo hhi; exact ⟨hlo, hhi⟩
  | cons x rest ih =>
    intro s hc hlo hhi
    obtain ⟨h1, h2, h3⟩ := counter_bound_step cfg x s hc hlo hhi
    rw [run_steps_cons]
    exact ih _ h1 h2 h3

/-- C30: the throttle counter is bounded.  With `N ≥ 0` slices per model
window and `h = N / 2`, after a continuous-mode start from any state and any
run of `ei_run_impulse` steps with any mix of classifier successes and
failures, the counter `print_results` satisfies
`-N ≤ print_results ≤ max (h - 1) 0`.  So when `N` fits a 32-bit `int`, the
counter and the value `print_results + 1` computed by the next increment stay
inside the range of `int`, however long continuous inference runs. -/
theorem throttle_counter_bounded (cfg : Config) (si : StartInputs) (debug umax : Bool)
    (s : State) (ins : List RunInputs) :
    -(cfg.EI_CLASSIFIER_SLICES_PER_MODEL_WINDOW : Int)
        ≤ (run_steps cfg (ei_start_impulse cfg si true debug umax s) ins).print_results ∧
      (run_steps cfg (ei_start_impulse cfg si true debug umax s) ins).print_results
        ≤ max (((cfg.EI_CLASSIFIER_SLICES_PER_MODEL_WINDOW / 2 : Nat) : Int) - 1) 0 ∧
      (cfg.EI_CLASSIFIER_SLICES_PER_MODEL_WINDOW ≤ 2147483647 →
        -2147483648
            ≤ (run_steps cfg (ei_start_impulse cfg si true debug umax s) ins).print_results ∧
          (run_steps cfg (ei_start_impulse cfg si true debug umax s) ins).print_results + 1
            ≤ 2147483647) := by
  have hc : (ei_start_impulse cfg si true debug umax s).continuous_mode = true := by
    cases hm : si.ei_microphone_inference_start <;> simp [ei_start_impulse, emit, hm]
  have hp : (ei_start_impulse cfg si true debug umax s).print_results
      = -(cfg.EI_CLASSIFIER_SLICES_PER_MODEL_WINDOW : Int) := by
    cases hm : si.ei_microphone_inference_start <;> simp [ei_start_impulse, emit, hm]
  have hsh : cfg.EI_CLASSIFIER_SLICES_PER_MODEL_WINDOW >>> 1
      = cfg.EI_CLASSIFIER_SLICES_PER_MODEL_WINDOW / 2 := by
    rw [Nat.shiftRight_eq_div_pow, Nat.pow_one]
  obtain ⟨h1, h2⟩ := counter_bound_run cfg ins _ hc (by rw [hp])
    (by rw [hp]; exact le_trans (by omega) (le_max_right _ _))
  rw [hsh] at h2
  refine ⟨h1, h2, ?_⟩
  intro hN
  have h3 : max (((cfg.EI_CLASSIFIER_SLICES_PER_MODEL_WINDOW / 2 : Nat) : Int) - 1) 0
      ≤ 1073741823 := by
    apply max_le <;> omega
  constructor <;> omega

/-! ## GATT write handler -/

/-- The status the loop body returns for the matching entry. -/
theorem write_entry_status (h : Handles) (cfg : Config) (si : StartInputs) (attr_handle : Nat)
    (p_val : List Nat) (len : Nat) (e : gatt_db_lookup_table_t) (n : Nat) (s : State) :
    (write_entry h cfg si attr_handle p_val len e n s).1
      = if e.max_len < len then WICED_BT_GATT_INVALID_HANDLE
        else if attr_handle ≠ h.HDLC_EDGE_IMPULSE_INFERENCE_VALUE
            ∧ attr_handle = h.HDLD_EDGE_IMPULSE_CLASS_RESULT_CLIENT_CHAR_CONFIG ∧ len ≠ 2 then
          WICED_BT_GATT_INVALID_ATTR_LEN
        else WICED_BT_GATT_SUCCESS := by
  unfold write_entry
  dsimp only
  split_ifs <;> first | rfl | omega

/-- The entry the loop body leaves: untouched when the value is too long,
otherwise with the new length and the copied bytes. -/
theorem write_entry_entry (h : Handles) (cfg : Config) (si : StartInputs) (attr_handle : Nat)
    (p_val : List Nat) (len : Nat) (e : gatt_db_lookup_table_t) (n : Nat) (s : State) :
    (write_entry h cfg si attr_handle p_val len e n s).2.1
      = if e.max_len < len then e
        else { e with cur_len := len, p_data := (c_memcpy e.p_data p_val len).1 } := by
  unfold write_entry
  dsimp only
  split_ifs <;> first | rfl | (exfalso; omega)

/-- A value that is too long changes neither `notify_enabled` nor the core. -/
theorem write_entry_too_long (h : Handles) (cfg : Config) (si : StartInputs) (attr_handle : Nat)
    (p_val : List Nat) (len : Nat) (e : gatt_db_lookup_table_t) (n : Nat) (s : State)
    (hl : e.max_len < len) :
    write_entry h cfg si attr_handle p_val len e n s
      = (WICED_BT_GATT_INVALID_HANDLE, e, n, s) := by
  unfold write_entry
  have : ¬ e.max_len ≥ len := by omega
  dsimp only
  rw [if_neg this]

/-- The core state after the loop body for the inference handle. -/
theorem write_entry_inference (h : Handles) (cfg : Config) (si : StartInputs)
    (p_val : List Nat) (len : Nat) (e : gatt_db_lookup_table_t) (n : Nat) (s : State)
    (hl : len ≤ e.max_len) :
    (write_entry h cfg si h.HDLC_EDGE_IMPULSE_INFERENCE_VALUE p_val len e n s).2.2.2
      = if p_val.getD 0 0 ≠ 0 then ei_start_impulse cfg si false false false s
        else ei_stop_impulse s := by
  unfold write_entry
  have : e.max_len ≥ len := hl
  dsimp only
  rw [if_pos this, if_pos rfl]
  split_ifs <;> rfl

/-- Without an entry for the handle the loop runs to its end. -/
theorem write_loop_none (h : Handles) (cfg : Config) (si : StartInputs) (attr_handle : Nat)
    (p_val : List Nat) (len : Nat) (n : Nat) (s : State) :
    ∀ tbl : List gatt_db_lookup_table_t, (∀ e ∈ tbl, e.handle ≠ attr_handle) →
      write_loop h cfg si attr_handle p_val len n s tbl = none := by
  intro tbl
  induction tbl with
  | nil => intro _; rfl
  | cons e rest ih =>
    intro hno
    have he : e.handle ≠ attr_handle := hno e (List.mem_cons_self _ _)
    have hr := ih (fun x hx => hno x (List.mem_cons_of_mem _ hx))
    simp [write_loop, he, hr]

/-- The loop handles the first entry with the handle and leaves the entries
before and after it alone. -/
theorem write_loop_first (h : Handles) (cfg : Config) (si : StartInputs) (attr_handle : Nat)
    (p_val : List Nat) (len : Nat) (n : Nat) (s : State)
    (e : gatt_db_lookup_table_t) (post : List gatt_db_lookup_table_t)
    (he : e.handle = attr_handle) :
    ∀ pre : List gatt_db_lookup_table_t, (∀ x ∈ pre, x.handle ≠ attr_handle) →
      write_loop h cfg si attr_handle p_val len n s (pre ++ e :: post)
        = some ((write_entry h cfg si attr_handle p_val len e n s).1,
            pre ++ (write_entry h cfg si attr_handle p_val len e n s).2.1 :: post,
            (write_entry h cfg si attr_handle p_val len e n s).2.2.1,
            (write_entry h cfg si attr_handle p_val len e n s).2.2.2) := by
  intro pre
  induction pre with
  | nil => intro _; simp [write_loop, he]
  | cons x rest ih =>
    intro hno
    have hx : x.handle ≠ attr_handle := hno x (List.mem_cons_self _ _)
    have hr := ih (fun y hy => hno y (List.mem_cons_of_mem _ hy))
    simp [write_loop, hx, hr]

/-- A table with an entry for the handle splits at the first such entry. -/
theorem exists_first_entry (attr_handle : Nat) :
    ∀ tbl : List gatt_db_lookup_table_t, (∃ e ∈ tbl, e.handle = attr_handle) →
      ∃ pre e post, tbl = pre ++ e :: post ∧ (∀ x ∈ pre, x.handle ≠ attr_handle) ∧
        e.handle = attr_handle := by
  intro tbl
  induction tbl with
  | nil => rintro ⟨e, hm, _⟩; exact absurd hm (List.not_mem_nil _)
  | cons x rest ih =>
    rintro ⟨e, hm, he⟩
    by_cases hx : x.handle = attr_handle
    · exact ⟨[], x, rest, rfl, fun y hy => absurd hy (List.not_mem_nil _), hx⟩
    · have hm2 : e ∈ rest := by
        rcases List.mem_cons.mp hm with h1 | h1
        · exact absurd (h1 ▸ he) hx
        · exact h1
      obtain ⟨pre, e2, post, h1, h2, h3⟩ := ih ⟨e, hm2, he⟩
      refine ⟨x :: pre, e2, post, by rw [h1]; rfl, ?_, h3⟩
      intro y hy
      rcases List.mem_cons.mp hy with h4 | h4
      · rw [h4]; exact hx
      · exact h2 y h4

/-- The write handler on a table without the handle. -/
theorem write_value_unknown (h : Handles) (cfg : Config) (si : StartInputs) (attr_handle : Nat)
    (p_val : List Nat) (len : Nat) (b : BleState)
    (hno : ∀ e ∈ b.app_gatt_db_ext_attr_tbl, e.handle ≠ attr_handle) :
    bt_app_gatt_req_write_value h cfg si attr_handle p_val len b
      = (WICED_BT_GATT_WRITE_NOT_PERMIT, b) := by
  unfold bt_app_gatt_req_write_value
  rw [write_loop_none h cfg si attr_handle p_val len _ _ _ hno]

/-- The write handler on a table split at the first entry with the handle. -/
theorem write_value_first (h : Handles) (cfg : Config) (si : StartInputs) (attr_handle : Nat)
    (p_val : List Nat) (len : Nat) (b : BleState)
    (pre : List gatt_db_lookup_table_t) (e : gatt_db_lookup_table_t)
    (post : List gatt_db_lookup_table_t)
    (ht : b.app_gatt_db_ext_attr_tbl = pre ++ e :: post)
    (hpre : ∀ x ∈ pre, x.handle ≠ attr_handle) (he : e.handle = attr_handle) :
    bt_app_gatt_req_write_value h cfg si attr_handle p_val len b
      = ((write_entry h cfg si attr_handle p_val len e b.notify_enabled b.core).1,
          { app_gatt_db_ext_attr_tbl :=
              pre ++ (write_entry h cfg si attr_handle p_val len e b.notify_enabled b.core).2.1
                :: post
            notify_enabled :=
              (write_entry h cfg si attr_handle p_val len e b.notify_enabled b.core).2.2.1
            core :=
              (write_entry h cfg si attr_handle p_val len e b.notify_enabled b.core).2.2.2 }) := by
  unfold bt_app_gatt_req_write_value
  rw [ht, write_loop_first h cfg si attr_handle p_val len _ _ e post he pre hpre]

/-- The status is never `WRITE_NOT_PERMIT` for an entry that is in the table. -/
theorem write_entry_status_ne (h : Handles) (cfg : Config) (si : StartInputs)
    (attr_handle : Nat) (p_val : List Nat) (len : Nat) (e : gatt_db_lookup_table_t) (n : Nat)
    (s : State) :
    (write_entry h cfg si attr_handle p_val len e n s).1 ≠ WICED_BT_GATT_WRITE_NOT_PERMIT := by
  rw [write_entry_status]
  split_ifs <;> decide

/-- C25: GATT write status.  For every attribute table, handle, value and
length, `bt_app_gatt_req_write_value` returns `WRITE_NOT_PERMIT` exactly when
no table entry has the handle.  Otherwise, for the first entry `e` with the
handle (the table splits as `pre ++ e :: post` with no such handle in `pre`),
it returns `INVALID_HANDLE` exactly when `len > max_len`, `INVALID_ATTR_LEN`
exactly when `len ≤ max_len`, the handle is the class-result
client-configuration descriptor and `len ≠ 2`, and `SUCCESS` in every
remaining case; on `SUCCESS` the entry at that position has `cur_len = len`
and its first `len` data bytes are the `len` bytes of the value.  The two
handles are labels of one `switch`, hence different. -/
theorem gatt_write_status (h : Handles) (cfg : Config) (si : StartInputs) (attr_handle : Nat)
    (p_val : List Nat) (len : Nat) (b : BleState)
    (hd : h.HDLC_EDGE_IMPULSE_INFERENCE_VALUE
      ≠ h.HDLD_EDGE_IMPULSE_CLASS_RESULT_CLIENT_CHAR_CONFIG) :
    ((bt_app_gatt_req_write_value h cfg si attr_handle p_val len b).1
        = WICED_BT_GATT_WRITE_NOT_PERMIT
      ↔ ∀ e ∈ b.app_gatt_db_ext_attr_tbl, e.handle ≠ attr_handle) ∧
    ∀ (pre : List gatt_db_lookup_table_t) (e : gatt_db_lookup_table_t)
      (post : List gatt_db_lookup_table_t),
      b.app_gatt_db_ext_attr_tbl = pre ++ e :: post →
      (∀ x ∈ pre, x.handle ≠ attr_handle) → e.handle = attr_handle →
      ((bt_app_gatt_req_write_value h cfg si attr_handle p_val len b).1
          = WICED_BT_GATT_INVALID_HANDLE ↔ e.max_len < len) ∧
      ((bt_app_gatt_req_write_value h cfg si attr_handle p_val len b).1
          = WICED_BT_GATT_INVALID_ATTR_LEN
        ↔ (len ≤ e.max_len ∧
            attr_handle = h.HDLD_EDGE_IMPULSE_CLASS_RESULT_CLIENT_CHAR_CONFIG ∧ len ≠ 2)) ∧
      ((bt_app_gatt_req_write_value h cfg si attr_handle p_val len b).1
          = WICED_BT_GATT_SUCCESS
        ↔ (len ≤ e.max_len ∧
            ¬ (attr_handle = h.HDLD_EDGE_IMPULSE_CLASS_RESULT_CLIENT_CHAR_CONFIG ∧ len ≠ 2))) ∧
      ((bt_app_gatt_req_write_value h cfg si attr_handle p_val len b).1
          = WICED_BT_GATT_SUCCESS →
        ∃ e2 : gatt_db_lookup_table_t,
          (bt_app_gatt_req_write_value h cfg si attr_handle p_val len b).2.app_gatt_db_ext_attr_tbl
              = pre ++ e2 :: post ∧
            e2.handle = attr_handle ∧ e2.cur_len = len ∧
            (len ≤ p_val.length → len ≤ e.p_data.length →
              e2.p_data.take len = p_val.take len)) := by
  constructor
  · constructor
    · intro hs e he hh
      obtain ⟨pre, e1, post, ht, hpre, he1⟩ :=
        exists_first_entry attr_handle b.app_gatt_db_ext_attr_tbl ⟨e, he, hh⟩
      rw [write_value_first h cfg si attr_handle p_val len b pre e1 post ht hpre he1] at hs
      exact write_entry_status_ne h cfg si attr_handle p_val len e1 _ _ hs
    · intro hno
      rw [write_value_unknown h cfg si attr_handle p_val len b hno]
  · intro pre e post ht hpre he
    rw [write_value_first h cfg si attr_handle p_val len b pre e post ht hpre he]
    dsimp only
    rw [write_entry_status, write_entry_entry]
    by_cases hl : e.max_len < len
    · simp only [hl, if_true]
      refine ⟨by simp, ?_, ?_, ?_⟩
      · constructor
        · intro hx; exact absurd hx (by decide)
        · intro hx; omega
      · constructor
        · intro hx; exact absurd hx (by decide)
        · intro hx; omega
      · intro hx; exact absurd hx (by decide)
    · have hle : len ≤ e.max_len := by omega
      simp only [hl, if_false]
      by_cases hc : attr_handle = h.HDLD_EDGE_IMPULSE_CLASS_RESULT_CLIENT_CHAR_CONFIG ∧ len ≠ 2
      · have hi : attr_handle ≠ h.HDLC_EDGE_IMPULSE_INFERENCE_VALUE := by
          rw [hc.1]; exact fun hx => hd hx.symm
        have hcc : attr_handle ≠ h.HDLC_EDGE_IMPULSE_INFERENCE_VALUE
            ∧ attr_handle = h.HDLD_EDGE_IMPULSE_CLASS_RESULT_CLIENT_CHAR_CONFIG ∧ len ≠ 2 :=
          ⟨hi, hc⟩
        rw [if_pos hcc]
        refine ⟨?_, ?_, ?_, ?_⟩
        · constructor
          · intro hx; exact absurd hx (by decide)
          · intro hx; exact hx.elim
        · exact ⟨fun _ => ⟨hle, hc⟩, fun _ => rfl⟩
        · constructor
          · intro hx; exact absurd hx (by decide)
          · intro hx; exact absurd hc hx.2
        · intro hx; exact absurd hx (by decide)
      · have hcc : ¬ (attr_handle ≠ h.HDLC_EDGE_IMPULSE_INFERENCE_VALUE
            ∧ attr_handle = h.HDLD_EDGE_IMPULSE_CLASS_RESULT_CLIENT_CHAR_CONFIG ∧ len ≠ 2) :=
          fun hx => hc hx.2
        rw [if_neg hcc]
        refine ⟨?_, ?_, ?_, ?_⟩
        · constructor
          · intro hx; exact absurd hx (by decide)
          · intro hx; exact hx.elim
        · constructor
          · intro hx; exact absurd hx (by decide)
          · intro hx; exact absurd hx.2 hc
        · exact ⟨fun _ => ⟨hle, hc⟩, fun _ => rfl⟩
        · intro _
          refine ⟨_, rfl, he, rfl, ?_⟩
          intro h1 h2
          dsimp only
          rw [c_memcpy_fst e.p_data p_val len h1 h2, List.take_append_of_le_length (by simp [h1])]
          simp

/-- Witness for C25 on the example table: two bytes written to the
client-configuration descriptor (handle 12, the second entry) are accepted and
stored. -/
theorem gatt_write_status_witness :
    handles_ex.HDLC_EDGE_IMPULSE_INFERENCE_VALUE
        ≠ handles_ex.HDLD_EDGE_IMPULSE_CLASS_RESULT_CLIENT_CHAR_CONFIG ∧
      ((bt_app_gatt_req_write_value handles_ex cfg_ex ⟨5, true⟩ 12 [1, 0] 2 ble_ex).1
          = WICED_BT_GATT_SUCCESS
        ↔ (2 ≤ 2 ∧
            ¬ (12 = handles_ex.HDLD_EDGE_IMPULSE_CLASS_RESULT_CLIENT_CHAR_CONFIG ∧ 2 ≠ 2))) :=
  ⟨by decide,
    ((gatt_write_status handles_ex cfg_ex ⟨5, true⟩ 12 [1, 0] 2 ble_ex (by decide)).2
      [{ handle := 11, max_len := 8, cur_len := 8, p_data := List.replicate 8 0 }]
      { handle := 12, max_len := 2, cur_len := 2, p_data := [0, 0] }
      [{ handle := 9, max_len := 1, cur_len := 1, p_data := [0] },
       { handle := 14, max_len := 12, cur_len := 12, p_data := List.replicate 12 0 }]
      rfl (by decide) rfl).2.2.1⟩

/-- C26: GATT write atomicity on rejection.  When
`bt_app_gatt_req_write_value` returns `WRITE_NOT_PERMIT` (unknown handle) or
`INVALID_HANDLE` (value longer than `max_len`), the table and the rest of the
state are exactly as before, so every entry keeps its `cur_len` and data.
When it returns `INVALID_ATTR_LEN`, the first entry `e` with the handle has
`len ≤ max_len` and `len ≠ 2`, and the table already holds in its place the
entry with `cur_len = len` and the value copied into its data; that table
differs from the one before whenever `e.cur_len ≠ len`, so this rejection is
not atomic.  The last two conjuncts show it on the example table. -/
theorem gatt_write_rejection (h : Handles) (cfg : Config) (si : StartInputs)
    (attr_handle : Nat) (p_val : List Nat) (len : Nat) (b : BleState) :
    ((bt_app_gatt_req_write_value h cfg si attr_handle p_val len b).1
        = WICED_BT_GATT_WRITE_NOT_PERMIT →
      (bt_app_gatt_req_write_value h cfg si attr_handle p_val len b).2 = b) ∧
    ((bt_app_gatt_req_write_value h cfg si attr_handle p_val len b).1
        = WICED_BT_GATT_INVALID_HANDLE →
      (bt_app_gatt_req_write_value h cfg si attr_handle p_val len b).2 = b) ∧
    ((bt_app_gatt_req_write_value h cfg si attr_handle p_val len b).1
        = WICED_BT_GATT_INVALID_ATTR_LEN →
      ∃ (pre : List gatt_db_lookup_table_t) (e : gatt_db_lookup_table_t)
        (post : List gatt_db_lookup_table_t),
        b.app_gatt_db_ext_attr_tbl = pre ++ e :: post ∧
        (∀ x ∈ pre, x.handle ≠ attr_handle) ∧ e.handle = attr_handle ∧
        len ≤ e.max_len ∧ len ≠ 2 ∧
        (bt_app_gatt_req_write_value h cfg si attr_handle p_val len b).2.app_gatt_db_ext_attr_tbl
          = pre ++ { e with cur_len := len, p_data := (c_memcpy e.p_data p_val len).1 } :: post ∧
        (e.cur_len ≠ len →
          (bt_app_gatt_req_write_value h cfg si attr_handle p_val len b).2.app_gatt_db_ext_attr_tbl
            ≠ b.app_gatt_db_ext_attr_tbl)) ∧
    (bt_app_gatt_req_write_value handles_ex cfg_ex ⟨5, true⟩ 12 [1] 1 ble_ex).1
      = WICED_BT_GATT_INVALID_ATTR_LEN ∧
    (bt_app_gatt_req_write_value handles_ex cfg_ex ⟨5, true⟩ 12 [1] 1 ble_ex).2.app_gatt_db_ext_attr_tbl
      = [{ handle := 11, max_len := 8, cur_len := 8, p_data := List.replicate 8 0 },
         { handle := 12, max_len := 2, cur_len := 1, p_data := [1, 0] },
         { handle := 9, max_len := 1, cur_len := 1, p_data := [0] },
         { handle := 14, max_len := 12, cur_len := 12, p_data := List.replicate 12 0 }] := by
  have hsplit : (∀ e ∈ b.app_gatt_db_ext_attr_tbl, e.handle ≠ attr_handle) ∨
      ∃ pre e post, b.app_gatt_db_ext_attr_tbl = pre ++ e :: post ∧
        (∀ x ∈ pre, x.handle ≠ attr_handle) ∧ e.handle = attr_handle := by
    by_cases hex : ∃ e ∈ b.app_gatt_db_ext_attr_tbl, e.handle = attr_handle
    · exact Or.inr (exists_first_entry attr_handle _ hex)
    · exact Or.inl (fun e he hh => hex ⟨e, he, hh⟩)
  refine ⟨?_, ?_, ?_, by decide, by decide⟩
  · intro hs
    rcases hsplit with hno | ⟨pre, e, post, ht, hpre, he⟩
    · rw [write_value_unknown h cfg si attr_handle p_val len b hno]
    · rw [write_value_first h cfg si attr_handle p_val len b pre e post ht hpre he] at hs
      exact absurd hs (write_entry_status_ne h cfg si attr_handle p_val len e _ _)
  · intro hs
    rcases hsplit with hno | ⟨pre, e, post, ht, hpre, he⟩
    · rw [write_value_unknown h cfg si attr_handle p_val len b hno]
    · rw [write_value_first h cfg si attr_handle p_val len b pre e post ht hpre he] at hs ⊢
      dsimp only at hs ⊢
      have hl : e.max_len < len := by
        by_contra hl
        rw [write_entry_status, if_neg hl] at hs
        split_ifs at hs
      rw [write_entry_too_long h cfg si attr_handle p_val len e _ _ hl]
      dsimp only
      rw [← ht]
  · intro hs
    rcases hsplit with hno | ⟨pre, e, post, ht, hpre, he⟩
    · rw [write_value_unknown h cfg si attr_handle p_val len b hno] at hs
      have hs2 : WICED_BT_GATT_WRITE_NOT_PERMIT = WICED_BT_GATT_INVALID_ATTR_LEN := hs
      exact absurd hs2 (by decide)
    · rw [write_value_first h cfg si attr_handle p_val len b pre e post ht hpre he] at hs ⊢
      dsimp only at hs ⊢
      have hl : ¬ e.max_len < len := by
        intro hl
        rw [write_entry_status, if_pos hl] at hs
        exact absurd hs (by decide)
      have h2 : len ≠ 2 := by
        rw [write_entry_status, if_neg hl] at hs
        split_ifs at hs with hc
        exact hc.2.2
      have hent := write_entry_entry h cfg si attr_handle p_val len e b.notify_enabled b.core
      rw [if_neg hl] at hent
      refine ⟨pre, e, post, ht, hpre, he, by omega, h2, by rw [hent], ?_⟩
      intro hcur heq
      rw [hent, ht] at heq
      have h3 := List.cons.inj (List.append_cancel_left heq)
      have h4 := congrArg gatt_db_lookup_table_t.cur_len h3.1
      exact hcur h4.symm

/-- C28: BLE control of inference.  When a write to the inference
characteristic is accepted (`SUCCESS`) and the value has a first byte `x`
(so its length is at least 1), then for `x ≠ 0` the core state is the one
`ei_start_impulse(false, false)` leaves: `INFERENCE_WAITING`, single-shot and
non-debug, whatever the state was before; and for `x = 0` it is the one
`ei_stop_impulse` leaves, which is `INFERENCE_STOPPED`. -/
theorem ble_inference_control (h : Handles) (cfg : Config) (si : StartInputs)
    (p_val : List Nat) (len : Nat) (b : BleState) (x : Nat)
    (hacc : (bt_app_gatt_req_write_value h cfg si h.HDLC_EDGE_IMPULSE_INFERENCE_VALUE
      p_val len b).1 = WICED_BT_GATT_SUCCESS)
    (hx : (p_val.take len)[0]? = some x) :
    1 ≤ len ∧
    (x ≠ 0 →
      (bt_app_gatt_req_write_value h cfg si h.HDLC_EDGE_IMPULSE_INFERENCE_VALUE
          p_val len b).2.core = ei_start_impulse cfg si false false false b.core ∧
        (bt_app_gatt_req_write_value h cfg si h.HDLC_EDGE_IMPULSE_INFERENCE_VALUE
          p_val len b).2.core.inference_state = INFERENCE_WAITING ∧
        (bt_app_gatt_req_write_value h cfg si h.HDLC_EDGE_IMPULSE_INFERENCE_VALUE
          p_val len b).2.core.continuous_mode = false ∧
        (bt_app_gatt_req_write_value h cfg si h.HDLC_EDGE_IMPULSE_INFERENCE_VALUE
          p_val len b).2.core.debug_mode = false) ∧
    (x = 0 →
      (bt_app_gatt_req_write_value h cfg si h.HDLC_EDGE_IMPULSE_INFERENCE_VALUE
          p_val len b).2.core = ei_stop_impulse b.core ∧
        (bt_app_gatt_req_write_value h cfg si h.HDLC_EDGE_IMPULSE_INFERENCE_VALUE
          p_val len b).2.core.inference_state = INFERENCE_STOPPED) := by
  have hlen : 1 ≤ len := by
    rcases Nat.eq_zero_or_pos len with h0 | h0
    · rw [h0] at hx; simp at hx
    · exact h0
  have hbyte : p_val.getD 0 0 = x := by
    rw [List.getElem?_take_of_lt (by omega)] at hx
    rw [List.getD_eq_getElem?_getD, hx]; rfl
  have hstop : (ei_stop_impulse b.core).inference_state = INFERENCE_STOPPED := by
    by_cases hs : b.core.inference_state = INFERENCE_STOPPED
    · simp [ei_stop_impulse, hs]
    · simp [ei_stop_impulse, hs, emit, set_state]
  by_cases hex : ∃ e ∈ b.app_gatt_db_ext_attr_tbl,
      e.handle = h.HDLC_EDGE_IMPULSE_INFERENCE_VALUE
  · obtain ⟨pre, e, post, ht, hpre, he⟩ := exists_first_entry _ _ hex
    rw [write_value_first h cfg si _ p_val len b pre e post ht hpre he] at hacc ⊢
    dsimp only at hacc ⊢
    have hl : len ≤ e.max_len := by
      by_contra hl
      rw [write_entry_status, if_pos (by omega)] at hacc
      exact absurd hacc (by decide)
    rw [write_entry_inference h cfg si p_val len e _ _ hl, hbyte]
    refine ⟨hlen, ?_, ?_⟩
    · intro hx0
      rw [if_pos hx0]
      refine ⟨rfl, ?_, ?_, ?_⟩ <;> simp [ei_start_impulse, emit]
    · intro hx0
      rw [if_neg (by simpa using hx0)]
      exact ⟨rfl, hstop⟩
  · have hno : ∀ e ∈ b.app_gatt_db_ext_attr_tbl,
        e.handle ≠ h.HDLC_EDGE_IMPULSE_INFERENCE_VALUE := fun e he hh => hex ⟨e, he, hh⟩
    rw [write_value_unknown h cfg si _ p_val len b hno] at hacc
    have hs2 : WICED_BT_GATT_WRITE_NOT_PERMIT = WICED_BT_GATT_SUCCESS := hacc
    exact absurd hs2 (by decide)

/-- Witness for C28 on the example table: the byte 1 written to the inference
characteristic (handle 9) puts the stopped machine into `INFERENCE_WAITING`. -/
theorem ble_inference_control_witness :
    (bt_app_gatt_req_write_value handles_ex cfg_ex ⟨5, true⟩
        handles_ex.HDLC_EDGE_IMPULSE_INFERENCE_VALUE [1] 1 ble_ex).1 = WICED_BT_GATT_SUCCESS ∧
      (bt_app_gatt_req_write_value handles_ex cfg_ex ⟨5, true⟩
        handles_ex.HDLC_EDGE_IMPULSE_INFERENCE_VALUE [1] 1 ble_ex).2.core.inference_state
        = INFERENCE_WAITING :=
  ⟨by decide,
    ((ble_inference_control handles_ex cfg_ex ⟨5, true⟩ [1] 1 ble_ex 1 (by decide) rfl).2.1
      (by decide)).2.1⟩

/-! ## GATT read handler -/

/-- One iteration of the lookup at an entry with another handle. -/
theorem find_by_handle_skip (tbl : List gatt_db_lookup_table_t) (handle fuel i : Nat)
    (e : gatt_db_lookup_table_t) (hi : tbl[i]? = some e) (hne : e.handle ≠ handle) :
    bt_app_find_by_handle tbl handle (fuel + 1) i
      = bt_app_find_by_handle tbl handle fuel ((i + 1) % UINT8_MOD) := by
  have hne2 : ¬ handle = e.handle := fun hx => hne hx.symm
  simp only [bt_app_find_by_handle, hi, if_neg hne2]

/-- The bound on the table size in the two lemmas above is what lets the
counter reach the size: on a table of 256 entries the counter wraps from 255
to 0, always stays below the size, and the lookup for a handle that is not
there has not returned after any number of iterations. -/
theorem find_by_handle_wraps :
    ∀ fuel i : Nat, i < UINT8_MOD → bt_app_find_by_handle tbl_full 2 fuel i = none := by
  intro fuel
  induction fuel with
  | zero => intro i _; rfl
  | succ fuel ih =>
    intro i hi
    have hi2 : i < 256 := hi
    have hget : tbl_full[i]?
        = some { handle := 1, max_len := 4, cur_len := 4, p_data := [0, 0, 0, 0] } := by
      unfold tbl_full
      rw [List.getElem?_replicate, if_pos hi2]
    rw [find_by_handle_skip tbl_full 2 fuel i _ hget (by decide)]
    exact ih _ (Nat.mod_lt _ (by decide))

end PSoC6
